import Mathlib

/-! H.264 packetizer (modules/packetizer/h264.c): shallow embedding

The packetizer state `decoder_sys_t` becomes a record that is passed
explicitly; a block chain (`block_t *` linked through `p_next`) becomes a
`List block_t`, the empty list standing for `NULL`.  A function whose C body
dereferences a null chain returns `none`; a returned picture pointer that may
be `NULL` is an inner `Option block_t`.

Bytes are `Nat`, `mtime_t` and `int` are `Int`, `uint32_t` flag words are
`Nat` with the bitwise operators of `Nat`.
-/

set_option autoImplicit false

namespace H264

/-! ## Constants of headers that are used by h264.c -/

/-- Modelled from the spec: `VLC_TS_INVALID` (vlc_config.h is absent); the
spec calls such a timestamp missing, the header gives it the value 0. -/
def VLC_TS_INVALID : Int := 0

/-- Modelled from the spec: `CLOCK_FREQ` (vlc_config.h is absent), the host
microsecond clock, 1,000,000. -/
def CLOCK_FREQ : Int := 1000000

/-- Modelled from the spec: block flag "discontinuity" (vlc_block.h is absent). -/
def BLOCK_FLAG_DISCONTINUITY : Nat := 0x0001
/-- Modelled from the spec: frame-type flag I (vlc_block.h is absent). -/
def BLOCK_FLAG_TYPE_I : Nat := 0x0002
/-- Modelled from the spec: frame-type flag P (vlc_block.h is absent). -/
def BLOCK_FLAG_TYPE_P : Nat := 0x0004
/-- Modelled from the spec: frame-type flag B (vlc_block.h is absent). -/
def BLOCK_FLAG_TYPE_B : Nat := 0x0008
/-- Modelled from the spec: frame-type flag PB (vlc_block.h is absent). -/
def BLOCK_FLAG_TYPE_PB : Nat := 0x0010
/-- Modelled from the spec: pre-roll flag (vlc_block.h is absent). -/
def BLOCK_FLAG_PREROLL : Nat := 0x0800
/-- Modelled from the spec: block flag "corrupted" (vlc_block.h is absent). -/
def BLOCK_FLAG_CORRUPTED : Nat := 0x1000
/-- Modelled from the spec: top-field-first flag (vlc_block.h is absent). -/
def BLOCK_FLAG_TOP_FIELD_FIRST : Nat := 0x2000
/-- Modelled from the spec: bottom-field-first flag (vlc_block.h is absent). -/
def BLOCK_FLAG_BOTTOM_FIELD_FIRST : Nat := 0x4000
/-- Modelled from the spec: mask of the frame-type flags (vlc_block.h is absent). -/
def BLOCK_FLAG_TYPE_MASK : Nat :=
  BLOCK_FLAG_TYPE_I ||| BLOCK_FLAG_TYPE_P ||| BLOCK_FLAG_TYPE_B ||| BLOCK_FLAG_TYPE_PB
/-- Modelled from the spec: first module-private flag bit (vlc_block.h is absent). -/
def BLOCK_FLAG_PRIVATE_SHIFT : Nat := 24

/-- The internal AUD-private marker, `1 << BLOCK_FLAG_PRIVATE_SHIFT` (h264.c:148). -/
def BLOCK_FLAG_PRIVATE_AUD : Nat := 1 <<< BLOCK_FLAG_PRIVATE_SHIFT

/-- Modelled from the spec: NAL type of a non-IDR slice (h264_nal.h is absent). -/
def NAL_SLICE : Nat := 1
/-- Modelled from the spec: NAL type of an IDR slice (h264_nal.h is absent). -/
def NAL_SLICE_IDR : Nat := 5
/-- Modelled from the spec: NAL type of an SEI (h264_nal.h is absent). -/
def NAL_SEI : Nat := 6
/-- Modelled from the spec: NAL type of an SPS (h264_nal.h is absent). -/
def NAL_SPS : Nat := 7
/-- Modelled from the spec: NAL type of a PPS (h264_nal.h is absent). -/
def NAL_PPS : Nat := 8
/-- Modelled from the spec: NAL type of an access unit delimiter (h264_nal.h is absent). -/
def NAL_AU_DELIMITER : Nat := 9
/-- Modelled from the spec: number of SPS slots, ids 0..31 (h264_nal.h is absent). -/
def SPS_MAX : Nat := 32
/-- Modelled from the spec: number of PPS slots, ids 0..255 (h264_nal.h is absent). -/
def PPS_MAX : Nat := 256
/-- Modelled from the spec: SEI payload type pic_timing (h264_nal.h is absent). -/
def SEI_PIC_TIMING : Nat := 1
/-- Modelled from the spec: SEI payload type user_data_registered_itu_t_t35
(h264_nal.h is absent). -/
def SEI_USER_DATA_REGISTERED : Nat := 4
/-- Modelled from the spec: SEI payload type recovery_point (h264_nal.h is absent). -/
def SEI_RECOVERY_POINT : Nat := 6

/-! ## Data model -/

/-- A block of the block chain: `block_t` without its `p_next` link. -/
structure block_t where
  p_buffer : List Nat
  i_flags : Nat
  i_pts : Int
  i_dts : Int
  i_length : Int
deriving DecidableEq, Repr

/-- The retained slice summary `slice_t` (h264.c:66-85). -/
structure slice_t where
  i_nal_type : Int
  i_nal_ref_idc : Int
  i_frame_type : Nat
  i_pic_parameter_set_id : Int
  i_frame_num : Int
  i_field_pic_flag : Int
  i_bottom_field_flag : Int
  i_idr_pic_id : Int
  i_pic_order_cnt_lsb : Int
  i_delta_pic_order_cnt_bottom : Int
  i_delta_pic_order_cnt0 : Int
  i_delta_pic_order_cnt1 : Int
deriving DecidableEq, Repr

/-- Modelled from the spec: the caption buffer `cc_data_t` (codec/cc.h is
absent): the channel-present mask, the reorder mark and the buffered payload. -/
structure cc_data_t where
  pb_present : List Bool
  b_reorder : Bool
  p_data : List Nat
deriving DecidableEq, Repr

/-- Modelled from the spec: `cc_Init` (codec/cc.h is absent): an empty buffer
with a 4-entry mask. -/
def cc_Init : cc_data_t :=
  { pb_present := [false, false, false, false], b_reorder := false, p_data := [] }

/-- Modelled from the spec: `cc_Flush` (codec/cc.h is absent): drops the
buffered payload. -/
def cc_Flush (c : cc_data_t) : cc_data_t :=
  { c with p_data := [] }

/-- The output format fields of `p_dec->fmt_out` that PutSPS writes. -/
structure es_format_t where
  i_profile : Int
  i_level : Int
  i_width : Int
  i_height : Int
  i_sar_num : Int
  i_sar_den : Int
deriving DecidableEq, Repr

/-- Modelled from the spec: the VUI part of `struct nal_sps` (h264_nal.h is absent). -/
structure nal_vui where
  b_valid : Bool
  i_sar_num : Int
  i_sar_den : Int
  b_timing_info_present_flag : Bool
  i_num_units_in_tick : Nat
  i_time_scale : Nat
  b_fixed_frame_rate : Bool
  b_pic_struct_present_flag : Bool
  b_cpb_dpb_delays_present_flag : Bool
  i_cpb_removal_delay_length_minus1 : Nat
  i_dpb_output_delay_length_minus1 : Nat
deriving DecidableEq, Repr

/-- Modelled from the spec: `struct nal_sps`, the outputs of the SPS syntax
parser (h264_nal.h is absent). -/
structure nal_sps where
  i_id : Nat
  i_profile : Int
  i_level : Int
  i_width : Int
  i_height : Int
  i_log2_max_frame_num : Int
  b_frame_mbs_only : Int
  i_pic_order_cnt_type : Int
  i_delta_pic_order_always_zero_flag : Int
  i_log2_max_pic_order_cnt_lsb : Int
  vui : nal_vui
deriving DecidableEq, Repr

/-- Modelled from the spec: `struct nal_pps`, the outputs of the PPS syntax
parser (h264_nal.h is absent). -/
structure nal_pps where
  i_id : Nat
  i_sps_id : Nat
  i_pic_order_present_flag : Int
deriving DecidableEq, Repr

/-- The library calls of h264.c whose code is outside the file: the SPS and
PPS syntax parsers (`none` is a failed parse) and the caption extractor.  The
parsers only return ids inside the slot tables. -/
structure Parsers where
  h264_parse_sps : List Nat → Option nal_sps
  h264_parse_pps : List Nat → Option nal_pps
  cc_Extract : cc_data_t → Bool → List Nat → cc_data_t
  sps_id_lt : ∀ buf r, h264_parse_sps buf = some r → r.i_id < SPS_MAX
  pps_id_lt : ∀ buf r, h264_parse_pps buf = some r → r.i_id < PPS_MAX

/-- The packetizer state `decoder_sys_t` (h264.c:87-146), together with the
output format `p_dec->fmt_out`.  The start-code scanner `packetizer` is an
external collaborator and has no field here. -/
structure decoder_sys_t where
  b_slice : Bool
  p_frame : List block_t
  b_frame_sps : Bool
  b_frame_pps : Bool
  b_header : Bool
  b_sps : Bool
  b_pps : Bool
  pp_sps : Nat → Option block_t
  pp_pps : Nat → Option block_t
  i_recovery_frames : Int
  i_avcC_length_size : Nat
  i_log2_max_frame_num : Int
  b_frame_mbs_only : Int
  i_pic_order_cnt_type : Int
  i_delta_pic_order_always_zero_flag : Int
  i_log2_max_pic_order_cnt_lsb : Int
  i_pic_order_present_flag : Int
  b_timing_info_present_flag : Bool
  i_num_units_in_tick : Nat
  i_time_scale : Nat
  b_fixed_frame_rate : Bool
  b_pic_struct_present_flag : Bool
  i_pic_struct : Nat
  b_cpb_dpb_delays_present_flag : Bool
  i_cpb_removal_delay_length_minus1 : Nat
  i_dpb_output_delay_length_minus1 : Nat
  slice : slice_t
  b_even_frame : Bool
  i_frame_pts : Int
  i_frame_dts : Int
  i_prev_pts : Int
  i_prev_dts : Int
  i_cc_flags : Nat
  i_cc_pts : Int
  i_cc_dts : Int
  cc : cc_data_t
  cc_next : cc_data_t
  fmt_out : es_format_t

/-- Flag test `(f & m) != 0`. -/
def hasFlag (f m : Nat) : Bool := (f &&& m) != 0

/-- The header byte `p_buffer[4]` of a start-code-framed NAL. -/
def nal_header (p_frag : block_t) : Nat := p_frag.p_buffer.getD 4 0

/-- The field `nal_ref_idc`: `(p_buffer[4] >> 5) & 0x03` (h264.c:568). -/
def nal_ref_idc (p_frag : block_t) : Nat := (nal_header p_frag >>> 5) &&& 0x03

/-- The field `nal_type`: `p_buffer[4] & 0x1f` (h264.c:569). -/
def nal_type (p_frag : block_t) : Nat := nal_header p_frag &&& 0x1f

/-! ## Bit reader and NAL decoding (vlc_bits.h, h264_nal.h) -/

/-- Modelled from the spec: the bit reader `bs_t` (vlc_bits.h is absent): the
bytes and the position of the next bit, counted from the first bit. -/
structure bs_t where
  p : List Nat
  i_pos : Nat
deriving DecidableEq, Repr

/-- Modelled from the spec: `bs_init` (vlc_bits.h is absent). -/
def bs_init (p_data : List Nat) : bs_t := { p := p_data, i_pos := 0 }

/-- Modelled from the spec: end-of-data test `s->p >= s->p_end` (vlc_bits.h is absent). -/
def bs_eof (s : bs_t) : Bool := decide (s.p.length * 8 ≤ s.i_pos)

/-- Modelled from the spec: `bs_read1` (vlc_bits.h is absent): one bit, most
significant bit first; at the end of the data the result is 0 and nothing is
consumed. -/
def bs_read1 (s : bs_t) : Nat × bs_t :=
  if bs_eof s then (0, s)
  else ((s.p.getD (s.i_pos / 8) 0 >>> (7 - s.i_pos % 8)) &&& 1, { s with i_pos := s.i_pos + 1 })

/-- Modelled from the spec: `bs_read` (vlc_bits.h is absent): `i_count` bits,
big-endian, the first bit read being the most significant. -/
def bs_read : Nat → bs_t → Nat × bs_t
  | 0, s => (0, s)
  | n + 1, s =>
    let r := bs_read1 s
    let q := bs_read n r.2
    (r.1 * 2 ^ n + q.1, q.2)

/-- Leading-zero count of an Exp-Golomb code: at most 32 zero bits. -/
def bs_ue_zeros : Nat → Nat → bs_t → Nat × bs_t
  | 0, i, s => (i, s)
  | fuel + 1, i, s =>
    let r := bs_read1 s
    if r.1 == 0 && !bs_eof r.2 && decide (i < 32) then bs_ue_zeros fuel (i + 1) r.2
    else (i, r.2)

/-- Modelled from the spec: `bs_read_ue` (the Exp-Golomb helpers are absent):
the standard H.264 unsigned Exp-Golomb decoding. -/
def bs_read_ue (s : bs_t) : Int × bs_t :=
  let z := bs_ue_zeros 33 0 s
  let r := bs_read z.1 z.2
  ((2 : Int) ^ z.1 - 1 + (r.1 : Int), r.2)

/-- Modelled from the spec: `bs_read_se` (the Exp-Golomb helpers are absent):
the standard H.264 signed Exp-Golomb decoding. -/
def bs_read_se (s : bs_t) : Int × bs_t :=
  let r := bs_read_ue s
  (if r.1 % 2 = 1 then (r.1 + 1) / 2 else -(r.1 / 2), r.2)

/-- Modelled from the spec: `CreateDecodedNAL` (h264_nal.h is absent):
emulation-prevention-byte removal, dropping any 0x03 that follows two
consecutive 0x00. -/
def CreateDecodedNAL : List Nat → List Nat
  | 0 :: 0 :: 3 :: rest => 0 :: 0 :: CreateDecodedNAL rest
  | b :: rest => b :: CreateDecodedNAL rest
  | [] => []

/-- Conversion of a `uint32_t` result to `int`. -/
def int_of_u32 (n : Nat) : Int :=
  if n % 2 ^ 32 < 2 ^ 31 then ((n % 2 ^ 32 : Nat) : Int) else ((n % 2 ^ 32 : Nat) : Int) - 2 ^ 32

/-! ## Slice-header parser (h264.c:888-996) -/

/-- The `switch` on `slice_type` (h264.c:907-927). -/
def frame_type_of_slice_type (i_slice_type : Int) : Nat :=
  if i_slice_type = 0 ∨ i_slice_type = 5 then BLOCK_FLAG_TYPE_P
  else if i_slice_type = 1 ∨ i_slice_type = 6 then BLOCK_FLAG_TYPE_B
  else if i_slice_type = 2 ∨ i_slice_type = 7 then BLOCK_FLAG_TYPE_I
  else if i_slice_type = 3 ∨ i_slice_type = 8 then BLOCK_FLAG_TYPE_P
  else if i_slice_type = 4 ∨ i_slice_type = 9 then BLOCK_FLAG_TYPE_I
  else 0

/-- The fields that ParseSlice decodes from the slice header (h264.c:898-967):
the local `slice` just before the boundary detection. -/
def ParseSlice_fields (p_sys : decoder_sys_t) (i_nal_ref_idc i_nal_type : Int)
    (p_frag : block_t) : slice_t :=
  let pb_dec := CreateDecodedNAL ((p_frag.p_buffer.drop 5).take 60)
  let s0 := bs_init pb_dec
  let r_first_mb := bs_read_ue s0
  let r_type := bs_read_ue r_first_mb.2
  let i_frame_type := frame_type_of_slice_type r_type.1
  let r_pps := bs_read_ue r_type.2
  let r_fn := bs_read (p_sys.i_log2_max_frame_num + 4).toNat r_pps.2
  let r_field :=
    if p_sys.b_frame_mbs_only = 0 then
      let f := bs_read 1 r_fn.2
      if f.1 ≠ 0 then
        let b := bs_read 1 f.2
        ((f.1 : Int), (b.1 : Int), b.2)
      else ((f.1 : Int), (-1 : Int), f.2)
    else ((0 : Int), (-1 : Int), r_fn.2)
  let i_field_pic_flag := r_field.1
  let i_bottom_field_flag := r_field.2.1
  let r_idr :=
    if i_nal_type = (NAL_SLICE_IDR : Int) then bs_read_ue r_field.2.2
    else (p_sys.slice.i_idr_pic_id, r_field.2.2)
  let poc : Int × Int × Int × Int :=
    if p_sys.i_pic_order_cnt_type = 0 then
      let l := bs_read (p_sys.i_log2_max_pic_order_cnt_lsb + 4).toNat r_idr.2
      if p_sys.i_pic_order_present_flag ≠ 0 ∧ i_field_pic_flag = 0 then
        (int_of_u32 l.1, (bs_read_se l.2).1, 0, 0)
      else (int_of_u32 l.1, -1, 0, 0)
    else if p_sys.i_pic_order_cnt_type = 1 ∧ p_sys.i_delta_pic_order_always_zero_flag = 0 then
      let d0 := bs_read_se r_idr.2
      if p_sys.i_pic_order_present_flag ≠ 0 ∧ i_field_pic_flag = 0 then
        (-1, -1, d0.1, (bs_read_se d0.2).1)
      else (-1, -1, d0.1, 0)
    else (-1, -1, 0, 0)
  { i_nal_type := i_nal_type
    i_nal_ref_idc := i_nal_ref_idc
    i_frame_type := i_frame_type
    i_pic_parameter_set_id := r_pps.1
    i_frame_num := int_of_u32 r_fn.1
    i_field_pic_flag := i_field_pic_flag
    i_bottom_field_flag := i_bottom_field_flag
    i_idr_pic_id := r_idr.1
    i_pic_order_cnt_lsb := poc.1
    i_delta_pic_order_cnt_bottom := poc.2.1
    i_delta_pic_order_cnt0 := poc.2.2.1
    i_delta_pic_order_cnt1 := poc.2.2.2 }

/-- Detection of the first VCL NAL unit of a primary coded picture
(h264.c:969-991): the successive `if` statements that set `b_pic`. -/
def ParseSlice_b_pic (p_sys : decoder_sys_t) (slice : slice_t) : Bool :=
  let b0 := false
  let b1 :=
    if slice.i_frame_num ≠ p_sys.slice.i_frame_num ∨
        slice.i_pic_parameter_set_id ≠ p_sys.slice.i_pic_parameter_set_id ∨
        slice.i_field_pic_flag ≠ p_sys.slice.i_field_pic_flag ∨
        (decide (slice.i_nal_ref_idc = 0) ≠ decide (p_sys.slice.i_nal_ref_idc = 0)) then true
    else b0
  let b2 :=
    if slice.i_bottom_field_flag ≠ -1 ∧ p_sys.slice.i_bottom_field_flag ≠ -1 ∧
        slice.i_bottom_field_flag ≠ p_sys.slice.i_bottom_field_flag then true
    else b1
  let b3 :=
    if p_sys.i_pic_order_cnt_type = 0 ∧
        (slice.i_pic_order_cnt_lsb ≠ p_sys.slice.i_pic_order_cnt_lsb ∨
          slice.i_delta_pic_order_cnt_bottom ≠ p_sys.slice.i_delta_pic_order_cnt_bottom) then true
    else if p_sys.i_pic_order_cnt_type = 1 ∧
        (slice.i_delta_pic_order_cnt0 ≠ p_sys.slice.i_delta_pic_order_cnt0 ∨
          slice.i_delta_pic_order_cnt1 ≠ p_sys.slice.i_delta_pic_order_cnt1) then true
    else b2
  let b4 :=
    if (slice.i_nal_type = (NAL_SLICE_IDR : Int) ∨ p_sys.slice.i_nal_type = (NAL_SLICE_IDR : Int)) ∧
        (slice.i_nal_type ≠ p_sys.slice.i_nal_type ∨
          slice.i_idr_pic_id ≠ p_sys.slice.i_idr_pic_id) then true
    else b3
  b4

/-- The function `ParseSlice` (h264.c:888-996): the pair
`(*pb_new_picture, *p_slice)`. -/
def ParseSlice (p_sys : decoder_sys_t) (i_nal_ref_idc i_nal_type : Int)
    (p_frag : block_t) : Bool × slice_t :=
  let slice := ParseSlice_fields p_sys i_nal_ref_idc i_nal_type p_frag
  (ParseSlice_b_pic p_sys slice, slice)

/-! ## Block chains (vlc_block.h) -/

/-- Modelled from the spec: `block_ChainGather` (vlc_block.h is absent): the
chain is flattened into one block by a single copy; flags, PTS and DTS are
those of the first block and the length is the sum.  The empty chain is a
null dereference. -/
def block_ChainGather : List block_t → Option block_t
  | [] => none
  | b :: rest =>
    some { p_buffer := ((b :: rest).map (fun x => x.p_buffer)).flatten
           i_flags := b.i_flags
           i_pts := b.i_pts
           i_dts := b.i_dts
           i_length := ((b :: rest).map (fun x => x.i_length)).sum }

/-- The occupied slots `pp[0], ..., pp[n-1]` in ascending index order: what
the loops at h264.c:703-712 append, `block_Duplicate` being a byte-exact copy. -/
def stored_nals (pp : Nat → Option block_t) (n : Nat) : List block_t :=
  (List.range n).filterMap pp

/-- Clearing of flag bits in a 32-bit flag word: `f & ~m`. -/
def clearFlag (f m : Nat) : Nat := f &&& (0xFFFFFFFF ^^^ m)

/-- Signed 64-bit wrap-around of an `int64_t` product. -/
def wrap_i64 (x : Int) : Int := (x + 2 ^ 63) % 2 ^ 64 - 2 ^ 63

/-! ## Parameter-set store (h264.c:815-886) -/

/-- The function `PutSPS` (h264.c:815-863). -/
def PutSPS (E : Parsers) (p_sys : decoder_sys_t) (p_frag : block_t) : decoder_sys_t :=
  match E.h264_parse_sps p_frag.p_buffer with
  | none => p_sys
  | some sps =>
    let fmt0 : es_format_t :=
      { p_sys.fmt_out with
        i_profile := sps.i_profile
        i_level := sps.i_level
        i_width := sps.i_width
        i_height := sps.i_height }
    let fmt1 : es_format_t :=
      if sps.vui.i_sar_num ≠ 0 ∧ sps.vui.i_sar_den ≠ 0 then
        { fmt0 with i_sar_num := sps.vui.i_sar_num, i_sar_den := sps.vui.i_sar_den }
      else fmt0
    let s1 : decoder_sys_t :=
      { p_sys with
        fmt_out := fmt1
        i_log2_max_frame_num := sps.i_log2_max_frame_num
        b_frame_mbs_only := sps.b_frame_mbs_only
        i_pic_order_cnt_type := sps.i_pic_order_cnt_type
        i_delta_pic_order_always_zero_flag := sps.i_delta_pic_order_always_zero_flag
        i_log2_max_pic_order_cnt_lsb := sps.i_log2_max_pic_order_cnt_lsb }
    let s2 : decoder_sys_t :=
      if sps.vui.b_valid then
        { s1 with
          b_timing_info_present_flag := sps.vui.b_timing_info_present_flag
          i_num_units_in_tick := sps.vui.i_num_units_in_tick
          i_time_scale := sps.vui.i_time_scale
          b_fixed_frame_rate := sps.vui.b_fixed_frame_rate
          b_pic_struct_present_flag := sps.vui.b_pic_struct_present_flag
          b_cpb_dpb_delays_present_flag := sps.vui.b_cpb_dpb_delays_present_flag
          i_cpb_removal_delay_length_minus1 := sps.vui.i_cpb_removal_delay_length_minus1
          i_dpb_output_delay_length_minus1 := sps.vui.i_dpb_output_delay_length_minus1 }
      else s1
    { s2 with
      b_sps := true
      pp_sps := fun i => if i = sps.i_id then some p_frag else s2.pp_sps i }

/-- The function `PutPPS` (h264.c:865-886). -/
def PutPPS (E : Parsers) (p_sys : decoder_sys_t) (p_frag : block_t) : decoder_sys_t :=
  match E.h264_parse_pps p_frag.p_buffer with
  | none => p_sys
  | some pps =>
    { p_sys with
      i_pic_order_present_flag := pps.i_pic_order_present_flag
      b_pps := true
      pp_pps := fun i => if i = pps.i_id then some p_frag else p_sys.pp_pps i }

/-! ## SEI parser (h264.c:998-1097) -/

/-- The loops "Read type" and "Read size" (h264.c:1014-1029): bytes are added
up to and including the first one that is not 0xff, while `i_used+1 < i_dec`.
The result is the sum and the new `i_used`.  The sum is the mathematical one:
it is the value of the `int` accumulator of the source as long as it is below
2^31, and `int_of_u32` of it otherwise. -/
def ParseSei_read_ff (pb_dec : List Nat) : Nat → Nat → Nat → Nat × Nat
  | 0, i_used, acc => (acc, i_used)
  | fuel + 1, i_used, acc =>
    if i_used + 1 < pb_dec.length then
      let i_byte := pb_dec.getD i_used 0
      if i_byte ≠ 0xff then (acc + i_byte, i_used + 1)
      else ParseSei_read_ff pb_dec fuel (i_used + 1) (acc + i_byte)
    else (acc, i_used)

/-- The start code of DVB1_data (h264.c:1057-1061). -/
def p_dvb1_data_start_code : List Nat := [0xb5, 0x00, 0x31, 0x47, 0x41, 0x39, 0x34]

/-- The test at h264.c:1066-1067 on the payload at `i_used` of declared size
`i_t35`: `i_t35 >= 5` and `memcmp` equal over the 7 bytes that start at the
payload, whatever the declared size. -/
def ParseSei_is_dvb1 (pb_dec : List Nat) (i_used i_t35 : Nat) : Bool :=
  decide (5 ≤ i_t35) && ((pb_dec.drop i_used).take 7 == p_dvb1_data_start_code)

/-- The pic_timing payload (h264.c:1035-1052). -/
def ParseSei_pic_timing (payload : List Nat) (p_sys : decoder_sys_t) : decoder_sys_t :=
  let b0 := bs_init payload
  let b1 :=
    if p_sys.b_cpb_dpb_delays_present_flag then
      (bs_read (p_sys.i_dpb_output_delay_length_minus1 + 1)
        (bs_read (p_sys.i_cpb_removal_delay_length_minus1 + 1) b0).2).2
    else b0
  if p_sys.b_pic_struct_present_flag then
    { p_sys with i_pic_struct := (bs_read 4 b1).1 }
  else p_sys

/-- The user_data_registered_itu_t_t35 payload (h264.c:1055-1071). -/
def ParseSei_user_data (E : Parsers) (pb_dec : List Nat) (i_used i_size : Nat)
    (p_sys : decoder_sys_t) : decoder_sys_t :=
  if ParseSei_is_dvb1 pb_dec i_used i_size then
    { p_sys with
      cc_next := E.cc_Extract p_sys.cc_next true ((pb_dec.drop (i_used + 3)).take (i_size - 3)) }
  else p_sys

/-- The recovery_point payload (h264.c:1074-1091). -/
def ParseSei_recovery_point (payload : List Nat) (p_sys : decoder_sys_t) : decoder_sys_t :=
  let i_recovery_frames := (bs_read_ue (bs_init payload)).1
  if p_sys.b_header = false then
    if p_sys.i_recovery_frames = -1 ∨ i_recovery_frames < p_sys.i_recovery_frames then
      { p_sys with i_recovery_frames := i_recovery_frames }
    else p_sys
  else p_sys

/-- Handling of one SEI payload of type `i_type` at `[i_used, i_used + i_size)`
(h264.c:1034-1091). -/
def ParseSei_payload (E : Parsers) (pb_dec : List Nat) (i_type i_used i_size : Nat)
    (p_sys : decoder_sys_t) : decoder_sys_t :=
  let payload := (pb_dec.drop i_used).take i_size
  let s1 := if i_type = SEI_PIC_TIMING then ParseSei_pic_timing payload p_sys else p_sys
  let s2 :=
    if i_type = SEI_USER_DATA_REGISTERED then ParseSei_user_data E pb_dec i_used i_size s1 else s1
  if i_type = SEI_RECOVERY_POINT then ParseSei_recovery_point payload s2 else s2

/-- The payload loop of ParseSei (h264.c:1010-1094); `fuel` bounds the number
of iterations.  The room test and the advance are made on the mathematical
sums of `ParseSei_read_ff`: they are those of the source, made on `int`
values, for every buffer shorter than 2^23 bytes, where no sum reaches 2^31.
On a longer buffer a run of bytes 0xff can overflow the accumulator of the
source; what the source does from there on is not described by this loop. -/
def ParseSei_loop (E : Parsers) (pb_dec : List Nat) : Nat → Nat → decoder_sys_t → decoder_sys_t
  | 0, _, p_sys => p_sys
  | fuel + 1, i_used, p_sys =>
    if i_used + 1 < pb_dec.length then
      let t := ParseSei_read_ff pb_dec pb_dec.length i_used 0
      let z := ParseSei_read_ff pb_dec pb_dec.length t.2 0
      if z.2 + z.1 + 1 > pb_dec.length then p_sys
      else ParseSei_loop E pb_dec fuel (z.2 + z.1) (ParseSei_payload E pb_dec t.1 z.2 z.1 p_sys)
    else p_sys

/-- The function `ParseSei` (h264.c:998-1097). -/
def ParseSei (E : Parsers) (p_sys : decoder_sys_t) (p_frag : block_t) : decoder_sys_t :=
  let pb_dec := CreateDecodedNAL (p_frag.p_buffer.drop 5)
  ParseSei_loop E pb_dec pb_dec.length 0 p_sys

/-! ## Emission (h264.c:671-813) -/

/-- The recovery countdown at the head of OutputPicture (h264.c:676-684). -/
def OutputPicture_recovery (p_sys : decoder_sys_t) : decoder_sys_t :=
  if p_sys.b_header = false ∧ p_sys.i_recovery_frames ≠ -1 then
    let s0 : decoder_sys_t :=
      if p_sys.i_recovery_frames = 0 then { p_sys with b_header := true } else p_sys
    { s0 with i_recovery_frames := s0.i_recovery_frames - 1 }
  else p_sys

/-- The local `b_sps_pps_i` (h264.c:690-692). -/
def b_sps_pps_i (p_sys : decoder_sys_t) : Bool :=
  decide (p_sys.slice.i_frame_type = BLOCK_FLAG_TYPE_I) && p_sys.b_sps && p_sys.b_pps

/-- The chain `p_list` of duplicated parameter sets (h264.c:702-712). -/
def OutputPicture_list (p_sys : decoder_sys_t) : List block_t :=
  (if b_sps_pps_i p_sys || p_sys.b_frame_sps then stored_nals p_sys.pp_sps SPS_MAX else []) ++
  (if b_sps_pps_i p_sys || p_sys.b_frame_pps then stored_nals p_sys.pp_pps PPS_MAX else [])

/-- The chain that OutputPicture hands to `block_ChainGather` (h264.c:693-727);
`none` where the C code dereferences a null `p_frame`. -/
def OutputPicture_chain (p_sys : decoder_sys_t) : Option (List block_t) :=
  if b_sps_pps_i p_sys || p_sys.b_frame_sps || p_sys.b_frame_pps then
    match p_sys.p_frame with
    | [] => none
    | p_head :: rest =>
      if hasFlag p_head.i_flags BLOCK_FLAG_PRIVATE_AUD then
        some (p_head :: (OutputPicture_list p_sys ++ rest))
      else some (OutputPicture_list p_sys ++ p_head :: rest)
  else
    match p_sys.p_frame with
    | [] => none
    | p_head :: rest => some (p_head :: rest)

/-- The value of `b_header` after h264.c:713-714. -/
def OutputPicture_header (p_sys : decoder_sys_t) : Bool :=
  if (b_sps_pps_i p_sys || p_sys.b_frame_sps || p_sys.b_frame_pps) = true ∧
      b_sps_pps_i p_sys = true ∧ OutputPicture_list p_sys ≠ [] then true
  else p_sys.b_header

/-- The table `rgi_numclock` (h264.c:734). -/
def rgi_numclock : List Nat := [1, 1, 1, 2, 2, 3, 3, 2, 3]

/-- The local `i_num_clock_ts` (h264.c:729-737). -/
def i_num_clock_ts (p_sys : decoder_sys_t) : Nat :=
  if p_sys.b_frame_mbs_only = 0 ∧ p_sys.b_pic_struct_present_flag = true then
    if p_sys.i_pic_struct < 9 then rgi_numclock.getD p_sys.i_pic_struct 1 else 1
  else 1

/-- The right-hand side of h264.c:741-742, evaluated left to right in
`int64_t` arithmetic. -/
def OutputPicture_duration (p_sys : decoder_sys_t) : Int :=
  (wrap_i64 (wrap_i64 (CLOCK_FREQ * (i_num_clock_ts p_sys : Int)) *
    (p_sys.i_num_units_in_tick : Int))).tdiv (p_sys.i_time_scale : Int)

/-- The field-flag `switch` (h264.c:745-781): the picture and `b_even_frame`
after it. -/
def OutputPicture_field (p_sys : decoder_sys_t) (p_pic : block_t) : block_t × Bool :=
  if p_sys.b_frame_mbs_only = 0 ∧ p_sys.b_pic_struct_present_flag = true then
    if p_sys.i_pic_struct = 1 ∨ p_sys.i_pic_struct = 2 then
      let pic1 : block_t :=
        if p_sys.b_even_frame = false then
          { p_pic with
            i_flags := p_pic.i_flags |||
              (if p_sys.i_pic_struct = 1 then BLOCK_FLAG_TOP_FIELD_FIRST
               else BLOCK_FLAG_BOTTOM_FIELD_FIRST) }
        else if p_pic.i_pts ≤ VLC_TS_INVALID ∧ p_sys.i_prev_pts > VLC_TS_INVALID then
          { p_pic with i_pts := p_sys.i_prev_pts + p_pic.i_length }
        else p_pic
      (pic1, !p_sys.b_even_frame)
    else if p_sys.i_pic_struct = 3 then
      ({ p_pic with i_flags := p_pic.i_flags ||| BLOCK_FLAG_TOP_FIELD_FIRST }, false)
    else if p_sys.i_pic_struct = 4 then
      ({ p_pic with i_flags := p_pic.i_flags ||| BLOCK_FLAG_BOTTOM_FIELD_FIRST }, false)
    else if p_sys.i_pic_struct = 5 then
      ({ p_pic with i_flags := p_pic.i_flags ||| BLOCK_FLAG_TOP_FIELD_FIRST }, p_sys.b_even_frame)
    else if p_sys.i_pic_struct = 6 then
      ({ p_pic with i_flags := p_pic.i_flags ||| BLOCK_FLAG_BOTTOM_FIELD_FIRST }, p_sys.b_even_frame)
    else (p_pic, false)
  else (p_pic, p_sys.b_even_frame)

/-- The tail of OutputPicture from the duration on (h264.c:729-812), applied to
the gathered picture. -/
def OutputPicture_finish (p_sys : decoder_sys_t) (p_pic : block_t) : decoder_sys_t × block_t :=
  let pic1 : block_t :=
    if p_sys.i_time_scale ≠ 0 then { p_pic with i_length := OutputPicture_duration p_sys }
    else p_pic
  let fld := OutputPicture_field p_sys pic1
  let i_frame_dts := if p_sys.i_frame_dts ≤ VLC_TS_INVALID then p_sys.i_prev_dts else p_sys.i_frame_dts
  let flags1 := clearFlag (fld.1.i_flags ||| p_sys.slice.i_frame_type) BLOCK_FLAG_PRIVATE_AUD
  let pic3 : block_t :=
    { fld.1 with
      i_dts := i_frame_dts
      i_pts := p_sys.i_frame_pts
      i_flags := if p_sys.b_header = false then flags1 ||| BLOCK_FLAG_PREROLL else flags1 }
  ({ p_sys with
      b_even_frame := fld.2
      i_prev_dts := i_frame_dts
      i_prev_pts := p_sys.i_frame_pts
      i_frame_dts := VLC_TS_INVALID
      i_frame_pts := VLC_TS_INVALID
      slice := { p_sys.slice with i_frame_type := 0 }
      p_frame := []
      b_frame_sps := false
      b_frame_pps := false
      b_slice := false
      i_cc_pts := pic3.i_pts
      i_cc_dts := pic3.i_dts
      i_cc_flags := pic3.i_flags
      cc := p_sys.cc_next
      cc_next := cc_Flush p_sys.cc_next }, pic3)

/-- The function `OutputPicture` (h264.c:671-813).  The result is `none` where
the C code dereferences a null chain, otherwise the new state and the
returned picture (`none` for `NULL`). -/
def OutputPicture (p_sys : decoder_sys_t) : Option (decoder_sys_t × Option block_t) :=
  let s1 := OutputPicture_recovery p_sys
  if s1.b_header = false ∧ s1.i_recovery_frames = -1 ∧
      s1.slice.i_frame_type ≠ BLOCK_FLAG_TYPE_I then
    some (s1, none)
  else
    match OutputPicture_chain s1 with
    | none => none
    | some chain =>
      match block_ChainGather chain with
      | none => none
      | some p_pic =>
        let r := OutputPicture_finish { s1 with b_header := OutputPicture_header s1 } p_pic
        some (r.1, some r.2)

/-! ## Access unit assembler (h264.c:559-669) -/

/-- The reset at the head of ParseNALBlock while waiting for SPS/PPS
(h264.c:573-585). -/
def ParseNALBlock_wait (p_sys : decoder_sys_t) : decoder_sys_t :=
  if p_sys.b_slice = true ∧ (p_sys.b_sps = false ∨ p_sys.b_pps = false) then
    { p_sys with
      slice := { p_sys.slice with i_frame_type := 0 }
      p_frame := []
      b_frame_sps := false
      b_frame_pps := false
      b_slice := false
      cc_next := cc_Flush p_sys.cc_next }
  else p_sys

/-- The statement `if( p_sys->b_slice ) p_pic = OutputPicture( p_dec );`. -/
def output_if_slice (p_sys : decoder_sys_t) : Option (decoder_sys_t × Option block_t) :=
  if p_sys.b_slice = true then OutputPicture p_sys else some (p_sys, none)

/-- The dispatch on the NAL type (h264.c:587-654): the new state, the picture
`p_pic` and the fragment that is left to append (`none` once it was stored or
released). -/
def ParseNALBlock_dispatch (E : Parsers) (p_sys : decoder_sys_t) (p_frag : block_t) :
    Option (decoder_sys_t × Option block_t × Option block_t) :=
  let i_nal_type := nal_type p_frag
  if (p_sys.b_sps = false ∨ p_sys.b_pps = false) ∧
      NAL_SLICE ≤ i_nal_type ∧ i_nal_type ≤ NAL_SLICE_IDR then
    some ({ p_sys with b_slice := true }, none, some p_frag)
  else if NAL_SLICE ≤ i_nal_type ∧ i_nal_type ≤ NAL_SLICE_IDR then
    let r := ParseSlice p_sys (nal_ref_idc p_frag : Int) (i_nal_type : Int) p_frag
    match (if r.1 = true ∧ p_sys.b_slice = true then OutputPicture p_sys
           else some (p_sys, none)) with
    | none => none
    | some (s1, p_pic) => some ({ s1 with slice := r.2, b_slice := true }, p_pic, some p_frag)
  else if i_nal_type = NAL_SPS then
    match output_if_slice p_sys with
    | none => none
    | some (s1, p_pic) => some (PutSPS E { s1 with b_frame_sps := true } p_frag, p_pic, none)
  else if i_nal_type = NAL_PPS then
    match output_if_slice p_sys with
    | none => none
    | some (s1, p_pic) => some (PutPPS E { s1 with b_frame_pps := true } p_frag, p_pic, none)
  else if i_nal_type = NAL_AU_DELIMITER ∨ i_nal_type = NAL_SEI ∨
      (13 ≤ i_nal_type ∧ i_nal_type ≤ 18) then
    match output_if_slice p_sys with
    | none => none
    | some (s1, p_pic) =>
      if i_nal_type = NAL_SEI then some (ParseSei E s1 p_frag, p_pic, some p_frag)
      else if i_nal_type = NAL_AU_DELIMITER then
        match s1.p_frame with
        | [] => some (s1, p_pic, some { p_frag with i_flags := p_frag.i_flags ||| BLOCK_FLAG_PRIVATE_AUD })
        | p_head :: _ =>
          if hasFlag p_head.i_flags BLOCK_FLAG_PRIVATE_AUD then some (s1, p_pic, none)
          else some (s1, p_pic, some { p_frag with i_flags := p_frag.i_flags ||| BLOCK_FLAG_PRIVATE_AUD })
      else some (s1, p_pic, some p_frag)
  else some (p_sys, none, some p_frag)

/-- The tail of ParseNALBlock (h264.c:656-668): the fragment is appended and the
frame timestamps are captured; the result is the state and `*pb_ts_used`. -/
def ParseNALBlock_append (p_sys : decoder_sys_t) (p_frag : Option block_t)
    (i_frag_dts i_frag_pts : Int) : decoder_sys_t × Bool :=
  let s1 : decoder_sys_t :=
    match p_frag with
    | none => p_sys
    | some f => { p_sys with p_frame := p_sys.p_frame ++ [f] }
  if s1.i_frame_dts ≤ VLC_TS_INVALID ∧ s1.i_frame_pts ≤ VLC_TS_INVALID then
    ({ s1 with i_frame_dts := i_frag_dts, i_frame_pts := i_frag_pts }, true)
  else (s1, false)

/-- The function `ParseNALBlock` (h264.c:563-669): the new state, `*pb_ts_used`
and the returned picture; `none` where the C code dereferences a null chain. -/
def ParseNALBlock (E : Parsers) (p_sys : decoder_sys_t) (p_frag : block_t) :
    Option (decoder_sys_t × Bool × Option block_t) :=
  match ParseNALBlock_dispatch E (ParseNALBlock_wait p_sys) p_frag with
  | none => none
  | some (s1, p_pic, frag) =>
    let r := ParseNALBlock_append s1 frag p_frag.i_dts p_frag.i_pts
    some (r.1, r.2, p_pic)

/-- The fragments of a list fed to ParseNALBlock one after the other: the
final state and the pictures returned, in order. -/
def feed (E : Parsers) : decoder_sys_t → List block_t → Option (decoder_sys_t × List block_t)
  | p_sys, [] => some (p_sys, [])
  | p_sys, p_frag :: rest =>
    match ParseNALBlock E p_sys p_frag with
    | none => none
    | some (s1, _, p_pic) =>
      match feed E s1 rest with
      | none => none
      | some (s2, pics) => some (s2, p_pic.toList ++ pics)

/-! ## Reset and open (h264.c:176-235, 501-521) -/

/-- The function `PacketizeReset` (h264.c:501-521). -/
def PacketizeReset (p_sys : decoder_sys_t) (b_broken : Bool) : decoder_sys_t :=
  let s1 : decoder_sys_t :=
    if b_broken = true then
      { p_sys with
        p_frame := []
        b_frame_sps := false
        b_frame_pps := false
        slice := { p_sys.slice with i_frame_type := 0 }
        b_slice := false }
    else p_sys
  { s1 with
    i_frame_pts := VLC_TS_INVALID
    i_frame_dts := VLC_TS_INVALID
    i_prev_dts := VLC_TS_INVALID
    i_prev_pts := VLC_TS_INVALID
    b_even_frame := false }

/-- The state that Open sets up for a start-code-framed stream without
extradata (h264.c:199-234 and 352-356).  The record comes from `malloc`: the
fields that Open does not assign keep the arbitrary content `garbage`. -/
def Open_state (garbage : decoder_sys_t) : decoder_sys_t :=
  { garbage with
    b_slice := false
    p_frame := []
    b_frame_sps := false
    b_frame_pps := false
    b_header := false
    b_sps := false
    b_pps := false
    pp_sps := fun _ => none
    pp_pps := fun _ => none
    i_recovery_frames := -1
    slice :=
      { garbage.slice with
        i_nal_type := -1
        i_nal_ref_idc := -1
        i_idr_pic_id := -1
        i_frame_num := -1
        i_frame_type := 0
        i_pic_parameter_set_id := -1
        i_field_pic_flag := 0
        i_bottom_field_flag := -1
        i_pic_order_cnt_lsb := -1
        i_delta_pic_order_cnt_bottom := -1 }
    b_timing_info_present_flag := false
    b_pic_struct_present_flag := false
    b_cpb_dpb_delays_present_flag := false
    i_cpb_removal_delay_length_minus1 := 0
    i_dpb_output_delay_length_minus1 := 0
    b_even_frame := false
    i_frame_dts := VLC_TS_INVALID
    i_frame_pts := VLC_TS_INVALID
    i_prev_dts := VLC_TS_INVALID
    i_prev_pts := VLC_TS_INVALID
    i_cc_pts := VLC_TS_INVALID
    i_cc_dts := VLC_TS_INVALID
    i_cc_flags := 0
    cc := cc_Init
    cc_next := cc_Init }

/-! ## Concrete streams used to evaluate the embedding -/

/-- The start code `00 00 00 01` followed by a NAL header byte and a payload. -/
def annexb (header : Nat) (payload : List Nat) : block_t :=
  { p_buffer := [0, 0, 0, 1, header] ++ payload, i_flags := 0, i_pts := 0, i_dts := 0, i_length := 0 }

/-- A stand-in for the library parsers on the sample streams: a parameter set
parses when it has a payload byte, its id is that byte (reduced to the slot
range); `frame_num` has 4 bits, the picture order count type is 2 and the
VUI announces 1 tick of a 50 Hz clock; a second SPS payload byte equal to 1
announces an interlaced stream with `pic_struct` present. -/
def sampleParsers : Parsers where
  h264_parse_sps := fun buf =>
    if 5 < buf.length then
      some { i_id := buf.getD 5 0 % SPS_MAX, i_profile := 100, i_level := 31, i_width := 16
             i_height := 16, i_log2_max_frame_num := 0
             b_frame_mbs_only := if buf.getD 6 0 = 1 then 0 else 1
             i_pic_order_cnt_type := 2, i_delta_pic_order_always_zero_flag := 0
             i_log2_max_pic_order_cnt_lsb := 0
             vui := { b_valid := true, i_sar_num := 1, i_sar_den := 1
                      b_timing_info_present_flag := true, i_num_units_in_tick := 1
                      i_time_scale := 50, b_fixed_frame_rate := true
                      b_pic_struct_present_flag := decide (buf.getD 6 0 = 1)
                      b_cpb_dpb_delays_present_flag := false
                      i_cpb_removal_delay_length_minus1 := 0
                      i_dpb_output_delay_length_minus1 := 0 } }
    else none
  h264_parse_pps := fun buf =>
    if 5 < buf.length then
      some { i_id := buf.getD 5 0 % PPS_MAX, i_sps_id := 0, i_pic_order_present_flag := 0 }
    else none
  cc_Extract := fun c _ data => { c with p_data := c.p_data ++ data }
  sps_id_lt := by
    intro buf r h
    beta_reduce at h
    split at h
    · cases h
      exact Nat.mod_lt _ (by decide)
    · cases h
  pps_id_lt := by
    intro buf r h
    beta_reduce at h
    split at h
    · cases h
      exact Nat.mod_lt _ (by decide)
    · cases h

/-- An all-zero record standing for the content of freshly allocated memory. -/
def zero_sys : decoder_sys_t :=
  { b_slice := false, p_frame := [], b_frame_sps := false, b_frame_pps := false
    b_header := false, b_sps := false, b_pps := false
    pp_sps := fun _ => none, pp_pps := fun _ => none
    i_recovery_frames := 0, i_avcC_length_size := 0, i_log2_max_frame_num := 0
    b_frame_mbs_only := 0, i_pic_order_cnt_type := 0
    i_delta_pic_order_always_zero_flag := 0, i_log2_max_pic_order_cnt_lsb := 0
    i_pic_order_present_flag := 0, b_timing_info_present_flag := false
    i_num_units_in_tick := 0, i_time_scale := 0, b_fixed_frame_rate := false
    b_pic_struct_present_flag := false, i_pic_struct := 0
    b_cpb_dpb_delays_present_flag := false, i_cpb_removal_delay_length_minus1 := 0
    i_dpb_output_delay_length_minus1 := 0
    slice :=
      { i_nal_type := 0, i_nal_ref_idc := 0, i_frame_type := 0, i_pic_parameter_set_id := 0
        i_frame_num := 0, i_field_pic_flag := 0, i_bottom_field_flag := 0, i_idr_pic_id := 0
        i_pic_order_cnt_lsb := 0, i_delta_pic_order_cnt_bottom := 0
        i_delta_pic_order_cnt0 := 0, i_delta_pic_order_cnt1 := 0 }
    b_even_frame := false, i_frame_pts := 0, i_frame_dts := 0, i_prev_pts := 0, i_prev_dts := 0
    i_cc_flags := 0, i_cc_pts := 0, i_cc_dts := 0, cc := cc_Init, cc_next := cc_Init
    fmt_out := { i_profile := 0, i_level := 0, i_width := 0, i_height := 0
                 i_sar_num := 0, i_sar_den := 0 } }

/-- An SPS NAL with id 0. -/
def nal_sps0 : block_t := annexb 0x67 [0]
/-- A PPS NAL with id 0. -/
def nal_pps0 : block_t := annexb 0x68 [0]
/-- A P-slice NAL: first_mb 0, slice_type 0, PPS 0, frame_num 1 (bits 1 1 1 0001). -/
def nal_p1 : block_t := annexb 0x41 [0xE2]
/-- A P-slice NAL: first_mb 0, slice_type 0, PPS 0, frame_num 2 (bits 1 1 1 0010). -/
def nal_p2 : block_t := annexb 0x41 [0xE4]
/-- An IDR slice NAL: first_mb 0, slice_type 2, PPS 0, frame_num 0, idr_pic_id 0
(bits 1 011 1 0000 1). -/
def nal_idr : block_t := annexb 0x65 [0xB8, 0x40]
/-- An access unit delimiter NAL. -/
def nal_aud : block_t := annexb 0x09 [0xF0]
/-- An SEI NAL with an empty payload list. -/
def nal_sei : block_t := annexb 0x06 [0x80]
/-- An SPS NAL with id 0 of an interlaced stream with `pic_struct` present. -/
def nal_sps_interlaced : block_t := annexb 0x67 [0, 1]
/-- A pic_timing SEI NAL (type 1, size 1) whose 4 bits of `pic_struct` are `ps`. -/
def nal_sei_pic_timing (ps : Nat) (pts dts : Int) : block_t :=
  { annexb 0x06 [0x01, 0x01, ps * 16, 0x80] with i_pts := pts, i_dts := dts }
/-- A recovery_point SEI NAL (type 6, size 1) with `recovery_frame_cnt` 0 (bit 1). -/
def nal_sei_recovery0 : block_t := annexb 0x06 [0x06, 0x01, 0x80, 0x80]
/-- A recovery_point SEI NAL (type 6, size 1) with `recovery_frame_cnt` 1 (bits 010). -/
def nal_sei_recovery1 : block_t := annexb 0x06 [0x06, 0x01, 0x40, 0x80]
/-- An IDR top-field slice NAL: first_mb 0, slice_type 2, PPS 0, frame_num 0,
field_pic_flag 1, bottom_field_flag 0, idr_pic_id 0 (bits 1 011 1 0000 1 0 1). -/
def nal_idr_top : block_t := annexb 0x65 [0xB8, 0x50]
/-- A P bottom-field slice NAL: first_mb 0, slice_type 0, PPS 0, frame_num 0,
field_pic_flag 1, bottom_field_flag 1 (bits 1 1 1 0000 1 1). -/
def nal_p_bottom : block_t := annexb 0x41 [0xE1, 0x80]

/-- The state reached from the freshly opened state after the sample parsers
have been fed the fragments `frags` (the all-zero record if the run fails). -/
def sample_after (frags : List block_t) : decoder_sys_t :=
  ((feed sampleParsers (Open_state zero_sys) frags).map Prod.fst).getD zero_sys

/-! ## Specification-side definitions -/

/-- The bytes of a chain of NALs, each copied in order. -/
def chain_bytes (l : List block_t) : List Nat := (l.map (fun x => x.p_buffer)).flatten

/-- The byte sequence that the specification gives for an AU with injected
parameter sets: the head AUD NAL if the AU chain starts with one, then the
NALs `sps`, then the NALs `pps`, then the remaining NALs of the chain. -/
def spec_au_bytes (p_frame sps pps : List block_t) : List Nat :=
  match p_frame with
  | [] => []
  | p_head :: rest =>
    if nal_type p_head = NAL_AU_DELIMITER then
      p_head.p_buffer ++ chain_bytes sps ++ chain_bytes pps ++ chain_bytes rest
    else chain_bytes sps ++ chain_bytes pps ++ chain_bytes (p_head :: rest)

/-- The number of clock ticks that the specification gives for a picture:
`[1,1,1,2,2,3,3,2,3][pic_struct]` if the stream is not frame-mbs-only,
pic_struct_present is set and `pic_struct < 9`, and 1 otherwise. -/
def spec_num_clock_ts (frame_mbs_only : Int) (pic_struct_present : Bool) (pic_struct : Nat) : Nat :=
  if frame_mbs_only = 0 ∧ pic_struct_present = true ∧ pic_struct < 9 then
    [1, 1, 1, 2, 2, 3, 3, 2, 3].getD pic_struct 1
  else 1

/-- The condition under which OutputPicture returns nothing (h264.c:686-688),
on the state after the recovery countdown. -/
def suppressed (p_sys : decoder_sys_t) : Prop :=
  (OutputPicture_recovery p_sys).b_header = false ∧
    (OutputPicture_recovery p_sys).i_recovery_frames = -1 ∧
    p_sys.slice.i_frame_type ≠ BLOCK_FLAG_TYPE_I

/-- The state that OutputPicture sees for the AU `au` after the previous
emission left the state `prev`: between two emissions `b_header` and
`i_recovery_frames` are written by nothing but OutputPicture (and by ParseSei
on a further recovery point), every other field is rebuilt by the assembler. -/
def carry_header (prev au : decoder_sys_t) : decoder_sys_t :=
  { au with b_header := prev.b_header, i_recovery_frames := prev.i_recovery_frames }

/-- Successive calls of OutputPicture, one per AU of `aus`, the header state
being carried from call to call: the last state and the pictures returned. -/
def emit_run : decoder_sys_t → List decoder_sys_t → Option (decoder_sys_t × List block_t)
  | prev, [] => some (prev, [])
  | prev, au :: rest =>
    match OutputPicture (carry_header prev au) with
    | none => none
    | some (s1, p_pic) =>
      match emit_run s1 rest with
      | none => none
      | some (s2, pics) => some (s2, p_pic.toList ++ pics)

/-- No input of the AU carries the pre-roll flag: neither the retained frame
type, nor a NAL of the chain, nor a stored parameter set. -/
def preroll_free (au : decoder_sys_t) : Prop :=
  hasFlag au.slice.i_frame_type BLOCK_FLAG_PREROLL = false ∧
  (∀ b ∈ au.p_frame, hasFlag b.i_flags BLOCK_FLAG_PREROLL = false) ∧
  (∀ b ∈ stored_nals au.pp_sps SPS_MAX, hasFlag b.i_flags BLOCK_FLAG_PREROLL = false) ∧
  (∀ b ∈ stored_nals au.pp_pps PPS_MAX, hasFlag b.i_flags BLOCK_FLAG_PREROLL = false)

/-- The invariant of the assembler over the states reachable from the freshly
opened state when the fragments fed carry no flags; `P` holds of the byte
buffers that were fed.

* the retained frame type is 0 or one of the three type flags, and it is I
  only once an SPS and a PPS are known;
* `b_sps` / `b_pps` imply an occupied SPS / PPS slot, and an occupied slot
  holds a fed NAL of type 7 / 8 without flags;
* a NAL of the AU under construction is a fed NAL, and it carries the AUD
  marker (and no other flag) exactly if it is an AUD NAL;
* while a slice is pending the AU under construction holds a slice NAL;
* if the head of the AU under construction is an AUD, no other NAL of it is. -/
structure assembler_inv (P : List Nat → Prop) (s : decoder_sys_t) : Prop where
  ft_range : s.slice.i_frame_type = 0 ∨ s.slice.i_frame_type = BLOCK_FLAG_TYPE_I ∨
    s.slice.i_frame_type = BLOCK_FLAG_TYPE_P ∨ s.slice.i_frame_type = BLOCK_FLAG_TYPE_B
  ft_I : s.slice.i_frame_type = BLOCK_FLAG_TYPE_I → s.b_sps = true ∧ s.b_pps = true
  sps_some : s.b_sps = true → stored_nals s.pp_sps SPS_MAX ≠ []
  pps_some : s.b_pps = true → stored_nals s.pp_pps PPS_MAX ≠ []
  sps_ok : ∀ b ∈ stored_nals s.pp_sps SPS_MAX,
    nal_type b = NAL_SPS ∧ b.i_flags = 0 ∧ P b.p_buffer
  pps_ok : ∀ b ∈ stored_nals s.pp_pps PPS_MAX,
    nal_type b = NAL_PPS ∧ b.i_flags = 0 ∧ P b.p_buffer
  frame_ok : ∀ b ∈ s.p_frame, P b.p_buffer ∧
    ((b.i_flags = 0 ∧ nal_type b ≠ NAL_AU_DELIMITER) ∨
      (b.i_flags = BLOCK_FLAG_PRIVATE_AUD ∧ nal_type b = NAL_AU_DELIMITER))
  slice_frame : s.b_slice = true →
    ∃ b ∈ s.p_frame, NAL_SLICE ≤ nal_type b ∧ nal_type b ≤ NAL_SLICE_IDR
  aud_head : ∀ h t, s.p_frame = h :: t → h.i_flags = BLOCK_FLAG_PRIVATE_AUD →
    ∀ b ∈ t, nal_type b ≠ NAL_AU_DELIMITER

/-- The shape of an emitted AU as a sequence of fed NALs: at most one head AUD,
then SPS NALs, then PPS NALs, then the remaining NALs.  An AU flagged I has
both an SPS and a PPS; the remaining NALs hold no AUD after a head AUD and do
not start with an AUD otherwise. -/
def au_shape (P : List Nat → Prop) (pic : block_t) : Prop :=
  ∃ head spss ppss rest : List block_t,
    pic.p_buffer = chain_bytes (head ++ spss ++ ppss ++ rest) ∧
    (∀ b ∈ head ++ spss ++ ppss ++ rest, P b.p_buffer) ∧
    (∀ b ∈ head, nal_type b = NAL_AU_DELIMITER) ∧ head.length ≤ 1 ∧
    (∀ b ∈ spss, nal_type b = NAL_SPS) ∧ (∀ b ∈ ppss, nal_type b = NAL_PPS) ∧
    (hasFlag pic.i_flags BLOCK_FLAG_TYPE_I = true → spss ≠ [] ∧ ppss ≠ []) ∧
    (head ≠ [] → ∀ b ∈ rest, nal_type b ≠ NAL_AU_DELIMITER) ∧
    (head = [] → ∀ b, rest.head? = some b → nal_type b ≠ NAL_AU_DELIMITER)

/-- The state in which the partially assembled AU has been released and
b_slice, has_frame_sps, has_frame_pps and the frame type are cleared (the
staged captions are flushed with it). -/
def release_partial_au (p_sys : decoder_sys_t) : decoder_sys_t :=
  { p_sys with
    slice := { p_sys.slice with i_frame_type := 0 }
    p_frame := []
    b_frame_sps := false
    b_frame_pps := false
    b_slice := false
    cc_next := cc_Flush p_sys.cc_next }

/-! ## Length-prefixed input (h264.c:176-365, 416-470, 522-557) -/

/-- The byte `p[i]` of a buffer of `buf.length` bytes.  The C code reads
through a bare pointer: `oob` stands for the content of the memory behind the
buffer, which is what a read at an index not below the length returns. -/
def read_byte (buf : List Nat) (oob : Nat → Nat) (i : Nat) : Nat :=
  if i < buf.length then buf.getD i 0 else oob i

/-- The accesses that a function makes to its input buffer: the indices of the
bytes read one at a time (`*p++`, `GetWBE`), in order, and the ranges
(offset, size) handed to `memcpy`. -/
structure mem_trace where
  reads : List Nat
  copies : List (Nat × Nat)
deriving DecidableEq, Repr

/-- The function `CreateAnnexbNAL` (h264.c:539-557) on the `i_size` bytes
`nalu` found at `p`.  Modelled from the spec: `block_Alloc` (vlc_block.h is
absent) returns a block without flags, timestamps or duration; an allocation
failure is left out. -/
def CreateAnnexbNAL (nalu : List Nat) : block_t :=
  { p_buffer := [0x00, 0x00, 0x00, 0x01] ++ nalu
    i_flags := 0
    i_pts := VLC_TS_INVALID
    i_dts := VLC_TS_INVALID
    i_length := 0 }

/-- The loop `i_size = (i_size << 8) | (*p++)` (h264.c:441-444), `n` rounds
from the offset `p`; the `int` is kept as its 32-bit pattern. -/
def PacketizeAVC1_size (buf : List Nat) (oob : Nat → Nat) : Nat → Nat → Nat → Nat
  | 0, _, i_size => i_size
  | n + 1, p, i_size =>
    PacketizeAVC1_size buf oob n (p + 1) (((i_size <<< 8) ||| read_byte buf oob p) % 2 ^ 32)

/-- The loop over the block in PacketizeAVC1 (h264.c:434-466) from the offset
`p`: the new state, the chain `p_ret` and the accesses to the block; `none`
where ParseNALBlock dereferences a null chain.  Every round moves `p` forward,
`fuel` bounds the number of rounds. -/
def PacketizeAVC1_loop (E : Parsers) (p_block : block_t) (oob : Nat → Nat) :
    Nat → Nat → decoder_sys_t → Option ((decoder_sys_t × List block_t) × mem_trace)
  | 0, _, p_sys => some ((p_sys, []), ⟨[], []⟩)
  | fuel + 1, p, p_sys =>
    if p < p_block.p_buffer.length then
      let n := p_sys.i_avcC_length_size
      let i_size := int_of_u32 (PacketizeAVC1_size p_block.p_buffer oob n p 0)
      if i_size ≤ 0 ∨ i_size > (p_block.p_buffer.length : Int) - ((p + n : Nat) : Int) then
        some ((p_sys, []), ⟨List.range' p n, []⟩)
      else
        let p_part : block_t :=
          { CreateAnnexbNAL ((p_block.p_buffer.drop (p + n)).take i_size.toNat) with
            i_dts := p_block.i_dts
            i_pts := p_block.i_pts }
        match ParseNALBlock E p_sys p_part with
        | none => none
        | some (s1, _, p_pic) =>
          match PacketizeAVC1_loop E p_block oob fuel (p + n + i_size.toNat) s1 with
          | none => none
          | some ((s2, pics), t) =>
            some ((s2, p_pic.toList ++ pics),
              ⟨List.range' p n ++ t.reads, (p + n, i_size.toNat) :: t.copies⟩)
    else some ((p_sys, []), ⟨[], []⟩)

/-- The function `PacketizeAVC1` (h264.c:416-470); `pp_block` is `none` for a
null block. -/
def PacketizeAVC1 (E : Parsers) (p_sys : decoder_sys_t) (pp_block : Option block_t)
    (oob : Nat → Nat) : Option ((decoder_sys_t × List block_t) × mem_trace) :=
  match pp_block with
  | none => some ((p_sys, []), ⟨[], []⟩)
  | some p_block =>
    if hasFlag p_block.i_flags (BLOCK_FLAG_DISCONTINUITY ||| BLOCK_FLAG_CORRUPTED) then
      some ((p_sys, []), ⟨[], []⟩)
    else PacketizeAVC1_loop E p_block oob p_block.p_buffer.length 0 p_sys

/-- The loop `while( i_buffer > 5 && p_buffer[i_buffer-1] == 0x00 ) i_buffer--`
of PacketizeParse (h264.c:527-528), on the reversed buffer. -/
def PacketizeParse_strip : List Nat → List Nat
  | [] => []
  | b :: rest => if 5 < (b :: rest).length ∧ b = 0x00 then PacketizeParse_strip rest else b :: rest

/-- The function `PacketizeParse` (h264.c:522-531). -/
def PacketizeParse (E : Parsers) (p_sys : decoder_sys_t) (p_block : block_t) :
    Option (decoder_sys_t × Bool × Option block_t) :=
  ParseNALBlock E p_sys
    { p_block with p_buffer := (PacketizeParse_strip p_block.p_buffer.reverse).reverse }

/-- The state after the assignments at h264.c:199-234, before Open looks at
the framing: the fields that are not assigned keep the content `garbage` of
the allocated record. -/
def Open_init (garbage : decoder_sys_t) : decoder_sys_t :=
  { garbage with
    b_slice := false
    p_frame := []
    b_frame_sps := false
    b_frame_pps := false
    b_header := false
    b_sps := false
    b_pps := false
    pp_sps := fun _ => none
    pp_pps := fun _ => none
    i_recovery_frames := -1
    slice :=
      { garbage.slice with
        i_nal_type := -1
        i_nal_ref_idc := -1
        i_idr_pic_id := -1
        i_frame_num := -1
        i_frame_type := 0
        i_pic_parameter_set_id := -1
        i_field_pic_flag := 0
        i_bottom_field_flag := -1
        i_pic_order_cnt_lsb := -1
        i_delta_pic_order_cnt_bottom := -1 }
    b_timing_info_present_flag := false
    b_pic_struct_present_flag := false
    b_cpb_dpb_delays_present_flag := false
    i_cpb_removal_delay_length_minus1 := 0
    i_dpb_output_delay_length_minus1 := 0
    b_even_frame := false
    i_frame_dts := VLC_TS_INVALID
    i_frame_pts := VLC_TS_INVALID
    i_prev_dts := VLC_TS_INVALID
    i_prev_pts := VLC_TS_INVALID }

/-- Modelled from the spec: `GetWBE` (vlc_common.h is absent), the 16-bit
big-endian value of the two bytes at `p`. -/
def GetWBE (buf : List Nat) (oob : Nat → Nat) (p : Nat) : Nat :=
  ((read_byte buf oob p <<< 8) ||| read_byte buf oob (p + 1)) % 2 ^ 16

/-- How a call of Open, or of a part of it, ends: it goes on with a value, it
returns `VLC_EGENERIC`, or ParseNALBlock dereferences a null chain. -/
inductive open_result (α : Type) where
  | VLC_SUCCESS (a : α)
  | VLC_EGENERIC
  | fault

/-- The two loops of Open over the parameter sets of the avcC record
(h264.c:256-269 and 272-285): `n` rounds from the offset `p`; the value is the
state and the offset after the last round. -/
def Open_avcC_loop (E : Parsers) (extra : List Nat) (oob : Nat → Nat) :
    Nat → Nat → decoder_sys_t → mem_trace × open_result (decoder_sys_t × Nat)
  | 0, p, p_sys => (⟨[], []⟩, open_result.VLC_SUCCESS (p_sys, p))
  | n + 1, p, p_sys =>
    let i_length := GetWBE extra oob p
    if (i_length : Int) > (extra.length : Int) - ((p + 2 : Nat) : Int) then
      (⟨[p, p + 1], []⟩, open_result.VLC_EGENERIC)
    else
      match ParseNALBlock E p_sys (CreateAnnexbNAL ((extra.drop (p + 2)).take i_length)) with
      | none => (⟨[p, p + 1], [(p + 2, i_length)]⟩, open_result.fault)
      | some (s1, _, _) =>
        let r := Open_avcC_loop E extra oob n (p + 2 + i_length) s1
        (⟨[p, p + 1] ++ r.1.reads, (p + 2, i_length) :: r.1.copies⟩, r.2)

/-- The branch of Open for length-prefixed input (h264.c:240-340) on the avcC
record `extra`, from the state `p_sys` set up before it; the new extradata is
allocated. -/
def Open_avcC (E : Parsers) (p_sys : decoder_sys_t) (extra : List Nat) (oob : Nat → Nat) :
    mem_trace × open_result decoder_sys_t :=
  let s1 : decoder_sys_t :=
    { p_sys with i_avcC_length_size := 1 + (read_byte extra oob 4 &&& 0x03) }
  let i_sps := read_byte extra oob 5 &&& 0x1f
  match Open_avcC_loop E extra oob i_sps 6 s1 with
  | (t1, open_result.VLC_EGENERIC) => (⟨[4, 5] ++ t1.reads, t1.copies⟩, open_result.VLC_EGENERIC)
  | (t1, open_result.fault) => (⟨[4, 5] ++ t1.reads, t1.copies⟩, open_result.fault)
  | (t1, open_result.VLC_SUCCESS (s2, p)) =>
    let i_pps := read_byte extra oob p
    match Open_avcC_loop E extra oob i_pps (p + 1) s2 with
    | (t2, open_result.VLC_EGENERIC) =>
      (⟨[4, 5] ++ t1.reads ++ [p] ++ t2.reads, t1.copies ++ t2.copies⟩, open_result.VLC_EGENERIC)
    | (t2, open_result.fault) =>
      (⟨[4, 5] ++ t1.reads ++ [p] ++ t2.reads, t1.copies ++ t2.copies⟩, open_result.fault)
    | (t2, open_result.VLC_SUCCESS (s3, _)) =>
      if s3.b_sps = false ∨ s3.b_pps = false then
        (⟨[4, 5] ++ t1.reads ++ [p] ++ t2.reads, t1.copies ++ t2.copies⟩, open_result.VLC_EGENERIC)
      else
        (⟨[4, 5] ++ t1.reads ++ [p] ++ t2.reads, t1.copies ++ t2.copies⟩,
          open_result.VLC_SUCCESS { s3 with b_header := true })

/-- The function `Open` (h264.c:176-365).  `b_h264` tells whether the codec
tag is H.264, `b_avc1` whether the original fourcc is `avc1`; `extra` is the
extradata.  `packetizer_Header` (packetizer_helper.h, not part of the
sources) is a parameter: the state after the start-code scanner has run over
the extradata of a start-code-framed stream. -/
def Open (E : Parsers) (packetizer_Header : decoder_sys_t → List Nat → decoder_sys_t)
    (garbage : decoder_sys_t) (b_h264 b_avc1 : Bool) (extra : List Nat) (oob : Nat → Nat) :
    mem_trace × open_result decoder_sys_t :=
  if b_h264 = false then (⟨[], []⟩, open_result.VLC_EGENERIC)
  else if b_avc1 = true ∧ extra.length < 7 then (⟨[], []⟩, open_result.VLC_EGENERIC)
  else if b_avc1 = true then Open_avcC E (Open_init garbage) extra oob
  else if 0 < extra.length then
    (⟨[], []⟩, open_result.VLC_SUCCESS (packetizer_Header (Open_state garbage) extra))
  else (⟨[], []⟩, open_result.VLC_SUCCESS (Open_state garbage))

/-- Whether a call ended with `VLC_SUCCESS`. -/
def open_result.succeeded {α : Type} : open_result α → Bool
  | open_result.VLC_SUCCESS _ => true
  | _ => false

/-- The state that a successful call produced. -/
def open_result.state? {α : Type} : open_result α → Option α
  | open_result.VLC_SUCCESS a => some a
  | _ => none

/-- The avcC record `01 64 00 1F FF E1 0002 <67 00> 01 0002 <68 00>` with a
length size of 4 bytes: one SPS and one PPS. -/
def sample_avcC : List Nat :=
  [0x01, 0x64, 0x00, 0x1F, 0xFF, 0xE1, 0x00, 0x02, 0x67, 0x00, 0x01, 0x00, 0x02, 0x68, 0x00]

/-- An avcC record whose SPS list holds an SPS NAL and a PPS NAL and ends with
the record: `01 64 00 1F FF E2 0002 <67 00> 0002 <68 00>`, 14 bytes. -/
def sample_avcC_short : List Nat :=
  [0x01, 0x64, 0x00, 0x1F, 0xFF, 0xE2, 0x00, 0x02, 0x67, 0x00, 0x00, 0x02, 0x68, 0x00]

/-- Memory behind a buffer that holds zero bytes. -/
def zero_mem : Nat → Nat := fun _ => 0

/-! ## Definitions for the timestamp, reset and length-prefix properties -/

/-- A fragment as the scanner hands it over with the PTS and DTS of its input
block. -/
def stamped (b : block_t) (pts dts : Int) : block_t := { b with i_pts := pts, i_dts := dts }

/-- Two states hold the same captured and previous timestamps. -/
def same_ts (a b : decoder_sys_t) : Prop :=
  a.i_frame_dts = b.i_frame_dts ∧ a.i_frame_pts = b.i_frame_pts ∧
  a.i_prev_dts = b.i_prev_dts ∧ a.i_prev_pts = b.i_prev_pts

/-- The frame type that ParseSlice derives from the `slice_type` of a slice
NAL (h264.c:898-927): it depends on the bytes of the NAL only. -/
def slice_frame_type (p_frag : block_t) : Nat :=
  frame_type_of_slice_type
    (bs_read_ue (bs_read_ue (bs_init (CreateDecodedNAL ((p_frag.p_buffer.drop 5).take 60)))).2).1

/-- The big-endian value of a sequence of bytes. -/
def be_value (bytes : List Nat) : Nat := bytes.foldl (fun a b => a * 256 + b) 0

/-- A record of the length-prefixed framing: the bytes `len` of the length
field followed by the payload. -/
structure avcc_record where
  len : List Nat
  payload : List Nat
deriving DecidableEq, Repr

/-- The bytes of a sequence of records. -/
def avcc_bytes (records : List avcc_record) : List Nat :=
  (records.map (fun r => r.len ++ r.payload)).flatten

/-- A record is well formed for the length size `n`: the length field has `n`
bytes, its big-endian value is the number of payload bytes, and this number is
positive as the `int` that the code reads it into. -/
def avcc_record.well_formed (n : Nat) (r : avcc_record) : Prop :=
  r.len.length = n ∧ (∀ b ∈ r.len, b < 256) ∧ be_value r.len = r.payload.length ∧
  0 < r.payload.length ∧ r.payload.length < 2 ^ 31

/-- The fragment that the specification gives for a record of a block: the
start code `00 00 00 01`, then the payload, with the PTS and DTS of the block. -/
def avcc_fragment (p_block : block_t) (r : avcc_record) : block_t :=
  { p_buffer := [0x00, 0x00, 0x00, 0x01] ++ r.payload
    i_flags := 0
    i_pts := p_block.i_pts
    i_dts := p_block.i_dts
    i_length := 0 }

/-- The pictures returned while the sample parsers are fed the fragments
`frags` from the freshly opened state. -/
def sample_pics (frags : List block_t) : List block_t :=
  ((feed sampleParsers (Open_state zero_sys) frags).map Prod.snd).getD []

instance (n : Nat) (r : avcc_record) : Decidable (avcc_record.well_formed n r) := by
  unfold avcc_record.well_formed
  infer_instance

/-- The state after Open on the sample avcC record: SPS 0 and PPS 0 stored,
length size 4, header ready. -/
def sample_avc1 : decoder_sys_t :=
  ((Open sampleParsers (fun s _ => s) zero_sys true true sample_avcC zero_mem).2.state?).getD
    zero_sys

/-- A block of two records with a length size of 4: an IDR slice and a
P-slice, PTS 40 and DTS 20. -/
def sample_avc1_block : block_t :=
  { p_buffer := [0, 0, 0, 3, 0x65, 0xB8, 0x40, 0, 0, 0, 2, 0x41, 0xE2]
    i_flags := 0, i_pts := 40, i_dts := 20, i_length := 0 }

/-! ## Definitions for the remaining properties -/

/-- The `slice_type` that ParseSlice decodes (h264.c:898-907): the second
Exp-Golomb value of the decoded first 60 payload bytes. -/
def ParseSlice_slice_type (p_frag : block_t) : Int :=
  (bs_read_ue (bs_read_ue (bs_init (CreateDecodedNAL ((p_frag.p_buffer.drop 5).take 60)))).2).1

/-- The mapping that the specification gives from `slice_type` to the frame
type: 0/5 to P, 1/6 to B, 2/7 to I, 3/8 to P, 4/9 to I. -/
def spec_slice_type_table : List (Int × Nat) :=
  [(0, BLOCK_FLAG_TYPE_P), (5, BLOCK_FLAG_TYPE_P), (1, BLOCK_FLAG_TYPE_B), (6, BLOCK_FLAG_TYPE_B),
   (2, BLOCK_FLAG_TYPE_I), (7, BLOCK_FLAG_TYPE_I), (3, BLOCK_FLAG_TYPE_P), (8, BLOCK_FLAG_TYPE_P),
   (4, BLOCK_FLAG_TYPE_I), (9, BLOCK_FLAG_TYPE_I)]

/-- The frame type of the specification: the entry of the table, and none (0)
for every value without an entry. -/
def spec_frame_type (slice_type : Int) : Nat :=
  ((spec_slice_type_table.find? (fun e => e.1 == slice_type)).map Prod.snd).getD 0

/-- A block of the sample length-prefixed stream that ends one byte behind its
only record: `00 00 00 02 <09 F0> 00`. -/
def sample_avc1_block_tail : block_t :=
  { sample_avc1_block with p_buffer := [0, 0, 0, 2, 0x09, 0xF0, 0x00] }

/-- An SEI NAL with a user_data_registered_itu_t_t35 payload (type 4) of
declared size 5, `B5 00 31 47 41`, followed by the bytes `39 34 80`. -/
def nal_sei_t35_short : block_t :=
  annexb 0x06 [0x04, 0x05, 0xB5, 0x00, 0x31, 0x47, 0x41, 0x39, 0x34, 0x80]

/-- A non-IDR I-slice NAL: first_mb 0, slice_type 2, PPS 0, frame_num 1
(bits 1 011 1 0001). -/
def nal_i1 : block_t := annexb 0x41 [0xB8, 0x80]

/-- The states that the packetizer can be in: the state that Open sets up for a
start-code-framed stream without extradata, the state that a successful Open
leaves for a length-prefixed stream, and every state reached from one of
these by a call of ParseNALBlock on a fragment as it is allocated (without
flags), by a call of OutputPicture, or by a call of PacketizeReset. -/
inductive reachable (E : Parsers) : decoder_sys_t → Prop where
  | opened (garbage : decoder_sys_t) : reachable E (Open_state garbage)
  | opened_avc1 (garbage : decoder_sys_t) (extra : List Nat) (oob : Nat → Nat)
      (s : decoder_sys_t) :
      (Open_avcC E (Open_init garbage) extra oob).2 = open_result.VLC_SUCCESS s →
      reachable E s
  | parse (s s' : decoder_sys_t) (f : block_t) (ts : Bool) (pic : Option block_t) :
      reachable E s → f.i_flags = 0 → ParseNALBlock E s f = some (s', ts, pic) →
      reachable E s'
  | output (s s' : decoder_sys_t) (pic : Option block_t) :
      reachable E s → OutputPicture s = some (s', pic) → reachable E s'
  | reset (s : decoder_sys_t) (b_broken : Bool) :
      reachable E s → reachable E (PacketizeReset s b_broken)

/-- A byte buffer begins with the 4-byte start code `00 00 00 01` followed by
at least a header byte. -/
def starts_with_startcode (buf : List Nat) : Prop :=
  ∃ hdr rest, buf = 0x00 :: 0x00 :: 0x00 :: 0x01 :: hdr :: rest

/-- The indices of `pb_dec` read by the loops "Read type" and "Read size"
(h264.c:1014-1029) started at `i_used`: one read `pb_dec[i_used++]` per turn,
made while `i_used+1 < i_dec`. -/
def ParseSei_read_ff_reads (pb_dec : List Nat) : Nat → Nat → List Nat
  | 0, _ => []
  | fuel + 1, i_used =>
    if i_used + 1 < pb_dec.length then
      let i_byte := pb_dec.getD i_used 0
      if i_byte ≠ 0xff then [i_used]
      else i_used :: ParseSei_read_ff_reads pb_dec fuel (i_used + 1)
    else []

/-- The test "Check room" (h264.c:1031) passes: `i_used + i_size + 1 > i_dec`
is false, on the `int` values of the source. -/
def ParseSei_room (i_used i_size i_dec : Int) : Bool :=
  decide (¬ (i_used + i_size + 1 > i_dec))

/-- A decoded SEI buffer of 8,421,508 bytes: payload type 4, then a size made
of 8,421,505 bytes 0xff and a byte 0x00, then the trailing byte 0x80. -/
def sample_sei_long : List Nat :=
  [0x04] ++ List.replicate 8421505 0xff ++ [0x00, 0x80]

/-- A decoded SEI buffer with two payloads: type 5 of size 2, then type 0x105
(0xff + 0x06) of size 1, and the trailing byte 0x80. -/
def sample_sei_two : List Nat :=
  [0x05, 0x02, 0xAA, 0xBB, 0xff, 0x06, 0x01, 0xCC, 0x80]

/-- The SEI NAL whose decoded payload bytes are `sample_sei_long`: start code,
header byte 0x06, and these bytes, which hold no emulation prevention byte. -/
def nal_sei_long : block_t := annexb 0x06 sample_sei_long

/-! # Theorems -/

/-! ## Access-unit boundary detection -/

/-- Claim C1: ParseSlice reports a new picture exactly when the new and the
previous retained slice summary differ in frame_num, in pic_parameter_set_id,
in field_pic_flag, in (nal_ref_idc == 0), in bottom_field_flag while both are
not -1, in pic_order_cnt_lsb or delta_pic_order_cnt_bottom while
pic_order_cnt_type is 0, in delta_pic_order_cnt[0] or [1] while
pic_order_cnt_type is 1, or, one of them being IDR, in nal_type or idr_pic_id.
In particular a slice with frame_num 2 after one with frame_num 1 is always a
boundary. -/
theorem ParseSlice_new_picture_iff (p_sys : decoder_sys_t) (i_nal_ref_idc i_nal_type : Int)
    (p_frag : block_t) :
    ((ParseSlice p_sys i_nal_ref_idc i_nal_type p_frag).1 = true ↔
      ((ParseSlice p_sys i_nal_ref_idc i_nal_type p_frag).2.i_frame_num ≠ p_sys.slice.i_frame_num ∨
       (ParseSlice p_sys i_nal_ref_idc i_nal_type p_frag).2.i_pic_parameter_set_id ≠
          p_sys.slice.i_pic_parameter_set_id ∨
       (ParseSlice p_sys i_nal_ref_idc i_nal_type p_frag).2.i_field_pic_flag ≠
          p_sys.slice.i_field_pic_flag ∨
       ¬ ((ParseSlice p_sys i_nal_ref_idc i_nal_type p_frag).2.i_nal_ref_idc = 0 ↔
          p_sys.slice.i_nal_ref_idc = 0) ∨
       ((ParseSlice p_sys i_nal_ref_idc i_nal_type p_frag).2.i_bottom_field_flag ≠ -1 ∧
          p_sys.slice.i_bottom_field_flag ≠ -1 ∧
          (ParseSlice p_sys i_nal_ref_idc i_nal_type p_frag).2.i_bottom_field_flag ≠
            p_sys.slice.i_bottom_field_flag) ∨
       (p_sys.i_pic_order_cnt_type = 0 ∧
          ((ParseSlice p_sys i_nal_ref_idc i_nal_type p_frag).2.i_pic_order_cnt_lsb ≠
              p_sys.slice.i_pic_order_cnt_lsb ∨
           (ParseSlice p_sys i_nal_ref_idc i_nal_type p_frag).2.i_delta_pic_order_cnt_bottom ≠
              p_sys.slice.i_delta_pic_order_cnt_bottom)) ∨
       (p_sys.i_pic_order_cnt_type = 1 ∧
          ((ParseSlice p_sys i_nal_ref_idc i_nal_type p_frag).2.i_delta_pic_order_cnt0 ≠
              p_sys.slice.i_delta_pic_order_cnt0 ∨
           (ParseSlice p_sys i_nal_ref_idc i_nal_type p_frag).2.i_delta_pic_order_cnt1 ≠
              p_sys.slice.i_delta_pic_order_cnt1)) ∨
       (((ParseSlice p_sys i_nal_ref_idc i_nal_type p_frag).2.i_nal_type = (NAL_SLICE_IDR : Int) ∨
            p_sys.slice.i_nal_type = (NAL_SLICE_IDR : Int)) ∧
          ((ParseSlice p_sys i_nal_ref_idc i_nal_type p_frag).2.i_nal_type ≠ p_sys.slice.i_nal_type ∨
           (ParseSlice p_sys i_nal_ref_idc i_nal_type p_frag).2.i_idr_pic_id ≠
              p_sys.slice.i_idr_pic_id)))) ∧
    (p_sys.slice.i_frame_num = 1 ∧
      (ParseSlice p_sys i_nal_ref_idc i_nal_type p_frag).2.i_frame_num = 2 →
      (ParseSlice p_sys i_nal_ref_idc i_nal_type p_frag).1 = true) := by
  have key : ∀ sl : slice_t, ParseSlice_b_pic p_sys sl = true ↔
      (sl.i_frame_num ≠ p_sys.slice.i_frame_num ∨
       sl.i_pic_parameter_set_id ≠ p_sys.slice.i_pic_parameter_set_id ∨
       sl.i_field_pic_flag ≠ p_sys.slice.i_field_pic_flag ∨
       ¬ (sl.i_nal_ref_idc = 0 ↔ p_sys.slice.i_nal_ref_idc = 0) ∨
       (sl.i_bottom_field_flag ≠ -1 ∧ p_sys.slice.i_bottom_field_flag ≠ -1 ∧
          sl.i_bottom_field_flag ≠ p_sys.slice.i_bottom_field_flag) ∨
       (p_sys.i_pic_order_cnt_type = 0 ∧
          (sl.i_pic_order_cnt_lsb ≠ p_sys.slice.i_pic_order_cnt_lsb ∨
           sl.i_delta_pic_order_cnt_bottom ≠ p_sys.slice.i_delta_pic_order_cnt_bottom)) ∨
       (p_sys.i_pic_order_cnt_type = 1 ∧
          (sl.i_delta_pic_order_cnt0 ≠ p_sys.slice.i_delta_pic_order_cnt0 ∨
           sl.i_delta_pic_order_cnt1 ≠ p_sys.slice.i_delta_pic_order_cnt1)) ∨
       ((sl.i_nal_type = (NAL_SLICE_IDR : Int) ∨ p_sys.slice.i_nal_type = (NAL_SLICE_IDR : Int)) ∧
          (sl.i_nal_type ≠ p_sys.slice.i_nal_type ∨ sl.i_idr_pic_id ≠ p_sys.slice.i_idr_pic_id))) := by
    intro sl
    unfold ParseSlice_b_pic
    simp only [decide_eq_decide, ne_eq]
    split_ifs <;> simp_all <;> tauto
  refine ⟨key _, ?_⟩
  rintro ⟨h1, h2⟩
  refine (key _).2 (Or.inl ?_)
  show (ParseSlice p_sys i_nal_ref_idc i_nal_type p_frag).2.i_frame_num ≠ _
  rw [h1, h2]; decide

/-- Witness for C1: after SPS, PPS and a P-slice with frame_num 1, the P-slice
with frame_num 2 and the same PPS is reported as a new picture. -/
theorem ParseSlice_new_picture_iff_witness :
    (ParseSlice (sample_after [nal_sps0, nal_pps0, nal_p1]) 2 1 nal_p2).1 = true :=
  (ParseSlice_new_picture_iff (sample_after [nal_sps0, nal_pps0, nal_p1]) 2 1 nal_p2).2
    ⟨by decide, by decide⟩

/-! ## Emission: helper lemmas and parameter-set injection -/

theorem recovery_p_frame (s : decoder_sys_t) : (OutputPicture_recovery s).p_frame = s.p_frame := by
  unfold OutputPicture_recovery; split_ifs <;> rfl
theorem recovery_slice (s : decoder_sys_t) : (OutputPicture_recovery s).slice = s.slice := by
  unfold OutputPicture_recovery; split_ifs <;> rfl
theorem recovery_b_sps (s : decoder_sys_t) : (OutputPicture_recovery s).b_sps = s.b_sps := by
  unfold OutputPicture_recovery; split_ifs <;> rfl
theorem recovery_b_pps (s : decoder_sys_t) : (OutputPicture_recovery s).b_pps = s.b_pps := by
  unfold OutputPicture_recovery; split_ifs <;> rfl
theorem recovery_pp_sps (s : decoder_sys_t) : (OutputPicture_recovery s).pp_sps = s.pp_sps := by
  unfold OutputPicture_recovery; split_ifs <;> rfl
theorem recovery_pp_pps (s : decoder_sys_t) : (OutputPicture_recovery s).pp_pps = s.pp_pps := by
  unfold OutputPicture_recovery; split_ifs <;> rfl
theorem recovery_b_frame_sps (s : decoder_sys_t) :
    (OutputPicture_recovery s).b_frame_sps = s.b_frame_sps := by
  unfold OutputPicture_recovery; split_ifs <;> rfl
theorem recovery_b_frame_pps (s : decoder_sys_t) :
    (OutputPicture_recovery s).b_frame_pps = s.b_frame_pps := by
  unfold OutputPicture_recovery; split_ifs <;> rfl

theorem b_sps_pps_i_recovery (s : decoder_sys_t) :
    b_sps_pps_i (OutputPicture_recovery s) = b_sps_pps_i s := by
  simp only [b_sps_pps_i, recovery_slice, recovery_b_sps, recovery_b_pps]

theorem OutputPicture_list_recovery (s : decoder_sys_t) :
    OutputPicture_list (OutputPicture_recovery s) = OutputPicture_list s := by
  simp only [OutputPicture_list, b_sps_pps_i_recovery, recovery_b_frame_sps, recovery_b_frame_pps,
    recovery_pp_sps, recovery_pp_pps]

theorem OutputPicture_chain_recovery (s : decoder_sys_t) :
    OutputPicture_chain (OutputPicture_recovery s) = OutputPicture_chain s := by
  simp only [OutputPicture_chain, b_sps_pps_i_recovery, recovery_b_frame_sps, recovery_b_frame_pps,
    recovery_p_frame, OutputPicture_list_recovery]

theorem OutputPicture_field_buffer (s : decoder_sys_t) (p : block_t) :
    (OutputPicture_field s p).1.p_buffer = p.p_buffer := by
  unfold OutputPicture_field; split_ifs <;> rfl

theorem OutputPicture_finish_buffer (s : decoder_sys_t) (p : block_t) :
    (OutputPicture_finish s p).2.p_buffer = p.p_buffer := by
  simp only [OutputPicture_finish, OutputPicture_field_buffer]
  split_ifs <;> rfl

theorem block_ChainGather_buffer {l : List block_t} {g : block_t}
    (h : block_ChainGather l = some g) : g.p_buffer = chain_bytes l := by
  cases l with
  | nil => simp [block_ChainGather] at h
  | cons b rest =>
    simp only [block_ChainGather, Option.some.injEq] at h
    subst h; rfl

theorem block_ChainGather_ne_nil {l : List block_t} (h : l ≠ []) :
    ∃ g, block_ChainGather l = some g := by
  cases l with
  | nil => exact absurd rfl h
  | cons b rest => exact ⟨_, rfl⟩

theorem OutputPicture_chain_ne_nil {s : decoder_sys_t} {chain : List block_t}
    (h : OutputPicture_chain s = some chain) : chain ≠ [] ∧ s.p_frame ≠ [] := by
  unfold OutputPicture_chain at h
  cases hf : s.p_frame with
  | nil => simp [hf] at h
  | cons b rest =>
    simp only [hf] at h
    split_ifs at h <;> simp only [Option.some.injEq] at h <;> subst h <;> simp

theorem OutputPicture_chain_of_frame {s : decoder_sys_t} (h : s.p_frame ≠ []) :
    ∃ chain, OutputPicture_chain s = some chain := by
  unfold OutputPicture_chain
  cases hf : s.p_frame with
  | nil => exact absurd hf h
  | cons b rest =>
    simp only
    split_ifs <;> exact ⟨_, rfl⟩

/-- Emission: when OutputPicture is not suppressed and the chain is not empty,
it returns the finished gathered picture. -/
theorem OutputPicture_emit {s : decoder_sys_t} (hns : ¬ suppressed s) {chain : List block_t}
    (hc : OutputPicture_chain s = some chain) :
    ∃ g, block_ChainGather chain = some g ∧
      OutputPicture s = some
        ((OutputPicture_finish { OutputPicture_recovery s with
            b_header := OutputPicture_header (OutputPicture_recovery s) } g).1,
         some (OutputPicture_finish { OutputPicture_recovery s with
            b_header := OutputPicture_header (OutputPicture_recovery s) } g).2) := by
  obtain ⟨g, hg⟩ := block_ChainGather_ne_nil (OutputPicture_chain_ne_nil hc).1
  refine ⟨g, hg, ?_⟩
  unfold OutputPicture
  have hns' : ¬ ((OutputPicture_recovery s).b_header = false ∧
      (OutputPicture_recovery s).i_recovery_frames = -1 ∧
      (OutputPicture_recovery s).slice.i_frame_type ≠ BLOCK_FLAG_TYPE_I) := by
    rw [recovery_slice]; exact hns
  refine (if_neg hns').trans ?_
  simp only [OutputPicture_chain_recovery, hc, hg]

theorem OutputPicture_emits {s : decoder_sys_t} (hns : ¬ suppressed s) (hf : s.p_frame ≠ []) :
    ∃ s' pic, OutputPicture s = some (s', some pic) := by
  obtain ⟨chain, hc⟩ := OutputPicture_chain_of_frame hf
  obtain ⟨g, _, he⟩ := OutputPicture_emit hns hc
  exact ⟨_, _, he⟩

theorem OutputPicture_suppressed {s : decoder_sys_t} (hs : suppressed s) :
    OutputPicture s = some (OutputPicture_recovery s, none) := by
  unfold OutputPicture
  have hs' : ((OutputPicture_recovery s).b_header = false ∧
      (OutputPicture_recovery s).i_recovery_frames = -1 ∧
      (OutputPicture_recovery s).slice.i_frame_type ≠ BLOCK_FLAG_TYPE_I) := by
    rw [recovery_slice]; exact hs
  exact if_pos hs'

theorem chain_bytes_append (a b : List block_t) :
    chain_bytes (a ++ b) = chain_bytes a ++ chain_bytes b := by
  simp [chain_bytes]

theorem chain_bytes_cons (a : block_t) (b : List block_t) :
    chain_bytes (a :: b) = a.p_buffer ++ chain_bytes b := by
  simp [chain_bytes]

theorem chain_bytes_nil : chain_bytes [] = [] := rfl

/-- A returned picture carries the bytes of the chain handed to the gather. -/
theorem OutputPicture_some_buffer {s s' : decoder_sys_t} {pic : block_t}
    (h : OutputPicture s = some (s', some pic)) :
    ¬ suppressed s ∧ ∃ chain, OutputPicture_chain s = some chain ∧
      pic.p_buffer = chain_bytes chain := by
  by_cases hs : suppressed s
  · rw [OutputPicture_suppressed hs] at h
    simp at h
  · refine ⟨hs, ?_⟩
    cases hc : OutputPicture_chain s with
    | none =>
      exfalso
      unfold OutputPicture at h
      have hns' : ¬ ((OutputPicture_recovery s).b_header = false ∧
          (OutputPicture_recovery s).i_recovery_frames = -1 ∧
          (OutputPicture_recovery s).slice.i_frame_type ≠ BLOCK_FLAG_TYPE_I) := by
        rw [recovery_slice]; exact hs
      rw [show (_ : Option (decoder_sys_t × Option block_t)) = _ from if_neg hns'] at h
      simp [OutputPicture_chain_recovery, hc] at h
    | some chain =>
      obtain ⟨g, hg, he⟩ := OutputPicture_emit hs hc
      rw [he] at h
      simp only [Option.some.injEq, Prod.mk.injEq] at h
      refine ⟨chain, rfl, ?_⟩
      rw [← h.2, OutputPicture_finish_buffer, block_ChainGather_buffer hg]

/-- The bytes of the chain handed to the gather, when parameter sets are
injected and the head of the AU carries the AUD marker exactly if it is an
AUD NAL. -/
theorem OutputPicture_chain_bytes {s : decoder_sys_t} {chain : List block_t}
    (hc : OutputPicture_chain s = some chain)
    (hinj : (b_sps_pps_i s || s.b_frame_sps || s.b_frame_pps) = true)
    (hAud : ∀ p_head, s.p_frame.head? = some p_head →
      (hasFlag p_head.i_flags BLOCK_FLAG_PRIVATE_AUD = true ↔ nal_type p_head = NAL_AU_DELIMITER)) :
    chain_bytes chain = spec_au_bytes s.p_frame
      (if b_sps_pps_i s || s.b_frame_sps then stored_nals s.pp_sps SPS_MAX else [])
      (if b_sps_pps_i s || s.b_frame_pps then stored_nals s.pp_pps PPS_MAX else []) := by
  unfold OutputPicture_chain at hc
  rw [if_pos hinj] at hc
  cases hf : s.p_frame with
  | nil => simp [hf] at hc
  | cons p_head rest =>
    have hA := hAud p_head (by rw [hf]; rfl)
    simp only [hf] at hc
    simp only [spec_au_bytes]
    by_cases hflag : hasFlag p_head.i_flags BLOCK_FLAG_PRIVATE_AUD = true
    · rw [if_pos hflag] at hc
      rw [if_pos (hA.1 hflag)]
      simp only [Option.some.injEq] at hc
      subst hc
      simp only [OutputPicture_list, chain_bytes_cons, chain_bytes_append, List.append_assoc]
    · rw [if_neg hflag] at hc
      rw [if_neg (fun h => hflag (hA.2 h))]
      simp only [Option.some.injEq] at hc
      subst hc
      simp only [OutputPicture_list, chain_bytes_cons, chain_bytes_append, List.append_assoc]

/-- Claim C2: when the current slice frame type is I and an SPS and a PPS are
known, OutputPicture emits an AU whose bytes are the head AUD NAL if the AU
chain starts with one, then every stored SPS NAL in ascending sps_id order,
then every stored PPS NAL in ascending pps_id order, then the remaining NALs
of the chain in arrival order.  The code recognises the head AUD by its
private marker, which sits on the head exactly if it is an AUD NAL. -/
theorem OutputPicture_keyframe_bytes (p_sys : decoder_sys_t) (p_head : block_t)
    (rest : List block_t) (hframe : p_sys.p_frame = p_head :: rest)
    (hI : p_sys.slice.i_frame_type = BLOCK_FLAG_TYPE_I)
    (hsps : p_sys.b_sps = true) (hpps : p_sys.b_pps = true)
    (hAud : hasFlag p_head.i_flags BLOCK_FLAG_PRIVATE_AUD = true ↔
      nal_type p_head = NAL_AU_DELIMITER) :
    ∃ s' pic, OutputPicture p_sys = some (s', some pic) ∧
      pic.p_buffer = spec_au_bytes p_sys.p_frame (stored_nals p_sys.pp_sps SPS_MAX)
        (stored_nals p_sys.pp_pps PPS_MAX) := by
  have hns : ¬ suppressed p_sys := fun h => h.2.2 hI
  have hi : b_sps_pps_i p_sys = true := by simp [b_sps_pps_i, hI, hsps, hpps]
  obtain ⟨chain, hc⟩ := OutputPicture_chain_of_frame (s := p_sys) (by rw [hframe]; simp)
  obtain ⟨g, hg, he⟩ := OutputPicture_emit hns hc
  refine ⟨_, _, he, ?_⟩
  rw [OutputPicture_finish_buffer, block_ChainGather_buffer hg,
    OutputPicture_chain_bytes hc (by simp [hi]) (by
      intro h hh
      rw [hframe] at hh
      simp only [List.head?_cons, Option.some.injEq] at hh
      subst hh; exact hAud)]
  simp [hi]

/-- Witness for C2: the chain AUD, IDR slice with SPS 0 and PPS 0 stored is
emitted as AUD, SPS, PPS, IDR slice. -/
theorem OutputPicture_keyframe_bytes_witness :
    ∃ s' pic, OutputPicture (sample_after [nal_aud, nal_sps0, nal_pps0, nal_idr]) =
        some (s', some pic) ∧
      pic.p_buffer = [0, 0, 0, 1, 9, 240, 0, 0, 0, 1, 103, 0, 0, 0, 0, 1, 104, 0,
        0, 0, 0, 1, 101, 184, 64] := by
  obtain ⟨s', pic, h1, h2⟩ := OutputPicture_keyframe_bytes
    (sample_after [nal_aud, nal_sps0, nal_pps0, nal_idr])
    { nal_aud with i_flags := BLOCK_FLAG_PRIVATE_AUD } [nal_idr]
    (by decide) (by decide) (by decide) (by decide) (by decide)
  exact ⟨s', pic, h1, h2.trans (by decide)⟩

/-- Counterexample to C3 as stated: after SPS, PPS, IDR slice, SPS, P-slice the
AU under construction has has_frame_sps set, has_frame_pps clear and frame
type P, and PPS 0 is stored; OutputPicture emits SPS, P-slice: no PPS is
prepended. -/
theorem OutputPicture_inline_sets_counterexample :
    (sample_after [nal_sps0, nal_pps0, nal_idr, nal_sps0, nal_p1]).b_frame_sps = true ∧
    stored_nals (sample_after [nal_sps0, nal_pps0, nal_idr, nal_sps0, nal_p1]).pp_pps PPS_MAX =
      [nal_pps0] ∧
    (OutputPicture (sample_after [nal_sps0, nal_pps0, nal_idr, nal_sps0, nal_p1])).map
        (fun r => r.2.map (fun pic => pic.p_buffer)) =
      some (some [0, 0, 0, 1, 103, 0, 0, 0, 0, 1, 65, 226]) ∧
    (OutputPicture (sample_after [nal_sps0, nal_pps0, nal_idr, nal_sps0, nal_p1])).map
        (fun r => r.2.map (fun pic => pic.p_buffer)) ≠
      some (some (spec_au_bytes
        (sample_after [nal_sps0, nal_pps0, nal_idr, nal_sps0, nal_p1]).p_frame
        (stored_nals (sample_after [nal_sps0, nal_pps0, nal_idr, nal_sps0, nal_p1]).pp_sps SPS_MAX)
        (stored_nals (sample_after [nal_sps0, nal_pps0, nal_idr, nal_sps0, nal_p1]).pp_pps
          PPS_MAX))) := by
  refine ⟨by decide, by decide, by decide, by decide⟩

/-- Claim C3, amended: for every emitted AU for which has_frame_sps or
has_frame_pps is set, OutputPicture prepends (after a head AUD if present) all
stored SPS when has_frame_sps is set or the frame type is I with an SPS and a
PPS known, followed by all stored PPS when has_frame_pps is set or the frame
type is I with an SPS and a PPS known; a kind whose condition fails is not
prepended. -/
theorem OutputPicture_inline_sets (p_sys s' : decoder_sys_t) (pic : block_t)
    (hemit : OutputPicture p_sys = some (s', some pic))
    (hflag : p_sys.b_frame_sps = true ∨ p_sys.b_frame_pps = true)
    (hAud : ∀ p_head, p_sys.p_frame.head? = some p_head →
      (hasFlag p_head.i_flags BLOCK_FLAG_PRIVATE_AUD = true ↔ nal_type p_head = NAL_AU_DELIMITER)) :
    pic.p_buffer = spec_au_bytes p_sys.p_frame
      (if (p_sys.slice.i_frame_type = BLOCK_FLAG_TYPE_I ∧ p_sys.b_sps = true ∧ p_sys.b_pps = true) ∨
          p_sys.b_frame_sps = true then stored_nals p_sys.pp_sps SPS_MAX else [])
      (if (p_sys.slice.i_frame_type = BLOCK_FLAG_TYPE_I ∧ p_sys.b_sps = true ∧ p_sys.b_pps = true) ∨
          p_sys.b_frame_pps = true then stored_nals p_sys.pp_pps PPS_MAX else []) := by
  obtain ⟨_, chain, hc, hb⟩ := OutputPicture_some_buffer hemit
  have hinj : (b_sps_pps_i p_sys || p_sys.b_frame_sps || p_sys.b_frame_pps) = true := by
    rcases hflag with h | h <;> simp [h]
  rw [hb, OutputPicture_chain_bytes hc hinj hAud]
  simp only [b_sps_pps_i, Bool.or_eq_true, Bool.and_eq_true, decide_eq_true_eq, and_assoc]

/-- Witness for the amended C3: the AU of the counterexample is emitted as SPS,
P-slice. -/
theorem OutputPicture_inline_sets_witness :
    ∃ s' pic, OutputPicture (sample_after [nal_sps0, nal_pps0, nal_idr, nal_sps0, nal_p1]) =
        some (s', some pic) ∧
      pic.p_buffer = [0, 0, 0, 1, 103, 0, 0, 0, 0, 1, 65, 226] := by
  obtain ⟨s', pic, h⟩ := OutputPicture_emits
    (s := sample_after [nal_sps0, nal_pps0, nal_idr, nal_sps0, nal_p1])
    (by unfold suppressed; decide) (by decide)
  exact ⟨s', pic, h, (OutputPicture_inline_sets _ s' pic h (by decide) (by decide)).trans
    (by decide)⟩

/-! ## Flag words, bit by bit -/

theorem and_two_pow_eq_zero (f k : Nat) : f &&& 2 ^ k = 0 ↔ f.testBit k = false := by
  constructor
  · intro h
    have := congrArg (fun x => x.testBit k) h
    simpa [Nat.testBit_and, Nat.testBit_two_pow] using this
  · intro h
    apply Nat.eq_of_testBit_eq
    intro i
    simp only [Nat.testBit_and, Nat.testBit_two_pow, Nat.zero_testBit]
    by_cases hk : k = i
    · subst hk; simp [h]
    · simp [hk]

theorem hasFlag_two_pow (f k : Nat) : hasFlag f (2 ^ k) = f.testBit k := by
  unfold hasFlag
  cases hb : f.testBit k
  · simp [(and_two_pow_eq_zero f k).2 hb]
  · have : f &&& 2 ^ k ≠ 0 := fun h => by
      rw [(and_two_pow_eq_zero f k).1 h] at hb; cases hb
    simpa using this

theorem hasFlag_preroll (f : Nat) : hasFlag f BLOCK_FLAG_PREROLL = f.testBit 11 :=
  hasFlag_two_pow f 11

theorem hasFlag_type_i (f : Nat) : hasFlag f BLOCK_FLAG_TYPE_I = f.testBit 1 :=
  hasFlag_two_pow f 1

theorem hasFlag_aud (f : Nat) : hasFlag f BLOCK_FLAG_PRIVATE_AUD = f.testBit 24 :=
  hasFlag_two_pow f 24

theorem testBit_clearFlag_aud (f i : Nat) :
    (clearFlag f BLOCK_FLAG_PRIVATE_AUD).testBit i = (f.testBit i && decide (i < 32 ∧ i ≠ 24)) := by
  have h32 : (0xFFFFFFFF : Nat) = 2 ^ 32 - 1 := by norm_num
  have h24 : BLOCK_FLAG_PRIVATE_AUD = 2 ^ 24 := by decide
  unfold clearFlag
  rw [Nat.testBit_and, Nat.testBit_xor, h32, Nat.testBit_two_pow_sub_one, h24,
    Nat.testBit_two_pow]
  congr 1
  by_cases h1 : i < 32
  · by_cases h2 : 24 = i
    · subst h2; rfl
    · have h3 : i ≠ 24 := fun h => h2 h.symm
      simp only [h1, h2, h3, decide_True, decide_False, ne_eq, not_false_eq_true, and_self,
        Bool.xor_false]
  · have h2 : ¬ 24 = i := by omega
    simp only [h1, h2, decide_False, false_and, Bool.xor_false]

theorem testBit_top_field_first (i : Nat) :
    BLOCK_FLAG_TOP_FIELD_FIRST.testBit i = decide (13 = i) := by
  rw [show BLOCK_FLAG_TOP_FIELD_FIRST = 2 ^ 13 from by decide]
  exact Nat.testBit_two_pow

theorem testBit_bottom_field_first (i : Nat) :
    BLOCK_FLAG_BOTTOM_FIELD_FIRST.testBit i = decide (14 = i) := by
  rw [show BLOCK_FLAG_BOTTOM_FIELD_FIRST = 2 ^ 14 from by decide]
  exact Nat.testBit_two_pow

theorem testBit_preroll (i : Nat) : BLOCK_FLAG_PREROLL.testBit i = decide (11 = i) := by
  rw [show BLOCK_FLAG_PREROLL = 2 ^ 11 from by decide]
  exact Nat.testBit_two_pow

theorem OutputPicture_field_testBit (s : decoder_sys_t) (p : block_t) (i : Nat)
    (h13 : i ≠ 13) (h14 : i ≠ 14) :
    (OutputPicture_field s p).1.i_flags.testBit i = p.i_flags.testBit i := by
  have e13 : decide (13 = i) = false := by simp; omega
  have e14 : decide (14 = i) = false := by simp; omega
  unfold OutputPicture_field
  split_ifs <;>
    simp only [Nat.testBit_or, testBit_top_field_first, testBit_bottom_field_first, e13, e14,
      Bool.or_false]

/-- The flags of the finished picture, bit by bit, away from the field bits. -/
theorem OutputPicture_finish_testBit (s : decoder_sys_t) (p : block_t) (i : Nat)
    (h13 : i ≠ 13) (h14 : i ≠ 14) :
    (OutputPicture_finish s p).2.i_flags.testBit i =
      (((p.i_flags.testBit i || s.slice.i_frame_type.testBit i) && decide (i < 32 ∧ i ≠ 24)) ||
        (!s.b_header && decide (11 = i))) := by
  have hf : ∀ q : block_t, (OutputPicture_field s q).1.i_flags.testBit i = q.i_flags.testBit i :=
    fun q => OutputPicture_field_testBit s q i h13 h14
  simp only [OutputPicture_finish]
  cases hh : s.b_header
  · simp only [if_true, Nat.testBit_or, testBit_clearFlag_aud, testBit_preroll, hf,
      Bool.not_false, Bool.true_and]
    split_ifs <;> rfl
  · simp only [Bool.true_eq_false, if_false, Nat.testBit_or, testBit_clearFlag_aud, hf,
      Bool.not_true, Bool.false_and, Bool.or_false]
    split_ifs <;> rfl

/-! ## Recovery countdown and the pre-roll flag -/

theorem mem_stored_nals {pp : Nat → Option block_t} {n : Nat} {b : block_t} :
    b ∈ stored_nals pp n ↔ ∃ i, i < n ∧ pp i = some b := by
  simp [stored_nals, List.mem_filterMap]

theorem OutputPicture_list_mem {s : decoder_sys_t} {b : block_t}
    (h : b ∈ OutputPicture_list s) :
    b ∈ stored_nals s.pp_sps SPS_MAX ∨ b ∈ stored_nals s.pp_pps PPS_MAX := by
  unfold OutputPicture_list at h
  rw [List.mem_append] at h
  rcases h with h | h
  · left; split_ifs at h
    · exact h
    · simp at h
  · right; split_ifs at h
    · exact h
    · simp at h

/-- Every NAL of the chain handed to the gather is a NAL of the AU under
construction or a stored parameter set. -/
theorem OutputPicture_chain_mem {s : decoder_sys_t} {chain : List block_t}
    (hc : OutputPicture_chain s = some chain) {b : block_t} (hb : b ∈ chain) :
    b ∈ s.p_frame ∨ b ∈ stored_nals s.pp_sps SPS_MAX ∨ b ∈ stored_nals s.pp_pps PPS_MAX := by
  unfold OutputPicture_chain at hc
  cases hf : s.p_frame with
  | nil => simp [hf] at hc
  | cons p_head rest =>
    simp only [hf] at hc
    split_ifs at hc <;> simp only [Option.some.injEq] at hc <;> subst hc
    · simp only [List.mem_cons, List.mem_append] at hb
      rcases hb with hb | hb | hb
      · left; simp [hb]
      · right; exact OutputPicture_list_mem hb
      · left; simp [hb]
    · simp only [List.mem_cons, List.mem_append] at hb
      rcases hb with hb | hb | hb
      · right; exact OutputPicture_list_mem hb
      · left; simp [hb]
      · left; simp [hb]
    · left; exact hb

theorem block_ChainGather_flags {l : List block_t} {g : block_t}
    (h : block_ChainGather l = some g) : ∃ b, l.head? = some b ∧ g.i_flags = b.i_flags := by
  cases l with
  | nil => simp [block_ChainGather] at h
  | cons b rest =>
    simp only [block_ChainGather, Option.some.injEq] at h
    subst h; exact ⟨b, rfl, rfl⟩

theorem OutputPicture_finish_header (s : decoder_sys_t) (p : block_t) :
    (OutputPicture_finish s p).1.b_header = s.b_header ∧
      (OutputPicture_finish s p).1.i_recovery_frames = s.i_recovery_frames := ⟨rfl, rfl⟩

/-- One emission while the countdown is positive: the picture is pre-roll, the
counter goes down by one and the header stays undeclared. -/
theorem OutputPicture_countdown_pos {s : decoder_sys_t} {n : Nat}
    (hb : s.b_header = false) (hrec : s.i_recovery_frames = (n : Int) + 1)
    (hf : s.p_frame ≠ []) (hI : s.slice.i_frame_type ≠ BLOCK_FLAG_TYPE_I) :
    ∃ s' pic, OutputPicture s = some (s', some pic) ∧ s'.b_header = false ∧
      s'.i_recovery_frames = (n : Int) ∧ hasFlag pic.i_flags BLOCK_FLAG_PREROLL = true := by
  have hr : (OutputPicture_recovery s).b_header = false ∧
      (OutputPicture_recovery s).i_recovery_frames = (n : Int) := by
    unfold OutputPicture_recovery
    have h1 : s.b_header = false ∧ s.i_recovery_frames ≠ -1 := ⟨hb, by omega⟩
    have h2 : ¬ s.i_recovery_frames = 0 := by omega
    rw [if_pos h1, if_neg h2]
    exact ⟨hb, by show s.i_recovery_frames - 1 = n; omega⟩
  have hns : ¬ suppressed s := by
    intro h
    have := h.2.1
    rw [hr.2] at this
    omega
  obtain ⟨chain, hc⟩ := OutputPicture_chain_of_frame hf
  obtain ⟨g, hg, he⟩ := OutputPicture_emit hns hc
  have hi : b_sps_pps_i (OutputPicture_recovery s) = false := by
    rw [b_sps_pps_i_recovery]; simp [b_sps_pps_i, hI]
  have hh : OutputPicture_header (OutputPicture_recovery s) = false := by
    unfold OutputPicture_header
    rw [hi]
    simp only [Bool.false_eq_true, false_and, and_false, if_false]
    exact hr.1
  refine ⟨_, _, he, ?_, ?_, ?_⟩
  · rw [(OutputPicture_finish_header _ _).1]; exact hh
  · rw [(OutputPicture_finish_header _ _).2]; exact hr.2
  · rw [hasFlag_preroll, OutputPicture_finish_testBit _ _ _ (by decide) (by decide)]
    simp only [hh, Bool.not_false, decide_True, Bool.and_self, Bool.or_true]

/-- The emission at which the countdown is 0: the header is declared, the
counter returns to -1 and the picture is not pre-roll. -/
theorem OutputPicture_countdown_zero {s : decoder_sys_t}
    (hb : s.b_header = false) (hrec : s.i_recovery_frames = 0)
    (hf : s.p_frame ≠ []) (hclean : preroll_free s) :
    ∃ s' pic, OutputPicture s = some (s', some pic) ∧ s'.b_header = true ∧
      s'.i_recovery_frames = -1 ∧ hasFlag pic.i_flags BLOCK_FLAG_PREROLL = false := by
  have hr : (OutputPicture_recovery s).b_header = true ∧
      (OutputPicture_recovery s).i_recovery_frames = -1 := by
    unfold OutputPicture_recovery
    have h1 : s.b_header = false ∧ s.i_recovery_frames ≠ -1 := ⟨hb, by omega⟩
    rw [if_pos h1, if_pos hrec]
    exact ⟨rfl, by show s.i_recovery_frames - 1 = -1; omega⟩
  have hns : ¬ suppressed s := by
    intro h
    have := h.1
    rw [hr.1] at this
    cases this
  obtain ⟨chain, hc⟩ := OutputPicture_chain_of_frame hf
  obtain ⟨g, hg, he⟩ := OutputPicture_emit hns hc
  have hh : OutputPicture_header (OutputPicture_recovery s) = true := by
    unfold OutputPicture_header
    split_ifs
    · rfl
    · exact hr.1
  obtain ⟨b, hbh, hgf⟩ := block_ChainGather_flags hg
  have hbm : b ∈ chain := List.mem_of_mem_head? hbh
  have hbc : hasFlag b.i_flags BLOCK_FLAG_PREROLL = false := by
    rcases OutputPicture_chain_mem hc hbm with h | h | h
    · exact hclean.2.1 b h
    · exact hclean.2.2.1 b h
    · exact hclean.2.2.2 b h
  refine ⟨_, _, he, ?_, ?_, ?_⟩
  · rw [(OutputPicture_finish_header _ _).1]; exact hh
  · rw [(OutputPicture_finish_header _ _).2]; exact hr.2
  · rw [hasFlag_preroll, OutputPicture_finish_testBit _ _ _ (by decide) (by decide)]
    have h1 : g.i_flags.testBit 11 = false := by rw [hgf, ← hasFlag_preroll]; exact hbc
    have h2 : s.slice.i_frame_type.testBit 11 = false := by
      rw [← hasFlag_preroll]; exact hclean.1
    simp only [h1, recovery_slice, h2, hh, Bool.or_self, Bool.false_and, Bool.not_true,
      Bool.false_and]

theorem emit_run_cons_some {prev au s1 s2 : decoder_sys_t} {pic : block_t}
    {rest : List decoder_sys_t} {pics : List block_t}
    (h : OutputPicture (carry_header prev au) = some (s1, some pic))
    (hr : emit_run s1 rest = some (s2, pics)) :
    emit_run prev (au :: rest) = some (s2, pic :: pics) := by
  simp only [emit_run, h, hr, Option.toList, List.singleton_append]

/-- The countdown over successive emissions, by induction on the AUs that
precede the one at which the counter is 0. -/
theorem emit_run_countdown (first : List decoder_sys_t) (last : decoder_sys_t) :
    ∀ s0 : decoder_sys_t, s0.b_header = false → s0.i_recovery_frames = (first.length : Int) →
      (∀ au ∈ first, au.p_frame ≠ [] ∧ au.slice.i_frame_type ≠ BLOCK_FLAG_TYPE_I) →
      last.p_frame ≠ [] → preroll_free last →
      (∃ s pics, emit_run s0 (first ++ [last]) = some (s, pics) ∧
        pics.map (fun p => hasFlag p.i_flags BLOCK_FLAG_PREROLL) =
          List.replicate first.length true ++ [false] ∧
        s.b_header = true ∧ s.i_recovery_frames = -1) ∧
      (∀ k, k ≤ first.length → ∃ sk pk, emit_run s0 (first.take k) = some (sk, pk) ∧
        sk.b_header = false ∧ sk.i_recovery_frames = (first.length : Int) - k) := by
  induction first with
  | nil =>
    intro s0 hb hrec _ hlast hclean
    constructor
    · obtain ⟨s', pic, he, h1, h2, h3⟩ := OutputPicture_countdown_zero
        (s := carry_header s0 last) hb (by simpa using hrec) hlast hclean
      refine ⟨s', [pic], ?_, ?_, h1, h2⟩
      · exact emit_run_cons_some he rfl
      · simp [h3]
    · intro k hk
      have : k = 0 := by simpa using hk
      subst this
      exact ⟨s0, [], rfl, hb, by simpa using hrec⟩
  | cons au rest ih =>
    intro s0 hb hrec hfirst hlast hclean
    have hau := hfirst au (List.mem_cons_self _ _)
    obtain ⟨s1, pic, he, h1, h2, h3⟩ := OutputPicture_countdown_pos
      (s := carry_header s0 au) (n := rest.length) hb
      (by simpa using hrec) hau.1 hau.2
    obtain ⟨⟨s, pics, hr, hp, hh, hc⟩, hk⟩ := ih s1 h1 h2
      (fun a ha => hfirst a (List.mem_cons_of_mem _ ha)) hlast hclean
    constructor
    · refine ⟨s, pic :: pics, ?_, ?_, hh, hc⟩
      · exact emit_run_cons_some he hr
      · simp only [List.map_cons, h3, hp, List.length_cons, List.replicate_succ, List.cons_append]
    · intro k hk'
      cases k with
      | zero => exact ⟨s0, [], rfl, hb, by simpa using hrec⟩
      | succ k =>
        obtain ⟨sk, pk, hrk, hbk, hck⟩ := hk k (by simpa using hk')
        refine ⟨sk, pic :: pk, ?_, hbk, ?_⟩
        · exact emit_run_cons_some he hrk
        · rw [hck]; simp only [List.length_cons]; push_cast; ring

theorem recovery_eq (s : decoder_sys_t) :
    ∃ h r, OutputPicture_recovery s = { s with b_header := h, i_recovery_frames := r } := by
  unfold OutputPicture_recovery
  split_ifs
  · exact ⟨_, _, rfl⟩
  · exact ⟨_, _, rfl⟩
  · exact ⟨_, _, rfl⟩

theorem OutputPicture_field_length (s : decoder_sys_t) (p : block_t) :
    (OutputPicture_field s p).1.i_length = p.i_length := by
  unfold OutputPicture_field; split_ifs <;> rfl

theorem OutputPicture_finish_length (s : decoder_sys_t) (p : block_t) :
    (OutputPicture_finish s p).2.i_length =
      if s.i_time_scale ≠ 0 then OutputPicture_duration s else p.i_length := by
  simp only [OutputPicture_finish, OutputPicture_field_length]
  split_ifs
  · dsimp only
  · exact rfl

theorem i_num_clock_ts_le (s : decoder_sys_t) : i_num_clock_ts s ≤ 3 := by
  unfold i_num_clock_ts
  split_ifs with h1 h2
  · have : s.i_pic_struct < 9 := h2
    interval_cases s.i_pic_struct <;> decide
  · decide
  · decide

theorem wrap_i64_of_range {x : Int} (h0 : 0 ≤ x) (h1 : x < 2 ^ 63) : wrap_i64 x = x := by
  unfold wrap_i64
  rw [Int.emod_eq_of_lt (by omega) (by omega)]
  omega

/-- The duration is the exact quotient: no intermediate product leaves the
signed 64-bit range. -/
theorem OutputPicture_duration_eq (s : decoder_sys_t) (hu : s.i_num_units_in_tick < 2 ^ 32) :
    OutputPicture_duration s =
      ((1000000 * i_num_clock_ts s * s.i_num_units_in_tick / s.i_time_scale : Nat) : Int) ∧
    1000000 * i_num_clock_ts s * s.i_num_units_in_tick < 2 ^ 63 := by
  have hn := i_num_clock_ts_le s
  have h1 : 1000000 * i_num_clock_ts s ≤ 3000000 := by omega
  have h2 : 1000000 * i_num_clock_ts s * s.i_num_units_in_tick < 2 ^ 63 := by
    calc 1000000 * i_num_clock_ts s * s.i_num_units_in_tick
        ≤ 3000000 * s.i_num_units_in_tick := Nat.mul_le_mul_right _ h1
      _ ≤ 3000000 * 2 ^ 32 := Nat.mul_le_mul_left _ (le_of_lt hu)
      _ < 2 ^ 63 := by norm_num
  refine ⟨?_, h2⟩
  unfold OutputPicture_duration CLOCK_FREQ
  have e1 : wrap_i64 (1000000 * (i_num_clock_ts s : Int)) = ((1000000 * i_num_clock_ts s : Nat) : Int) := by
    have h3 : ((1000000 * i_num_clock_ts s : Nat) : Int) < 2 ^ 63 := by
      have : ((1000000 * i_num_clock_ts s : Nat) : Int) ≤ 3000000 := by exact_mod_cast h1
      exact lt_of_le_of_lt this (by norm_num)
    have h4 : (1000000 * (i_num_clock_ts s : Int)) = ((1000000 * i_num_clock_ts s : Nat) : Int) := by
      push_cast; exact rfl
    rw [h4]
    exact wrap_i64_of_range (Int.ofNat_nonneg _) h3
  rw [e1]
  have e2 : wrap_i64 (((1000000 * i_num_clock_ts s : Nat) : Int) * (s.i_num_units_in_tick : Int)) =
      ((1000000 * i_num_clock_ts s * s.i_num_units_in_tick : Nat) : Int) := by
    have h5 : ((1000000 * i_num_clock_ts s * s.i_num_units_in_tick : Nat) : Int) < 2 ^ 63 := by
      have := Int.ofNat_lt.2 h2
      refine lt_of_lt_of_eq this ?_
      norm_num
    have h6 : ((1000000 * i_num_clock_ts s : Nat) : Int) * (s.i_num_units_in_tick : Int) =
        ((1000000 * i_num_clock_ts s * s.i_num_units_in_tick : Nat) : Int) := by
      rw [Int.natCast_mul (1000000 * i_num_clock_ts s) s.i_num_units_in_tick]
    rw [h6]
    exact wrap_i64_of_range (Int.ofNat_nonneg _) h5
  rw [e2, Int.tdiv_eq_ediv (Int.ofNat_nonneg _) (Int.ofNat_nonneg _)]
  exact (Int.natCast_div _ _).symm

/-- Inversion of an emission: the picture is the finished gather of the chain. -/
theorem OutputPicture_some_inv {s s' : decoder_sys_t} {pic : block_t}
    (h : OutputPicture s = some (s', some pic)) :
    ¬ suppressed s ∧ ∃ chain g, OutputPicture_chain s = some chain ∧
      block_ChainGather chain = some g ∧
      s' = (OutputPicture_finish { OutputPicture_recovery s with
            b_header := OutputPicture_header (OutputPicture_recovery s) } g).1 ∧
      pic = (OutputPicture_finish { OutputPicture_recovery s with
            b_header := OutputPicture_header (OutputPicture_recovery s) } g).2 := by
  obtain ⟨hs, chain, hc, _⟩ := OutputPicture_some_buffer h
  obtain ⟨g, hg, he⟩ := OutputPicture_emit hs hc
  rw [he] at h
  simp only [Option.some.injEq, Prod.mk.injEq] at h
  exact ⟨hs, chain, g, hc, hg, h.1.symm, h.2.symm⟩

theorem i_num_clock_ts_spec (s : decoder_sys_t) :
    i_num_clock_ts s =
      spec_num_clock_ts s.b_frame_mbs_only s.b_pic_struct_present_flag s.i_pic_struct := by
  unfold i_num_clock_ts spec_num_clock_ts rgi_numclock
  by_cases h1 : s.b_frame_mbs_only = 0 ∧ s.b_pic_struct_present_flag = true
  · by_cases h2 : s.i_pic_struct < 9
    · rw [if_pos h1, if_pos h2, if_pos ⟨h1.1, h1.2, h2⟩]
    · rw [if_pos h1, if_neg h2, if_neg (fun h => h2 h.2.2)]
  · rw [if_neg h1, if_neg (fun h => h1 ⟨h.1, h.2.1⟩)]

theorem OutputPicture_duration_congr {a b : decoder_sys_t}
    (h1 : a.i_time_scale = b.i_time_scale) (h2 : a.i_num_units_in_tick = b.i_num_units_in_tick)
    (h3 : a.b_frame_mbs_only = b.b_frame_mbs_only)
    (h4 : a.b_pic_struct_present_flag = b.b_pic_struct_present_flag)
    (h5 : a.i_pic_struct = b.i_pic_struct) :
    OutputPicture_duration a = OutputPicture_duration b := by
  unfold OutputPicture_duration i_num_clock_ts
  rw [h1, h2, h3, h4, h5]

/-- Claim C9: for every 32-bit unsigned num_units_in_tick and every non-zero
time_scale, the duration stamped on an emitted AU is
floor(1000000 * num_clock_ts * num_units_in_tick / time_scale), computed
exactly (the product stays below 2^63), where num_clock_ts is
[1,1,1,2,2,3,3,2,3][pic_struct] if the stream is not frame-mbs-only,
pic_struct_present is set and pic_struct < 9, and 1 otherwise; when time_scale
is 0 no duration is set: the picture keeps the length of the gathered chain. -/
theorem OutputPicture_duration_exact (p_sys s' : decoder_sys_t) (pic : block_t)
    (hemit : OutputPicture p_sys = some (s', some pic))
    (hu : p_sys.i_num_units_in_tick < 2 ^ 32) :
    (p_sys.i_time_scale ≠ 0 →
      pic.i_length =
        ((1000000 * spec_num_clock_ts p_sys.b_frame_mbs_only p_sys.b_pic_struct_present_flag
            p_sys.i_pic_struct * p_sys.i_num_units_in_tick / p_sys.i_time_scale : Nat) : Int)) ∧
    1000000 * spec_num_clock_ts p_sys.b_frame_mbs_only p_sys.b_pic_struct_present_flag
        p_sys.i_pic_struct * p_sys.i_num_units_in_tick < 2 ^ 63 ∧
    (p_sys.i_time_scale = 0 →
      ∃ chain g, OutputPicture_chain p_sys = some chain ∧ block_ChainGather chain = some g ∧
        pic.i_length = g.i_length) := by
  obtain ⟨_, chain, g, hc, hg, _, hp⟩ := OutputPicture_some_inv hemit
  obtain ⟨hd, hlt⟩ := OutputPicture_duration_eq p_sys hu
  rw [i_num_clock_ts_spec] at hd hlt
  obtain ⟨h, r, hr⟩ := recovery_eq p_sys
  have hlen := OutputPicture_finish_length { OutputPicture_recovery p_sys with
      b_header := OutputPicture_header (OutputPicture_recovery p_sys) } g
  rw [← hp] at hlen
  have hts : ({ OutputPicture_recovery p_sys with
      b_header := OutputPicture_header (OutputPicture_recovery p_sys) } : decoder_sys_t).i_time_scale
      = p_sys.i_time_scale := by rw [hr]
  have hdur : OutputPicture_duration ({ OutputPicture_recovery p_sys with
      b_header := OutputPicture_header (OutputPicture_recovery p_sys) } : decoder_sys_t)
      = OutputPicture_duration p_sys := by
    apply OutputPicture_duration_congr <;> rw [hr]
  rw [hts, hdur] at hlen
  refine ⟨fun h0 => ?_, hlt, fun h0 => ⟨chain, g, hc, hg, ?_⟩⟩
  · rw [hlen, if_pos h0, hd]
  · rw [hlen, if_neg (fun h => h h0)]

/-- Witness for C9: with 1 tick of a 50 Hz clock the AU of a P-slice gets the
duration 20000. -/
theorem OutputPicture_duration_exact_witness :
    ∃ s' pic, OutputPicture (sample_after [nal_sps0, nal_pps0, nal_idr, nal_sps0, nal_p1]) =
        some (s', some pic) ∧ pic.i_length = 20000 := by
  obtain ⟨s', pic, he⟩ := OutputPicture_emits
    (s := sample_after [nal_sps0, nal_pps0, nal_idr, nal_sps0, nal_p1])
    (by unfold suppressed; decide) (by decide)
  exact ⟨s', pic, he, ((OutputPicture_duration_exact _ s' pic he (by decide)).1 (by decide)).trans
    (by decide)⟩

/-- Claim C10 (the code departs from it): on an interlaced stream with
pic_struct present, the second field of a pair (pic_struct 2, even_frame set on
entry) whose captured PTS is missing while the previous PTS is 1000 is emitted
with the missing PTS 0 and not with prev_pts + duration = 21000: the
interpolated value written at h264.c:759 is overwritten at h264.c:787. -/
theorem field_pair_pts_overwritten :
    (sample_after [nal_sps_interlaced, nal_pps0, nal_sei_pic_timing 1 1000 1000, nal_idr_top,
        nal_sei_pic_timing 2 0 1000, nal_p_bottom]).b_even_frame = true ∧
    (sample_after [nal_sps_interlaced, nal_pps0, nal_sei_pic_timing 1 1000 1000, nal_idr_top,
        nal_sei_pic_timing 2 0 1000, nal_p_bottom]).i_pic_struct = 2 ∧
    (sample_after [nal_sps_interlaced, nal_pps0, nal_sei_pic_timing 1 1000 1000, nal_idr_top,
        nal_sei_pic_timing 2 0 1000, nal_p_bottom]).b_frame_mbs_only = 0 ∧
    (sample_after [nal_sps_interlaced, nal_pps0, nal_sei_pic_timing 1 1000 1000, nal_idr_top,
        nal_sei_pic_timing 2 0 1000, nal_p_bottom]).b_pic_struct_present_flag = true ∧
    (sample_after [nal_sps_interlaced, nal_pps0, nal_sei_pic_timing 1 1000 1000, nal_idr_top,
        nal_sei_pic_timing 2 0 1000, nal_p_bottom]).i_frame_pts ≤ VLC_TS_INVALID ∧
    (sample_after [nal_sps_interlaced, nal_pps0, nal_sei_pic_timing 1 1000 1000, nal_idr_top,
        nal_sei_pic_timing 2 0 1000, nal_p_bottom]).i_prev_pts = 1000 ∧
    (feed sampleParsers (Open_state zero_sys)
        [nal_sps_interlaced, nal_pps0, nal_sei_pic_timing 1 1000 1000, nal_idr_top,
          nal_sei_pic_timing 2 0 1000, nal_p_bottom, nal_aud]).map
        (fun r => r.2.map (fun pic => (pic.i_pts, pic.i_length))) =
      some [(1000, 20000), (0, 20000)] := by
  refine ⟨by decide, by decide, by decide, by decide, by decide, by decide, by decide⟩

/-! ## The assembler invariant -/

theorem assembler_inv_congr {P : List Nat → Prop} {s s' : decoder_sys_t}
    (h1 : s'.slice.i_frame_type = s.slice.i_frame_type) (h2 : s'.b_sps = s.b_sps)
    (h3 : s'.b_pps = s.b_pps) (h4 : s'.pp_sps = s.pp_sps) (h5 : s'.pp_pps = s.pp_pps)
    (h6 : s'.p_frame = s.p_frame) (h7 : s'.b_slice = s.b_slice)
    (h : assembler_inv P s) : assembler_inv P s' := by
  constructor
  · rw [h1]; exact h.ft_range
  · rw [h1, h2, h3]; exact h.ft_I
  · rw [h2, h4]; exact h.sps_some
  · rw [h3, h5]; exact h.pps_some
  · rw [h4]; exact h.sps_ok
  · rw [h5]; exact h.pps_ok
  · rw [h6]; exact h.frame_ok
  · rw [h6, h7]; exact h.slice_frame
  · rw [h6]; exact h.aud_head

theorem stored_nals_none (n : Nat) : stored_nals (fun _ => none) n = [] := by
  simp [stored_nals]

theorem assembler_inv_Open (P : List Nat → Prop) (g : decoder_sys_t) :
    assembler_inv P (Open_state g) := by
  constructor
  · exact Or.inl rfl
  · intro h; exact absurd h (show (0 : Nat) ≠ BLOCK_FLAG_TYPE_I by decide)
  · intro h; cases h
  · intro h; cases h
  · intro b hb
    have : stored_nals (Open_state g).pp_sps SPS_MAX = [] := stored_nals_none _
    rw [this] at hb; cases hb
  · intro b hb
    have : stored_nals (Open_state g).pp_pps PPS_MAX = [] := stored_nals_none _
    rw [this] at hb; cases hb
  · intro b hb; cases hb
  · intro h; cases h
  · intro h t ht; cases ht

theorem assembler_inv_wait {P : List Nat → Prop} {s : decoder_sys_t}
    (h : assembler_inv P s) : assembler_inv P (ParseNALBlock_wait s) := by
  unfold ParseNALBlock_wait
  split_ifs
  · constructor
    · exact Or.inl rfl
    · intro h0; exact absurd h0 (show (0 : Nat) ≠ BLOCK_FLAG_TYPE_I by decide)
    · exact h.sps_some
    · exact h.pps_some
    · exact h.sps_ok
    · exact h.pps_ok
    · intro b hb; cases hb
    · intro h0; cases h0
    · intro a t ht; cases ht
  · exact h

theorem ParseNALBlock_wait_store (s : decoder_sys_t) :
    (ParseNALBlock_wait s).b_sps = s.b_sps ∧ (ParseNALBlock_wait s).b_pps = s.b_pps ∧
    (ParseNALBlock_wait s).b_header = s.b_header ∧
    (ParseNALBlock_wait s).i_recovery_frames = s.i_recovery_frames ∧
    ((s.b_sps = false ∨ s.b_pps = false) → (ParseNALBlock_wait s).b_slice = false) := by
  unfold ParseNALBlock_wait
  split_ifs with h
  · exact ⟨rfl, rfl, rfl, rfl, fun _ => rfl⟩
  · refine ⟨rfl, rfl, rfl, rfl, fun h' => ?_⟩
    cases hb : s.b_slice
    · rfl
    · exact absurd ⟨hb, h'⟩ h

theorem sei_upd_trans {s s1 : decoder_sys_t} {a : Nat} {b : cc_data_t} {c : Int}
    (h : s1 = { s with i_pic_struct := a, cc_next := b, i_recovery_frames := c })
    (x : Nat) (y : cc_data_t) (z : Int) :
    ({ s1 with i_pic_struct := x, cc_next := y, i_recovery_frames := z } : decoder_sys_t) =
      { s with i_pic_struct := x, cc_next := y, i_recovery_frames := z } := by
  subst h; rfl

theorem ParseSei_pic_timing_frame (payload : List Nat) (s : decoder_sys_t) :
    ∃ a b c, ParseSei_pic_timing payload s =
      { s with i_pic_struct := a, cc_next := b, i_recovery_frames := c } := by
  have key : ∀ v : Nat, ∃ a b c,
      (if s.b_pic_struct_present_flag = true then { s with i_pic_struct := v } else s) =
        { s with i_pic_struct := a, cc_next := b, i_recovery_frames := c } := by
    intro v
    split_ifs
    · exact ⟨v, s.cc_next, s.i_recovery_frames, rfl⟩
    · exact ⟨s.i_pic_struct, s.cc_next, s.i_recovery_frames, rfl⟩
  exact key _

theorem ParseSei_user_data_frame (E : Parsers) (pb : List Nat) (u z : Nat) (s : decoder_sys_t) :
    ∃ a b c, ParseSei_user_data E pb u z s =
      { s with i_pic_struct := a, cc_next := b, i_recovery_frames := c } := by
  have key : ∀ v : cc_data_t, ∃ a b c,
      (if ParseSei_is_dvb1 pb u z = true then { s with cc_next := v } else s) =
        { s with i_pic_struct := a, cc_next := b, i_recovery_frames := c } := by
    intro v
    split_ifs
    · exact ⟨s.i_pic_struct, v, s.i_recovery_frames, rfl⟩
    · exact ⟨s.i_pic_struct, s.cc_next, s.i_recovery_frames, rfl⟩
  exact key _

theorem ParseSei_recovery_point_frame (payload : List Nat) (s : decoder_sys_t) :
    ∃ a b c, ParseSei_recovery_point payload s =
      { s with i_pic_struct := a, cc_next := b, i_recovery_frames := c } := by
  have key : ∀ v : Int, ∃ a b c,
      (if s.b_header = false then
        if s.i_recovery_frames = -1 ∨ v < s.i_recovery_frames then
          { s with i_recovery_frames := v }
        else s
      else s) =
        { s with i_pic_struct := a, cc_next := b, i_recovery_frames := c } := by
    intro v
    split_ifs
    · exact ⟨s.i_pic_struct, s.cc_next, v, rfl⟩
    · exact ⟨s.i_pic_struct, s.cc_next, s.i_recovery_frames, rfl⟩
    · exact ⟨s.i_pic_struct, s.cc_next, s.i_recovery_frames, rfl⟩
  exact key _

theorem sei_upd_self (s : decoder_sys_t) :
    s = { s with i_pic_struct := s.i_pic_struct, cc_next := s.cc_next,
                 i_recovery_frames := s.i_recovery_frames } := rfl

/-- ParseSei writes nothing but `i_pic_struct`, `cc_next` and
`i_recovery_frames`. -/
theorem ParseSei_payload_frame (E : Parsers) (pb : List Nat) (ty u z : Nat) (s : decoder_sys_t) :
    ∃ a b c, ParseSei_payload E pb ty u z s =
      { s with i_pic_struct := a, cc_next := b, i_recovery_frames := c } := by
  have h1 : ∃ a b c, (if ty = SEI_PIC_TIMING then ParseSei_pic_timing ((pb.drop u).take z) s
      else s) = { s with i_pic_struct := a, cc_next := b, i_recovery_frames := c } := by
    split_ifs
    · exact ParseSei_pic_timing_frame _ s
    · exact ⟨_, _, _, sei_upd_self s⟩
  obtain ⟨a1, b1, c1, e1⟩ := h1
  have h2 : ∀ s1 : decoder_sys_t, ∃ a b c, (if ty = SEI_USER_DATA_REGISTERED then
      ParseSei_user_data E pb u z s1 else s1) =
        { s1 with i_pic_struct := a, cc_next := b, i_recovery_frames := c } := by
    intro s1
    split_ifs
    · exact ParseSei_user_data_frame E pb u z s1
    · exact ⟨_, _, _, sei_upd_self s1⟩
  have h3 : ∀ s2 : decoder_sys_t, ∃ a b c, (if ty = SEI_RECOVERY_POINT then
      ParseSei_recovery_point ((pb.drop u).take z) s2 else s2) =
        { s2 with i_pic_struct := a, cc_next := b, i_recovery_frames := c } := by
    intro s2
    split_ifs
    · exact ParseSei_recovery_point_frame _ s2
    · exact ⟨_, _, _, sei_upd_self s2⟩
  obtain ⟨a2, b2, c2, e2⟩ := h2 (if ty = SEI_PIC_TIMING then
    ParseSei_pic_timing ((pb.drop u).take z) s else s)
  obtain ⟨a3, b3, c3, e3⟩ := h3 (if ty = SEI_USER_DATA_REGISTERED then
    ParseSei_user_data E pb u z (if ty = SEI_PIC_TIMING then
      ParseSei_pic_timing ((pb.drop u).take z) s else s)
    else (if ty = SEI_PIC_TIMING then ParseSei_pic_timing ((pb.drop u).take z) s else s))
  refine ⟨a3, b3, c3, ?_⟩
  show (if ty = SEI_RECOVERY_POINT then ParseSei_recovery_point ((pb.drop u).take z) _ else _) = _
  rw [e3]
  exact sei_upd_trans (e2.trans (sei_upd_trans e1 _ _ _)) _ _ _

theorem ParseSei_loop_frame (E : Parsers) (pb : List Nat) :
    ∀ (fuel u : Nat) (s : decoder_sys_t), ∃ a b c, ParseSei_loop E pb fuel u s =
      { s with i_pic_struct := a, cc_next := b, i_recovery_frames := c } := by
  intro fuel
  induction fuel with
  | zero => intro u s; exact ⟨_, _, _, sei_upd_self s⟩
  | succ n ih =>
    intro u s
    by_cases h1 : u + 1 < pb.length
    · by_cases h2 : (ParseSei_read_ff pb pb.length (ParseSei_read_ff pb pb.length u 0).2 0).2 +
          (ParseSei_read_ff pb pb.length (ParseSei_read_ff pb pb.length u 0).2 0).1 + 1 > pb.length
      · have e : ParseSei_loop E pb (n + 1) u s = s := by
          rw [ParseSei_loop, if_pos h1]; exact if_pos h2
        rw [e]; exact ⟨_, _, _, sei_upd_self s⟩
      · have e : ParseSei_loop E pb (n + 1) u s = ParseSei_loop E pb n
            ((ParseSei_read_ff pb pb.length (ParseSei_read_ff pb pb.length u 0).2 0).2 +
              (ParseSei_read_ff pb pb.length (ParseSei_read_ff pb pb.length u 0).2 0).1)
            (ParseSei_payload E pb (ParseSei_read_ff pb pb.length u 0).1
              (ParseSei_read_ff pb pb.length (ParseSei_read_ff pb pb.length u 0).2 0).2
              (ParseSei_read_ff pb pb.length (ParseSei_read_ff pb pb.length u 0).2 0).1 s) := by
          rw [ParseSei_loop, if_pos h1]; exact if_neg h2
        rw [e]
        obtain ⟨a1, b1, c1, e1⟩ := ParseSei_payload_frame E pb (ParseSei_read_ff pb pb.length u 0).1
              (ParseSei_read_ff pb pb.length (ParseSei_read_ff pb pb.length u 0).2 0).2
              (ParseSei_read_ff pb pb.length (ParseSei_read_ff pb pb.length u 0).2 0).1 s
        obtain ⟨a2, b2, c2, e2⟩ := ih
            ((ParseSei_read_ff pb pb.length (ParseSei_read_ff pb pb.length u 0).2 0).2 +
              (ParseSei_read_ff pb pb.length (ParseSei_read_ff pb pb.length u 0).2 0).1)
            (ParseSei_payload E pb (ParseSei_read_ff pb pb.length u 0).1
              (ParseSei_read_ff pb pb.length (ParseSei_read_ff pb pb.length u 0).2 0).2
              (ParseSei_read_ff pb pb.length (ParseSei_read_ff pb pb.length u 0).2 0).1 s)
        exact ⟨a2, b2, c2, e2.trans (sei_upd_trans e1 _ _ _)⟩
    · have e : ParseSei_loop E pb (n + 1) u s = s := by
        rw [ParseSei_loop, if_neg h1]
      rw [e]; exact ⟨_, _, _, sei_upd_self s⟩

theorem ParseSei_frame (E : Parsers) (s : decoder_sys_t) (f : block_t) :
    ∃ a b c, ParseSei E s f =
      { s with i_pic_struct := a, cc_next := b, i_recovery_frames := c } :=
  ParseSei_loop_frame E _ _ _ s

theorem stored_nals_update_mem {pp : Nat → Option block_t} {n id : Nat} {f b : block_t}
    (h : b ∈ stored_nals (fun i => if i = id then some f else pp i) n) :
    b = f ∨ b ∈ stored_nals pp n := by
  rw [mem_stored_nals] at h
  obtain ⟨i, hi, he⟩ := h
  by_cases hid : i = id
  · rw [if_pos hid] at he
    left; exact (Option.some.inj he).symm
  · rw [if_neg hid] at he
    right; exact mem_stored_nals.2 ⟨i, hi, he⟩

theorem stored_nals_update_ne_nil {pp : Nat → Option block_t} {n id : Nat} {f : block_t}
    (h : id < n) : stored_nals (fun i => if i = id then some f else pp i) n ≠ [] := by
  have : f ∈ stored_nals (fun i => if i = id then some f else pp i) n :=
    mem_stored_nals.2 ⟨id, h, by simp⟩
  exact List.ne_nil_of_mem this

/-- PutSPS: the fields outside the SPS store and the SPS-derived values. -/
theorem PutSPS_fields (E : Parsers) (s : decoder_sys_t) (f : block_t) :
    (PutSPS E s f).slice = s.slice ∧ (PutSPS E s f).b_pps = s.b_pps ∧
    (PutSPS E s f).pp_pps = s.pp_pps ∧ (PutSPS E s f).p_frame = s.p_frame ∧
    (PutSPS E s f).b_slice = s.b_slice ∧ (PutSPS E s f).b_header = s.b_header ∧
    (PutSPS E s f).i_recovery_frames = s.i_recovery_frames := by
  unfold PutSPS
  cases E.h264_parse_sps f.p_buffer with
  | none => exact ⟨rfl, rfl, rfl, rfl, rfl, rfl, rfl⟩
  | some sps =>
    dsimp only
    split_ifs <;> exact ⟨rfl, rfl, rfl, rfl, rfl, rfl, rfl⟩

/-- PutSPS: the SPS store is untouched, or slot `id < SPS_MAX` now holds the NAL. -/
theorem PutSPS_store (E : Parsers) (s : decoder_sys_t) (f : block_t) :
    ((PutSPS E s f).b_sps = s.b_sps ∧ (PutSPS E s f).pp_sps = s.pp_sps) ∨
    ((PutSPS E s f).b_sps = true ∧ ∃ id, id < SPS_MAX ∧
      (PutSPS E s f).pp_sps = fun i => if i = id then some f else s.pp_sps i) := by
  unfold PutSPS
  cases h : E.h264_parse_sps f.p_buffer with
  | none => exact Or.inl ⟨rfl, rfl⟩
  | some sps =>
    right
    dsimp only
    split_ifs <;> exact ⟨rfl, sps.i_id, E.sps_id_lt _ _ h, rfl⟩

theorem PutPPS_fields (E : Parsers) (s : decoder_sys_t) (f : block_t) :
    (PutPPS E s f).slice = s.slice ∧ (PutPPS E s f).b_sps = s.b_sps ∧
    (PutPPS E s f).pp_sps = s.pp_sps ∧ (PutPPS E s f).p_frame = s.p_frame ∧
    (PutPPS E s f).b_slice = s.b_slice ∧ (PutPPS E s f).b_header = s.b_header ∧
    (PutPPS E s f).i_recovery_frames = s.i_recovery_frames := by
  unfold PutPPS
  cases E.h264_parse_pps f.p_buffer with
  | none => exact ⟨rfl, rfl, rfl, rfl, rfl, rfl, rfl⟩
  | some pps => exact ⟨rfl, rfl, rfl, rfl, rfl, rfl, rfl⟩

theorem PutPPS_store (E : Parsers) (s : decoder_sys_t) (f : block_t) :
    ((PutPPS E s f).b_pps = s.b_pps ∧ (PutPPS E s f).pp_pps = s.pp_pps) ∨
    ((PutPPS E s f).b_pps = true ∧ ∃ id, id < PPS_MAX ∧
      (PutPPS E s f).pp_pps = fun i => if i = id then some f else s.pp_pps i) := by
  unfold PutPPS
  cases h : E.h264_parse_pps f.p_buffer with
  | none => exact Or.inl ⟨rfl, rfl⟩
  | some pps => exact Or.inr ⟨rfl, pps.i_id, E.pps_id_lt _ _ h, rfl⟩

theorem assembler_inv_PutSPS {P : List Nat → Prop} (E : Parsers) {s : decoder_sys_t}
    {f : block_t} (h : assembler_inv P s) (hf : f.i_flags = 0) (hP : P f.p_buffer)
    (ht : nal_type f = NAL_SPS) : assembler_inv P (PutSPS E s f) := by
  obtain ⟨e1, e2, e3, e4, e5, _, _⟩ := PutSPS_fields E s f
  rcases PutSPS_store E s f with ⟨e6, e7⟩ | ⟨e6, id, hid, e7⟩
  · exact assembler_inv_congr (by rw [e1]) e6 e2 e7 e3 e4 e5 h
  · constructor
    · rw [e1]; exact h.ft_range
    · rw [e1, e2, e6]; exact fun h0 => ⟨rfl, (h.ft_I h0).2⟩
    · intro _; rw [e7]; exact stored_nals_update_ne_nil hid
    · rw [e2, e3]; exact h.pps_some
    · intro b hb
      rw [e7] at hb
      rcases stored_nals_update_mem hb with hb | hb
      · subst hb; exact ⟨ht, hf, hP⟩
      · exact h.sps_ok b hb
    · rw [e3]; exact h.pps_ok
    · rw [e4]; exact h.frame_ok
    · rw [e4, e5]; exact h.slice_frame
    · rw [e4]; exact h.aud_head

theorem assembler_inv_PutPPS {P : List Nat → Prop} (E : Parsers) {s : decoder_sys_t}
    {f : block_t} (h : assembler_inv P s) (hf : f.i_flags = 0) (hP : P f.p_buffer)
    (ht : nal_type f = NAL_PPS) : assembler_inv P (PutPPS E s f) := by
  obtain ⟨e1, e2, e3, e4, e5, _, _⟩ := PutPPS_fields E s f
  rcases PutPPS_store E s f with ⟨e6, e7⟩ | ⟨e6, id, hid, e7⟩
  · exact assembler_inv_congr (by rw [e1]) e2 e6 e3 e7 e4 e5 h
  · constructor
    · rw [e1]; exact h.ft_range
    · rw [e1, e2, e6]; exact fun h0 => ⟨(h.ft_I h0).1, rfl⟩
    · rw [e2, e3]; exact h.sps_some
    · intro _; rw [e7]; exact stored_nals_update_ne_nil hid
    · rw [e3]; exact h.sps_ok
    · intro b hb
      rw [e7] at hb
      rcases stored_nals_update_mem hb with hb | hb
      · subst hb; exact ⟨ht, hf, hP⟩
      · exact h.pps_ok b hb
    · rw [e4]; exact h.frame_ok
    · rw [e4, e5]; exact h.slice_frame
    · rw [e4]; exact h.aud_head

theorem assembler_inv_ParseSei {P : List Nat → Prop} (E : Parsers) {s : decoder_sys_t}
    (f : block_t) (h : assembler_inv P s) : assembler_inv P (ParseSei E s f) := by
  obtain ⟨a, b, c, e⟩ := ParseSei_frame E s f
  rw [e]
  exact assembler_inv_congr (s := s) rfl rfl rfl rfl rfl rfl rfl h

theorem OutputPicture_chain_split {s : decoder_sys_t} {chain : List block_t}
    (hc : OutputPicture_chain s = some chain) :
    ∃ h t, s.p_frame = h :: t ∧
      chain = (if hasFlag h.i_flags BLOCK_FLAG_PRIVATE_AUD = true then [h] else []) ++
        OutputPicture_list s ++
        (if hasFlag h.i_flags BLOCK_FLAG_PRIVATE_AUD = true then t else h :: t) := by
  unfold OutputPicture_chain at hc
  cases hf : s.p_frame with
  | nil => simp [hf] at hc
  | cons h t =>
    refine ⟨h, t, rfl, ?_⟩
    simp only [hf] at hc
    by_cases hi : (b_sps_pps_i s || s.b_frame_sps || s.b_frame_pps) = true
    · rw [if_pos hi] at hc
      by_cases hfl : hasFlag h.i_flags BLOCK_FLAG_PRIVATE_AUD = true
      · rw [if_pos hfl] at hc
        rw [if_pos hfl, if_pos hfl]
        exact (Option.some.inj hc).symm
      · rw [if_neg hfl] at hc
        rw [if_neg hfl, if_neg hfl]
        exact (Option.some.inj hc).symm
    · rw [if_neg hi] at hc
      have hl : OutputPicture_list s = [] := by
        simp only [Bool.or_eq_true, not_or, Bool.not_eq_true] at hi
        unfold OutputPicture_list
        simp [hi.1.1, hi.1.2, hi.2]
      rw [hl]
      have := (Option.some.inj hc).symm
      split_ifs <;> simpa using this

theorem OutputPicture_total {s : decoder_sys_t} (hf : s.p_frame ≠ []) :
    ∃ s' pic, OutputPicture s = some (s', pic) := by
  by_cases hs : suppressed s
  · exact ⟨_, _, OutputPicture_suppressed hs⟩
  · obtain ⟨chain, hc⟩ := OutputPicture_chain_of_frame hf
    obtain ⟨g, _, he⟩ := OutputPicture_emit hs hc
    exact ⟨_, _, he⟩

/-- The state after OutputPicture: the parameter-set store is untouched; a
suppressed call leaves the AU under construction as it is, an emission empties
it. -/
theorem OutputPicture_state {s s' : decoder_sys_t} {pic : Option block_t}
    (he : OutputPicture s = some (s', pic)) :
    s'.b_sps = s.b_sps ∧ s'.b_pps = s.b_pps ∧ s'.pp_sps = s.pp_sps ∧ s'.pp_pps = s.pp_pps ∧
    ((pic = none ∧ s'.p_frame = s.p_frame ∧ s'.b_slice = s.b_slice ∧ s'.slice = s.slice) ∨
     (pic ≠ none ∧ s'.p_frame = [] ∧ s'.b_slice = false ∧ s'.slice.i_frame_type = 0)) := by
  obtain ⟨hh, r, hr⟩ := recovery_eq s
  by_cases hs : suppressed s
  · rw [OutputPicture_suppressed hs] at he
    simp only [Option.some.injEq, Prod.mk.injEq] at he
    obtain ⟨e1, e2⟩ := he
    subst e1
    rw [hr]
    exact ⟨rfl, rfl, rfl, rfl, Or.inl ⟨e2.symm, rfl, rfl, rfl⟩⟩
  · cases pic with
    | none =>
      exfalso
      cases hc : OutputPicture_chain s with
      | none =>
        unfold OutputPicture at he
        have hns' : ¬ ((OutputPicture_recovery s).b_header = false ∧
            (OutputPicture_recovery s).i_recovery_frames = -1 ∧
            (OutputPicture_recovery s).slice.i_frame_type ≠ BLOCK_FLAG_TYPE_I) := by
          rw [recovery_slice]; exact hs
        rw [show (_ : Option (decoder_sys_t × Option block_t)) = _ from if_neg hns'] at he
        simp [OutputPicture_chain_recovery, hc] at he
      | some chain =>
        obtain ⟨g, _, he'⟩ := OutputPicture_emit hs hc
        rw [he'] at he
        simp at he
    | some p =>
      obtain ⟨_, chain, g, _, _, e1, _⟩ := OutputPicture_some_inv he
      rw [e1, hr]
      exact ⟨rfl, rfl, rfl, rfl, Or.inr ⟨by simp, rfl, rfl, rfl⟩⟩

theorem assembler_inv_OutputPicture {P : List Nat → Prop} {s s' : decoder_sys_t}
    {pic : Option block_t} (h : assembler_inv P s) (he : OutputPicture s = some (s', pic)) :
    assembler_inv P s' := by
  obtain ⟨e1, e2, e3, e4, hcase⟩ := OutputPicture_state he
  rcases hcase with ⟨_, e5, e6, e7⟩ | ⟨_, e5, e6, e7⟩
  · exact assembler_inv_congr (by rw [e7]) e1 e2 e3 e4 e5 e6 h
  · constructor
    · exact Or.inl e7
    · intro h0; rw [e7] at h0; exact absurd h0 (show (0 : Nat) ≠ BLOCK_FLAG_TYPE_I by decide)
    · rw [e1, e3]; exact h.sps_some
    · rw [e2, e4]; exact h.pps_some
    · rw [e3]; exact h.sps_ok
    · rw [e4]; exact h.pps_ok
    · intro b hb; rw [e5] at hb; cases hb
    · intro h0; rw [e6] at h0; cases h0
    · intro a t ht; rw [e5] at ht; cases ht

theorem frame_flag_cases {P : List Nat → Prop} {s : decoder_sys_t} (h : assembler_inv P s)
    {b : block_t} (hb : b ∈ s.p_frame) :
    (hasFlag b.i_flags BLOCK_FLAG_PRIVATE_AUD = false ∧ b.i_flags = 0 ∧
      nal_type b ≠ NAL_AU_DELIMITER) ∨
    (hasFlag b.i_flags BLOCK_FLAG_PRIVATE_AUD = true ∧ b.i_flags = BLOCK_FLAG_PRIVATE_AUD ∧
      nal_type b = NAL_AU_DELIMITER) := by
  rcases (h.frame_ok b hb).2 with ⟨h1, h2⟩ | ⟨h1, h2⟩
  · left; refine ⟨?_, h1, h2⟩; rw [h1]; decide
  · right; refine ⟨?_, h1, h2⟩; rw [h1]; decide

/-- Under the assembler invariant an emitted picture has the AU shape. -/
theorem OutputPicture_shape {P : List Nat → Prop} {s s' : decoder_sys_t} {pic : block_t}
    (h : assembler_inv P s) (he : OutputPicture s = some (s', some pic)) : au_shape P pic := by
  obtain ⟨_, chain, g, hc, hg, _, e2⟩ := OutputPicture_some_inv he
  obtain ⟨hd, t, hf, hch⟩ := OutputPicture_chain_split hc
  have hdm : hd ∈ s.p_frame := by rw [hf]; exact List.mem_cons_self _ _
  have htm : ∀ b ∈ t, b ∈ s.p_frame := fun b hb => by rw [hf]; exact List.mem_cons_of_mem _ hb
  have hbuf : pic.p_buffer = chain_bytes chain := by
    rw [e2, OutputPicture_finish_buffer, block_ChainGather_buffer hg]
  -- the flag word of the picture at bit 1
  have hbit : hasFlag pic.i_flags BLOCK_FLAG_TYPE_I = true →
      s.slice.i_frame_type = BLOCK_FLAG_TYPE_I := by
    intro hI
    rw [hasFlag_type_i, e2, OutputPicture_finish_testBit _ _ _ (by decide) (by decide)] at hI
    obtain ⟨b, hbh, hgf⟩ := block_ChainGather_flags hg
    have hbm : b ∈ chain := List.mem_of_mem_head? hbh
    have hb0 : b.i_flags.testBit 1 = false := by
      rcases OutputPicture_chain_mem hc hbm with hm | hm | hm
      · rcases frame_flag_cases h hm with ⟨_, h1, _⟩ | ⟨_, h1, _⟩
        · rw [h1]; decide
        · rw [h1]; decide
      · rw [(h.sps_ok b hm).2.1]; decide
      · rw [(h.pps_ok b hm).2.1]; decide
    have hft : s.slice.i_frame_type.testBit 1 = true := by
      rw [hgf, hb0] at hI
      have e : ({ OutputPicture_recovery s with
          b_header := OutputPicture_header (OutputPicture_recovery s) } : decoder_sys_t).slice
          = s.slice := recovery_slice s
      rw [e] at hI
      simpa using hI
    rcases h.ft_range with h0 | h0 | h0 | h0
    · rw [h0] at hft; exact absurd hft (by decide)
    · exact h0
    · rw [h0] at hft; exact absurd hft (by decide)
    · rw [h0] at hft; exact absurd hft (by decide)
  by_cases hfl : hasFlag hd.i_flags BLOCK_FLAG_PRIVATE_AUD = true
  · rw [if_pos hfl, if_pos hfl] at hch
    have hdA : hd.i_flags = BLOCK_FLAG_PRIVATE_AUD ∧ nal_type hd = NAL_AU_DELIMITER := by
      rcases frame_flag_cases h hdm with ⟨h1, _, _⟩ | ⟨_, h1, h2⟩
      · rw [h1] at hfl; cases hfl
      · exact ⟨h1, h2⟩
    refine ⟨[hd],
      (if b_sps_pps_i s || s.b_frame_sps then stored_nals s.pp_sps SPS_MAX else []),
      (if b_sps_pps_i s || s.b_frame_pps then stored_nals s.pp_pps PPS_MAX else []), t,
      ?_, ?_, ?_, ?_, ?_, ?_, ?_, ?_, ?_⟩
    · rw [hbuf, hch]; simp only [OutputPicture_list, List.append_assoc]
    · intro b hb
      simp only [List.mem_append, List.mem_singleton] at hb
      rcases hb with ((hb | hb) | hb) | hb
      · subst hb; exact (h.frame_ok _ hdm).1
      · split_ifs at hb
        · exact (h.sps_ok b hb).2.2
        · cases hb
      · split_ifs at hb
        · exact (h.pps_ok b hb).2.2
        · cases hb
      · exact (h.frame_ok b (htm b hb)).1
    · intro b hb
      rw [List.mem_singleton] at hb; subst hb; exact hdA.2
    · simp
    · intro b hb
      split_ifs at hb
      · exact (h.sps_ok b hb).1
      · cases hb
    · intro b hb
      split_ifs at hb
      · exact (h.pps_ok b hb).1
      · cases hb
    · intro hI
      have hft := hbit hI
      obtain ⟨hs, hp⟩ := h.ft_I hft
      have hi : b_sps_pps_i s = true := by simp [b_sps_pps_i, hft, hs, hp]
      simp only [hi, Bool.true_or, if_true]
      exact ⟨h.sps_some hs, h.pps_some hp⟩
    · intro _
      exact h.aud_head hd t hf hdA.1
    · intro h0; cases h0
  · rw [if_neg hfl, if_neg hfl] at hch
    have hdN : nal_type hd ≠ NAL_AU_DELIMITER := by
      rcases frame_flag_cases h hdm with ⟨_, _, h2⟩ | ⟨h1, _, _⟩
      · exact h2
      · exact absurd h1 hfl
    refine ⟨[],
      (if b_sps_pps_i s || s.b_frame_sps then stored_nals s.pp_sps SPS_MAX else []),
      (if b_sps_pps_i s || s.b_frame_pps then stored_nals s.pp_pps PPS_MAX else []), hd :: t,
      ?_, ?_, ?_, ?_, ?_, ?_, ?_, ?_, ?_⟩
    · rw [hbuf, hch]; simp only [OutputPicture_list, List.append_assoc]
    · intro b hb
      simp only [List.mem_append, List.nil_append, List.mem_cons] at hb
      rcases hb with (hb | hb) | hb | hb
      · split_ifs at hb
        · exact (h.sps_ok b hb).2.2
        · cases hb
      · split_ifs at hb
        · exact (h.pps_ok b hb).2.2
        · cases hb
      · subst hb; exact (h.frame_ok _ hdm).1
      · exact (h.frame_ok b (htm b hb)).1
    · intro b hb; cases hb
    · simp
    · intro b hb
      split_ifs at hb
      · exact (h.sps_ok b hb).1
      · cases hb
    · intro b hb
      split_ifs at hb
      · exact (h.pps_ok b hb).1
      · cases hb
    · intro hI
      have hft := hbit hI
      obtain ⟨hs, hp⟩ := h.ft_I hft
      have hi : b_sps_pps_i s = true := by simp [b_sps_pps_i, hft, hs, hp]
      simp only [hi, Bool.true_or, if_true]
      exact ⟨h.sps_some hs, h.pps_some hp⟩
    · intro h0; exact absurd rfl h0
    · intro _ b hb
      simp only [List.head?_cons, Option.some.injEq] at hb
      subst hb; exact hdN

/-! ### The branches of the dispatch -/

theorem dispatch_waiting_slice (E : Parsers) {s : decoder_sys_t} {f : block_t}
    (hA : (s.b_sps = false ∨ s.b_pps = false) ∧
      NAL_SLICE ≤ nal_type f ∧ nal_type f ≤ NAL_SLICE_IDR) :
    ParseNALBlock_dispatch E s f = some ({ s with b_slice := true }, none, some f) := by
  unfold ParseNALBlock_dispatch
  exact if_pos hA

theorem dispatch_slice (E : Parsers) {s : decoder_sys_t} {f : block_t}
    (hA : ¬ ((s.b_sps = false ∨ s.b_pps = false) ∧
      NAL_SLICE ≤ nal_type f ∧ nal_type f ≤ NAL_SLICE_IDR))
    (hB : NAL_SLICE ≤ nal_type f ∧ nal_type f ≤ NAL_SLICE_IDR) :
    ParseNALBlock_dispatch E s f =
      match (if (ParseSlice s (nal_ref_idc f : Int) (nal_type f : Int) f).1 = true ∧
                s.b_slice = true then OutputPicture s else some (s, none)) with
      | none => none
      | some (s1, p_pic) =>
        some ({ s1 with slice := (ParseSlice s (nal_ref_idc f : Int) (nal_type f : Int) f).2,
                        b_slice := true }, p_pic, some f) := by
  unfold ParseNALBlock_dispatch
  exact (if_neg hA).trans (if_pos hB)

theorem dispatch_sps (E : Parsers) {s : decoder_sys_t} {f : block_t}
    (hC : nal_type f = NAL_SPS) :
    ParseNALBlock_dispatch E s f =
      match output_if_slice s with
      | none => none
      | some (s1, p_pic) => some (PutSPS E { s1 with b_frame_sps := true } f, p_pic, none) := by
  have hB : ¬ (NAL_SLICE ≤ nal_type f ∧ nal_type f ≤ NAL_SLICE_IDR) := by
    rw [hC]; decide
  unfold ParseNALBlock_dispatch
  exact (if_neg (fun h => hB h.2)).trans ((if_neg hB).trans (if_pos hC))

theorem dispatch_pps (E : Parsers) {s : decoder_sys_t} {f : block_t}
    (hD : nal_type f = NAL_PPS) :
    ParseNALBlock_dispatch E s f =
      match output_if_slice s with
      | none => none
      | some (s1, p_pic) => some (PutPPS E { s1 with b_frame_pps := true } f, p_pic, none) := by
  have hB : ¬ (NAL_SLICE ≤ nal_type f ∧ nal_type f ≤ NAL_SLICE_IDR) := by
    rw [hD]; decide
  have hC : ¬ nal_type f = NAL_SPS := by rw [hD]; decide
  unfold ParseNALBlock_dispatch
  exact (if_neg (fun h => hB h.2)).trans ((if_neg hB).trans ((if_neg hC).trans (if_pos hD)))

theorem dispatch_sei (E : Parsers) {s : decoder_sys_t} {f : block_t}
    (hE : nal_type f = NAL_SEI) :
    ParseNALBlock_dispatch E s f =
      match output_if_slice s with
      | none => none
      | some (s1, p_pic) => some (ParseSei E s1 f, p_pic, some f) := by
  have hB : ¬ (NAL_SLICE ≤ nal_type f ∧ nal_type f ≤ NAL_SLICE_IDR) := by
    rw [hE]; decide
  have hC : ¬ nal_type f = NAL_SPS := by rw [hE]; decide
  have hD : ¬ nal_type f = NAL_PPS := by rw [hE]; decide
  unfold ParseNALBlock_dispatch
  refine (if_neg (fun h => hB h.2)).trans ((if_neg hB).trans ((if_neg hC).trans
    ((if_neg hD).trans ((if_pos (Or.inr (Or.inl hE))).trans ?_))))
  cases output_if_slice s with
  | none => rfl
  | some r => exact if_pos hE

theorem dispatch_aud (E : Parsers) {s : decoder_sys_t} {f : block_t}
    (hE : nal_type f = NAL_AU_DELIMITER) :
    ParseNALBlock_dispatch E s f =
      match output_if_slice s with
      | none => none
      | some (s1, p_pic) =>
        match s1.p_frame with
        | [] => some (s1, p_pic,
            some { f with i_flags := f.i_flags ||| BLOCK_FLAG_PRIVATE_AUD })
        | p_head :: _ =>
          if hasFlag p_head.i_flags BLOCK_FLAG_PRIVATE_AUD then some (s1, p_pic, none)
          else some (s1, p_pic,
            some { f with i_flags := f.i_flags ||| BLOCK_FLAG_PRIVATE_AUD }) := by
  have hB : ¬ (NAL_SLICE ≤ nal_type f ∧ nal_type f ≤ NAL_SLICE_IDR) := by
    rw [hE]; decide
  have hC : ¬ nal_type f = NAL_SPS := by rw [hE]; decide
  have hD : ¬ nal_type f = NAL_PPS := by rw [hE]; decide
  have hS : ¬ nal_type f = NAL_SEI := by rw [hE]; decide
  unfold ParseNALBlock_dispatch
  refine (if_neg (fun h => hB h.2)).trans ((if_neg hB).trans ((if_neg hC).trans
    ((if_neg hD).trans ((if_pos (Or.inl hE)).trans ?_))))
  cases output_if_slice s with
  | none => rfl
  | some r => exact (if_neg hS).trans (if_pos hE)

theorem dispatch_13_18 (E : Parsers) {s : decoder_sys_t} {f : block_t}
    (hE : 13 ≤ nal_type f ∧ nal_type f ≤ 18) :
    ParseNALBlock_dispatch E s f =
      match output_if_slice s with
      | none => none
      | some (s1, p_pic) => some (s1, p_pic, some f) := by
  have hB : ¬ (NAL_SLICE ≤ nal_type f ∧ nal_type f ≤ NAL_SLICE_IDR) := by
    unfold NAL_SLICE_IDR; omega
  have hC : ¬ nal_type f = NAL_SPS := by unfold NAL_SPS; omega
  have hD : ¬ nal_type f = NAL_PPS := by unfold NAL_PPS; omega
  have hS : ¬ nal_type f = NAL_SEI := by unfold NAL_SEI; omega
  have hA : ¬ nal_type f = NAL_AU_DELIMITER := by unfold NAL_AU_DELIMITER; omega
  unfold ParseNALBlock_dispatch
  refine (if_neg (fun h => hB h.2)).trans ((if_neg hB).trans ((if_neg hC).trans
    ((if_neg hD).trans ((if_pos (Or.inr (Or.inr hE))).trans ?_))))
  cases output_if_slice s with
  | none => rfl
  | some r => exact (if_neg hS).trans (if_neg hA)

theorem dispatch_other (E : Parsers) {s : decoder_sys_t} {f : block_t}
    (hB : ¬ (NAL_SLICE ≤ nal_type f ∧ nal_type f ≤ NAL_SLICE_IDR))
    (hC : ¬ nal_type f = NAL_SPS) (hD : ¬ nal_type f = NAL_PPS)
    (hE : ¬ (nal_type f = NAL_AU_DELIMITER ∨ nal_type f = NAL_SEI ∨
      (13 ≤ nal_type f ∧ nal_type f ≤ 18))) :
    ParseNALBlock_dispatch E s f = some (s, none, some f) := by
  unfold ParseNALBlock_dispatch
  exact (if_neg (fun h => hB h.2)).trans ((if_neg hB).trans ((if_neg hC).trans
    ((if_neg hD).trans (if_neg hE))))

theorem ParseNALBlock_append_fields (s : decoder_sys_t) (o : Option block_t) (d p : Int) :
    (ParseNALBlock_append s o d p).1.slice = s.slice ∧
    (ParseNALBlock_append s o d p).1.b_sps = s.b_sps ∧
    (ParseNALBlock_append s o d p).1.b_pps = s.b_pps ∧
    (ParseNALBlock_append s o d p).1.pp_sps = s.pp_sps ∧
    (ParseNALBlock_append s o d p).1.pp_pps = s.pp_pps ∧
    (ParseNALBlock_append s o d p).1.b_slice = s.b_slice ∧
    (ParseNALBlock_append s o d p).1.b_header = s.b_header ∧
    (ParseNALBlock_append s o d p).1.i_recovery_frames = s.i_recovery_frames ∧
    (ParseNALBlock_append s o d p).1.p_frame =
      (match o with
       | none => s.p_frame
       | some f => s.p_frame ++ [f]) := by
  unfold ParseNALBlock_append
  cases o with
  | none => dsimp only; split_ifs <;> exact ⟨rfl, rfl, rfl, rfl, rfl, rfl, rfl, rfl, rfl⟩
  | some f => dsimp only; split_ifs <;> exact ⟨rfl, rfl, rfl, rfl, rfl, rfl, rfl, rfl, rfl⟩

/-- The invariant after a NAL has been appended to the AU under construction. -/
theorem assembler_inv_append {P : List Nat → Prop} {s s2 : decoder_sys_t} {f : block_t}
    (h : assembler_inv P s) (hP : P f.p_buffer)
    (hr : s2.slice.i_frame_type = 0 ∨ s2.slice.i_frame_type = BLOCK_FLAG_TYPE_I ∨
      s2.slice.i_frame_type = BLOCK_FLAG_TYPE_P ∨ s2.slice.i_frame_type = BLOCK_FLAG_TYPE_B)
    (hI : s2.slice.i_frame_type = BLOCK_FLAG_TYPE_I → s2.b_sps = true ∧ s2.b_pps = true)
    (e2 : s2.b_sps = s.b_sps) (e3 : s2.b_pps = s.b_pps) (e4 : s2.pp_sps = s.pp_sps)
    (e5 : s2.pp_pps = s.pp_pps) (e6 : s2.p_frame = s.p_frame ++ [f])
    (hs : s2.b_slice = true → s.b_slice = true ∨
      (NAL_SLICE ≤ nal_type f ∧ nal_type f ≤ NAL_SLICE_IDR))
    (hf : (f.i_flags = 0 ∧ nal_type f ≠ NAL_AU_DELIMITER) ∨
      (f.i_flags = BLOCK_FLAG_PRIVATE_AUD ∧ nal_type f = NAL_AU_DELIMITER ∧
        ∀ hd, s.p_frame.head? = some hd → hd.i_flags ≠ BLOCK_FLAG_PRIVATE_AUD)) :
    assembler_inv P s2 := by
  constructor
  · exact hr
  · exact hI
  · rw [e2, e4]; exact h.sps_some
  · rw [e3, e5]; exact h.pps_some
  · rw [e4]; exact h.sps_ok
  · rw [e5]; exact h.pps_ok
  · intro b hb
    rw [e6, List.mem_append, List.mem_singleton] at hb
    rcases hb with hb | hb
    · exact h.frame_ok b hb
    · subst hb
      refine ⟨hP, ?_⟩
      rcases hf with hf | hf
      · exact Or.inl hf
      · exact Or.inr ⟨hf.1, hf.2.1⟩
  · intro hb
    rcases hs hb with h1 | h1
    · obtain ⟨b, hbm, hb2⟩ := h.slice_frame h1
      exact ⟨b, by rw [e6]; exact List.mem_append_left _ hbm, hb2⟩
    · exact ⟨f, by rw [e6]; simp, h1⟩
  · intro a t ht ha b hb
    rw [e6] at ht
    cases hfr : s.p_frame with
    | nil =>
      rw [hfr] at ht
      simp only [List.nil_append, List.cons.injEq] at ht
      rw [← ht.2] at hb; cases hb
    | cons a' t' =>
      rw [hfr] at ht
      simp only [List.cons_append, List.cons.injEq] at ht
      obtain ⟨ha', ht'⟩ := ht
      subst ha'
      rw [← ht', List.mem_append, List.mem_singleton] at hb
      rcases hb with hb | hb
      · exact h.aud_head a' t' hfr ha b hb
      · subst hb
        rcases hf with hf | hf
        · exact hf.2
        · exact absurd ha (hf.2.2 a' (by rw [hfr]; rfl))

/-- The statement `if( p_sys->b_slice ) p_pic = OutputPicture( p_dec );` under
the invariant: it does not fail, keeps the invariant and returns an AU of the
AU shape. -/
theorem output_if_slice_inv {P : List Nat → Prop} {s : decoder_sys_t}
    (h : assembler_inv P s) :
    ∃ s1 pic, output_if_slice s = some (s1, pic) ∧ assembler_inv P s1 ∧
      (∀ p, pic = some p → au_shape P p) ∧
      s1.b_sps = s.b_sps ∧ s1.b_pps = s.b_pps := by
  unfold output_if_slice
  by_cases hb : s.b_slice = true
  · rw [if_pos hb]
    obtain ⟨b, hbm, _⟩ := h.slice_frame hb
    obtain ⟨s1, pic, he⟩ := OutputPicture_total (List.ne_nil_of_mem hbm)
    refine ⟨s1, pic, he, assembler_inv_OutputPicture h he, ?_, (OutputPicture_state he).1,
      (OutputPicture_state he).2.1⟩
    intro p hp
    subst hp
    exact OutputPicture_shape h he
  · rw [if_neg hb]
    exact ⟨s, none, rfl, h, (fun p hp => Option.noConfusion hp), rfl, rfl⟩

theorem frame_type_of_slice_type_range (t : Int) :
    frame_type_of_slice_type t = 0 ∨ frame_type_of_slice_type t = BLOCK_FLAG_TYPE_I ∨
    frame_type_of_slice_type t = BLOCK_FLAG_TYPE_P ∨
    frame_type_of_slice_type t = BLOCK_FLAG_TYPE_B := by
  unfold frame_type_of_slice_type
  split_ifs <;> simp

theorem ParseSlice_frame_type_range (s : decoder_sys_t) (a b : Int) (f : block_t) :
    (ParseSlice s a b f).2.i_frame_type = 0 ∨
    (ParseSlice s a b f).2.i_frame_type = BLOCK_FLAG_TYPE_I ∨
    (ParseSlice s a b f).2.i_frame_type = BLOCK_FLAG_TYPE_P ∨
    (ParseSlice s a b f).2.i_frame_type = BLOCK_FLAG_TYPE_B := by
  unfold ParseSlice ParseSlice_fields
  dsimp only
  exact frame_type_of_slice_type_range _

theorem dispatch_aud_nil (E : Parsers) {s s1 : decoder_sys_t} {f : block_t}
    {pic : Option block_t} (hU : nal_type f = NAL_AU_DELIMITER)
    (ho : output_if_slice s = some (s1, pic)) (hfr : s1.p_frame = []) :
    ParseNALBlock_dispatch E s f =
      some (s1, pic, some { f with i_flags := f.i_flags ||| BLOCK_FLAG_PRIVATE_AUD }) := by
  rw [dispatch_aud E hU, ho]
  dsimp only
  rw [hfr]

theorem dispatch_aud_cons (E : Parsers) {s s1 : decoder_sys_t} {f hd : block_t}
    {t : List block_t} {pic : Option block_t} (hU : nal_type f = NAL_AU_DELIMITER)
    (ho : output_if_slice s = some (s1, pic)) (hfr : s1.p_frame = hd :: t) :
    ParseNALBlock_dispatch E s f =
      if hasFlag hd.i_flags BLOCK_FLAG_PRIVATE_AUD then some (s1, pic, none)
      else some (s1, pic, some { f with i_flags := f.i_flags ||| BLOCK_FLAG_PRIVATE_AUD }) := by
  rw [dispatch_aud E hU, ho]
  dsimp only
  rw [hfr]

/-- The dispatch under the invariant: it does not fail, a returned AU has the
AU shape, and the invariant holds again once the fragment is appended. -/
theorem dispatch_inv {P : List Nat → Prop} (E : Parsers) {s : decoder_sys_t} {f : block_t}
    (h : assembler_inv P s) (hf : f.i_flags = 0) (hP : P f.p_buffer) :
    ∃ s1 pic fr, ParseNALBlock_dispatch E s f = some (s1, pic, fr) ∧
      (∀ p, pic = some p → au_shape P p) ∧
      ∀ d p, assembler_inv P (ParseNALBlock_append s1 fr d p).1 := by
  by_cases hB : NAL_SLICE ≤ nal_type f ∧ nal_type f ≤ NAL_SLICE_IDR
  · have h9 : nal_type f ≠ NAL_AU_DELIMITER := by
      have := hB.2; unfold NAL_SLICE_IDR at this; unfold NAL_AU_DELIMITER; omega
    by_cases hA : s.b_sps = false ∨ s.b_pps = false
    · refine ⟨_, _, _, dispatch_waiting_slice E ⟨hA, hB⟩, fun p hp => Option.noConfusion hp, ?_⟩
      intro d p
      obtain ⟨a1, a2, a3, a4, a5, _, _, _, a9⟩ :=
        ParseNALBlock_append_fields { s with b_slice := true } (some f) d p
      exact assembler_inv_append h hP (by rw [a1]; exact h.ft_range)
        (by rw [a1, a2, a3]; exact h.ft_I) a2 a3 a4 a5 a9 (fun _ => Or.inr hB) (Or.inl ⟨hf, h9⟩)
    · have hsp : s.b_sps = true ∧ s.b_pps = true := by
        cases h1 : s.b_sps <;> cases h2 : s.b_pps <;> simp [h1, h2] at hA ⊢
      have hX : ∃ s1 pic, (if (ParseSlice s (nal_ref_idc f : Int) (nal_type f : Int) f).1 = true ∧
          s.b_slice = true then OutputPicture s else some (s, none)) = some (s1, pic) ∧
          assembler_inv P s1 ∧ (∀ p, pic = some p → au_shape P p) ∧
          s1.b_sps = s.b_sps ∧ s1.b_pps = s.b_pps := by
        by_cases hc : (ParseSlice s (nal_ref_idc f : Int) (nal_type f : Int) f).1 = true ∧
            s.b_slice = true
        · rw [if_pos hc]
          have := output_if_slice_inv h
          unfold output_if_slice at this
          rw [if_pos hc.2] at this
          exact this
        · rw [if_neg hc]
          exact ⟨s, none, rfl, h, (fun p hp => Option.noConfusion hp), rfl, rfl⟩
      obtain ⟨s1, pic, hx, hi1, hsh, b1, b2⟩ := hX
      refine ⟨{ s1 with slice := (ParseSlice s (nal_ref_idc f : Int) (nal_type f : Int) f).2,
                        b_slice := true }, pic, some f, ?_, hsh, ?_⟩
      · rw [dispatch_slice E (fun hh => hA hh.1) hB, hx]
      · intro d p
        obtain ⟨a1, a2, a3, a4, a5, _, _, _, a9⟩ := ParseNALBlock_append_fields
          { s1 with slice := (ParseSlice s (nal_ref_idc f : Int) (nal_type f : Int) f).2,
                    b_slice := true } (some f) d p
        exact assembler_inv_append hi1 hP
          (by rw [a1]; exact ParseSlice_frame_type_range _ _ _ _)
          (by rw [a2, a3]; exact fun _ => ⟨b1.trans hsp.1, b2.trans hsp.2⟩)
          a2 a3 a4 a5 a9 (fun _ => Or.inr hB) (Or.inl ⟨hf, h9⟩)
  · obtain ⟨s1, pic, ho, hi1, hsh, _, _⟩ := output_if_slice_inv h
    by_cases hC : nal_type f = NAL_SPS
    · refine ⟨PutSPS E { s1 with b_frame_sps := true } f, pic, none, ?_, hsh, ?_⟩
      · rw [dispatch_sps E hC, ho]
      · intro d p
        obtain ⟨a1, a2, a3, a4, a5, a6, _, _, a9⟩ := ParseNALBlock_append_fields
          (PutSPS E { s1 with b_frame_sps := true } f) none d p
        refine assembler_inv_congr (by rw [a1]) a2 a3 a4 a5 a9 a6 ?_
        exact assembler_inv_PutSPS E
          (assembler_inv_congr (s := s1) rfl rfl rfl rfl rfl rfl rfl hi1) hf hP hC
    · by_cases hD : nal_type f = NAL_PPS
      · refine ⟨PutPPS E { s1 with b_frame_pps := true } f, pic, none, ?_, hsh, ?_⟩
        · rw [dispatch_pps E hD, ho]
        · intro d p
          obtain ⟨a1, a2, a3, a4, a5, a6, _, _, a9⟩ := ParseNALBlock_append_fields
            (PutPPS E { s1 with b_frame_pps := true } f) none d p
          refine assembler_inv_congr (by rw [a1]) a2 a3 a4 a5 a9 a6 ?_
          exact assembler_inv_PutPPS E
            (assembler_inv_congr (s := s1) rfl rfl rfl rfl rfl rfl rfl hi1) hf hP hD
      · by_cases hS : nal_type f = NAL_SEI
        · have h9 : nal_type f ≠ NAL_AU_DELIMITER := by rw [hS]; decide
          refine ⟨ParseSei E s1 f, pic, some f, ?_, hsh, ?_⟩
          · rw [dispatch_sei E hS, ho]
          · intro d p
            obtain ⟨a1, a2, a3, a4, a5, a6, _, _, a9⟩ := ParseNALBlock_append_fields
              (ParseSei E s1 f) (some f) d p
            have hi2 := assembler_inv_ParseSei E f hi1
            exact assembler_inv_append hi2 hP (by rw [a1]; exact hi2.ft_range)
              (by rw [a1, a2, a3]; exact hi2.ft_I) a2 a3 a4 a5 a9
              (fun hb => Or.inl (a6 ▸ hb)) (Or.inl ⟨hf, h9⟩)
        · by_cases hU : nal_type f = NAL_AU_DELIMITER
          · have hfl : ({ f with i_flags := f.i_flags ||| BLOCK_FLAG_PRIVATE_AUD } : block_t).i_flags
                = BLOCK_FLAG_PRIVATE_AUD := by
              show f.i_flags ||| BLOCK_FLAG_PRIVATE_AUD = _
              rw [hf]; exact Nat.zero_or _
            cases hfr : s1.p_frame with
            | nil =>
              refine ⟨s1, pic, some { f with i_flags := f.i_flags ||| BLOCK_FLAG_PRIVATE_AUD },
                dispatch_aud_nil E hU ho hfr, hsh, ?_⟩
              intro d p
              obtain ⟨a1, a2, a3, a4, a5, a6, _, _, a9⟩ := ParseNALBlock_append_fields s1
                (some { f with i_flags := f.i_flags ||| BLOCK_FLAG_PRIVATE_AUD }) d p
              exact assembler_inv_append
                (f := { f with i_flags := f.i_flags ||| BLOCK_FLAG_PRIVATE_AUD })
                hi1 hP (by rw [a1]; exact hi1.ft_range)
                (by rw [a1, a2, a3]; exact hi1.ft_I) a2 a3 a4 a5 a9
                (fun hb => Or.inl (a6 ▸ hb))
                (Or.inr ⟨hfl, hU, fun hd hh => by rw [hfr] at hh; cases hh⟩)
            | cons hd t =>
              by_cases hhd : hasFlag hd.i_flags BLOCK_FLAG_PRIVATE_AUD = true
              · refine ⟨s1, pic, none, (dispatch_aud_cons E hU ho hfr).trans (if_pos hhd), hsh, ?_⟩
                intro d p
                obtain ⟨a1, a2, a3, a4, a5, a6, _, _, a9⟩ :=
                  ParseNALBlock_append_fields s1 none d p
                exact assembler_inv_congr (by rw [a1]) a2 a3 a4 a5 a9 a6 hi1
              · refine ⟨s1, pic, some { f with i_flags := f.i_flags ||| BLOCK_FLAG_PRIVATE_AUD },
                  (dispatch_aud_cons E hU ho hfr).trans (if_neg hhd), hsh, ?_⟩
                intro d p
                obtain ⟨a1, a2, a3, a4, a5, a6, _, _, a9⟩ := ParseNALBlock_append_fields s1
                  (some { f with i_flags := f.i_flags ||| BLOCK_FLAG_PRIVATE_AUD }) d p
                exact assembler_inv_append
                  (f := { f with i_flags := f.i_flags ||| BLOCK_FLAG_PRIVATE_AUD })
                  hi1 hP (by rw [a1]; exact hi1.ft_range)
                  (by rw [a1, a2, a3]; exact hi1.ft_I) a2 a3 a4 a5 a9
                  (fun hb => Or.inl (a6 ▸ hb))
                  (Or.inr ⟨hfl, hU, fun hd' hh => by
                    rw [hfr] at hh
                    simp only [List.head?_cons, Option.some.injEq] at hh
                    subst hh
                    intro hc
                    rw [hc] at hhd
                    exact hhd (by decide)⟩)
          · by_cases hR : 13 ≤ nal_type f ∧ nal_type f ≤ 18
            · refine ⟨s1, pic, some f, ?_, hsh, ?_⟩
              · rw [dispatch_13_18 E hR, ho]
              · intro d p
                obtain ⟨a1, a2, a3, a4, a5, a6, _, _, a9⟩ :=
                  ParseNALBlock_append_fields s1 (some f) d p
                exact assembler_inv_append hi1 hP (by rw [a1]; exact hi1.ft_range)
                  (by rw [a1, a2, a3]; exact hi1.ft_I) a2 a3 a4 a5 a9
                  (fun hb => Or.inl (a6 ▸ hb)) (Or.inl ⟨hf, hU⟩)
            · refine ⟨s, none, some f, dispatch_other E hB hC hD ?_,
                (fun p hp => Option.noConfusion hp), ?_⟩
              · rintro (h1 | h1 | h1)
                · exact hU h1
                · exact hS h1
                · exact hR h1
              · intro d p
                obtain ⟨a1, a2, a3, a4, a5, a6, _, _, a9⟩ :=
                  ParseNALBlock_append_fields s (some f) d p
                exact assembler_inv_append h hP (by rw [a1]; exact h.ft_range)
                  (by rw [a1, a2, a3]; exact h.ft_I) a2 a3 a4 a5 a9
                  (fun hb => Or.inl (a6 ▸ hb)) (Or.inl ⟨hf, hU⟩)

/-- One call of ParseNALBlock under the invariant. -/
theorem ParseNALBlock_inv {P : List Nat → Prop} (E : Parsers) {s : decoder_sys_t} {f : block_t}
    (h : assembler_inv P s) (hf : f.i_flags = 0) (hP : P f.p_buffer) :
    ∃ s' ts pic, ParseNALBlock E s f = some (s', ts, pic) ∧ assembler_inv P s' ∧
      ∀ p, pic = some p → au_shape P p := by
  obtain ⟨s1, pic, fr, hd, hsh, hi⟩ := dispatch_inv E (assembler_inv_wait h) hf hP
  refine ⟨(ParseNALBlock_append s1 fr f.i_dts f.i_pts).1,
    (ParseNALBlock_append s1 fr f.i_dts f.i_pts).2, pic, ?_, hi f.i_dts f.i_pts, hsh⟩
  unfold ParseNALBlock
  rw [hd]

/-- A run of ParseNALBlock under the invariant: it does not fail, and every
AU returned has the AU shape. -/
theorem feed_inv {P : List Nat → Prop} (E : Parsers) :
    ∀ (frags : List block_t) (s : decoder_sys_t), assembler_inv P s →
      (∀ f ∈ frags, f.i_flags = 0 ∧ P f.p_buffer) →
      ∃ s' pics, feed E s frags = some (s', pics) ∧ assembler_inv P s' ∧
        ∀ p ∈ pics, au_shape P p := by
  intro frags
  induction frags with
  | nil =>
    intro s h _
    exact ⟨s, [], rfl, h, fun p hp => by cases hp⟩
  | cons f rest ih =>
    intro s h hfr
    obtain ⟨hf0, hfP⟩ := hfr f (List.mem_cons_self _ _)
    obtain ⟨s1, ts, pic, he, hi1, hsh⟩ := ParseNALBlock_inv E h hf0 hfP
    obtain ⟨s2, pics, hr, hi2, hall⟩ := ih s1 hi1 (fun g hg => hfr g (List.mem_cons_of_mem _ hg))
    refine ⟨s2, pic.toList ++ pics, ?_, hi2, ?_⟩
    · simp only [feed, he, hr]
    · intro p hp
      rw [List.mem_append] at hp
      rcases hp with hp | hp
      · exact hsh p (by simpa [Option.mem_toList] using hp)
      · exact hall p hp

/-! ## Keyframes carry their parameter sets; AUD de-duplication -/

theorem output_if_slice_idle {s : decoder_sys_t} (h : s.b_slice = false) :
    output_if_slice s = some (s, none) := by
  unfold output_if_slice
  rw [if_neg (by rw [h]; decide)]

theorem ParseSei_p_frame (E : Parsers) (s : decoder_sys_t) (f : block_t) :
    (ParseSei E s f).p_frame = s.p_frame ∧ (ParseSei E s f).b_header = s.b_header := by
  obtain ⟨a, b, c, e⟩ := ParseSei_frame E s f
  rw [e]; exact ⟨rfl, rfl⟩

/-- The dispatch while no slice is pending and a parameter set is missing:
nothing is returned and the chain is not touched. -/
theorem dispatch_waiting (E : Parsers) {s : decoder_sys_t} (f : block_t)
    (hb : s.b_slice = false) (hw : s.b_sps = false ∨ s.b_pps = false) :
    ∃ s1 fr, ParseNALBlock_dispatch E s f = some (s1, none, fr) ∧ s1.p_frame = s.p_frame ∧
      ∀ f', fr = some f' → f'.p_buffer = f.p_buffer := by
  have ho := output_if_slice_idle hb
  by_cases hB : NAL_SLICE ≤ nal_type f ∧ nal_type f ≤ NAL_SLICE_IDR
  · exact ⟨_, _, dispatch_waiting_slice E ⟨hw, hB⟩, rfl,
      fun f' hf' => by rw [← Option.some.inj hf']⟩
  · by_cases hC : nal_type f = NAL_SPS
    · refine ⟨PutSPS E { s with b_frame_sps := true } f, none, ?_, ?_,
        fun f' hf' => Option.noConfusion hf'⟩
      · rw [dispatch_sps E hC, ho]
      · exact (PutSPS_fields E _ f).2.2.2.1
    · by_cases hD : nal_type f = NAL_PPS
      · refine ⟨PutPPS E { s with b_frame_pps := true } f, none, ?_, ?_,
          fun f' hf' => Option.noConfusion hf'⟩
        · rw [dispatch_pps E hD, ho]
        · exact (PutPPS_fields E _ f).2.2.2.1
      · by_cases hS : nal_type f = NAL_SEI
        · refine ⟨ParseSei E s f, some f, ?_, (ParseSei_p_frame E s f).1,
            fun f' hf' => by rw [← Option.some.inj hf']⟩
          rw [dispatch_sei E hS, ho]
        · by_cases hU : nal_type f = NAL_AU_DELIMITER
          · cases hfr : s.p_frame with
            | nil =>
              exact ⟨s, _, dispatch_aud_nil E hU ho hfr, hfr,
                fun f' hf' => by rw [← Option.some.inj hf']⟩
            | cons hd t =>
              by_cases hhd : hasFlag hd.i_flags BLOCK_FLAG_PRIVATE_AUD = true
              · exact ⟨s, none, (dispatch_aud_cons E hU ho hfr).trans (if_pos hhd), hfr,
                  fun f' hf' => Option.noConfusion hf'⟩
              · exact ⟨s, _, (dispatch_aud_cons E hU ho hfr).trans (if_neg hhd), hfr,
                  fun f' hf' => by rw [← Option.some.inj hf']⟩
          · by_cases hR : 13 ≤ nal_type f ∧ nal_type f ≤ 18
            · refine ⟨s, some f, ?_, rfl, fun f' hf' => by rw [← Option.some.inj hf']⟩
              rw [dispatch_13_18 E hR, ho]
            · refine ⟨s, some f, dispatch_other E hB hC hD ?_, rfl,
                fun f' hf' => by rw [← Option.some.inj hf']⟩
              rintro (h1 | h1 | h1)
              · exact hU h1
              · exact hS h1
              · exact hR h1

theorem ParseNALBlock_wait_release {s : decoder_sys_t} (hb : s.b_slice = true)
    (hw : s.b_sps = false ∨ s.b_pps = false) :
    ParseNALBlock_wait s = release_partial_au s := by
  unfold ParseNALBlock_wait
  rw [if_pos ⟨hb, hw⟩]
  rfl

theorem ParseNALBlock_wait_idle {s : decoder_sys_t} (hb : s.b_slice = false) :
    ParseNALBlock_wait s = s := by
  unfold ParseNALBlock_wait
  rw [if_neg (fun h => by rw [hb] at h; exact absurd h.1 (by decide))]

/-- OutputPicture returns nothing and changes nothing while the header is not
ready, no recovery point is pending and the frame type is not I. -/
theorem OutputPicture_quiet {s : decoder_sys_t} (hb : s.b_header = false)
    (hr : s.i_recovery_frames = -1) (hI : s.slice.i_frame_type ≠ BLOCK_FLAG_TYPE_I) :
    OutputPicture s = some (s, none) := by
  have e : OutputPicture_recovery s = s := by
    unfold OutputPicture_recovery
    rw [if_neg (fun h => h.2 hr)]
  have hs : suppressed s := by
    unfold suppressed
    rw [e]; exact ⟨hb, hr, hI⟩
  rw [OutputPicture_suppressed hs, e]

theorem ParseNALBlock_wait_quiet {s : decoder_sys_t}
    (hI : s.slice.i_frame_type ≠ BLOCK_FLAG_TYPE_I) :
    (ParseNALBlock_wait s).slice.i_frame_type ≠ BLOCK_FLAG_TYPE_I := by
  unfold ParseNALBlock_wait
  split_ifs
  · show (0 : Nat) ≠ BLOCK_FLAG_TYPE_I
    decide
  · exact hI

/-- The dispatch while the header is not ready, no recovery point is pending
and the retained frame type is not I: nothing is returned and the header stays
undeclared. -/
theorem dispatch_quiet (E : Parsers) {s : decoder_sys_t} (f : block_t)
    (hb : s.b_header = false) (hr : s.i_recovery_frames = -1)
    (hI : s.slice.i_frame_type ≠ BLOCK_FLAG_TYPE_I) :
    ∃ s1 fr, ParseNALBlock_dispatch E s f = some (s1, none, fr) ∧ s1.b_header = false := by
  have hq := OutputPicture_quiet hb hr hI
  have ho : output_if_slice s = some (s, none) := by
    unfold output_if_slice
    split_ifs
    · exact hq
    · rfl
  by_cases hB : NAL_SLICE ≤ nal_type f ∧ nal_type f ≤ NAL_SLICE_IDR
  · by_cases hA : s.b_sps = false ∨ s.b_pps = false
    · exact ⟨_, _, dispatch_waiting_slice E ⟨hA, hB⟩, hb⟩
    · have hx : (if (ParseSlice s (nal_ref_idc f : Int) (nal_type f : Int) f).1 = true ∧
          s.b_slice = true then OutputPicture s else some (s, none)) = some (s, none) := by
        split_ifs
        · exact hq
        · rfl
      refine ⟨{ s with slice := (ParseSlice s (nal_ref_idc f : Int) (nal_type f : Int) f).2,
                       b_slice := true }, some f, ?_, hb⟩
      rw [dispatch_slice E (fun hh => hA hh.1) hB, hx]
  · by_cases hC : nal_type f = NAL_SPS
    · refine ⟨PutSPS E { s with b_frame_sps := true } f, none, ?_, ?_⟩
      · rw [dispatch_sps E hC, ho]
      · rw [(PutSPS_fields E _ f).2.2.2.2.2.1]; exact hb
    · by_cases hD : nal_type f = NAL_PPS
      · refine ⟨PutPPS E { s with b_frame_pps := true } f, none, ?_, ?_⟩
        · rw [dispatch_pps E hD, ho]
        · rw [(PutPPS_fields E _ f).2.2.2.2.2.1]; exact hb
      · by_cases hS : nal_type f = NAL_SEI
        · refine ⟨ParseSei E s f, some f, ?_, ?_⟩
          · rw [dispatch_sei E hS, ho]
          · rw [(ParseSei_p_frame E s f).2]; exact hb
        · by_cases hU : nal_type f = NAL_AU_DELIMITER
          · cases hfr : s.p_frame with
            | nil => exact ⟨s, _, dispatch_aud_nil E hU ho hfr, hb⟩
            | cons hd t =>
              by_cases hhd : hasFlag hd.i_flags BLOCK_FLAG_PRIVATE_AUD = true
              · exact ⟨s, none, (dispatch_aud_cons E hU ho hfr).trans (if_pos hhd), hb⟩
              · exact ⟨s, _, (dispatch_aud_cons E hU ho hfr).trans (if_neg hhd), hb⟩
          · by_cases hR : 13 ≤ nal_type f ∧ nal_type f ≤ 18
            · refine ⟨s, some f, ?_, hb⟩
              rw [dispatch_13_18 E hR, ho]
            · refine ⟨s, some f, dispatch_other E hB hC hD ?_, hb⟩
              rintro (h1 | h1 | h1)
              · exact hU h1
              · exact hS h1
              · exact hR h1

theorem ParseNALBlock_quiet (E : Parsers) {s : decoder_sys_t} (f : block_t)
    (hb : s.b_header = false) (hr : s.i_recovery_frames = -1)
    (hI : s.slice.i_frame_type ≠ BLOCK_FLAG_TYPE_I) :
    ∃ s' ts, ParseNALBlock E s f = some (s', ts, none) ∧ s'.b_header = false := by
  obtain ⟨_, _, w3, w4, _⟩ := ParseNALBlock_wait_store s
  obtain ⟨s1, fr, hd, hh⟩ := dispatch_quiet E f (s := ParseNALBlock_wait s)
    (by rw [w3]; exact hb) (by rw [w4]; exact hr) (ParseNALBlock_wait_quiet hI)
  refine ⟨(ParseNALBlock_append s1 fr f.i_dts f.i_pts).1,
    (ParseNALBlock_append s1 fr f.i_dts f.i_pts).2, ?_, ?_⟩
  · unfold ParseNALBlock
    rw [hd]
  · rw [(ParseNALBlock_append_fields s1 fr f.i_dts f.i_pts).2.2.2.2.2.2.1]; exact hh

theorem feed_quiet (E : Parsers) :
    ∀ (frags : List block_t) (s : decoder_sys_t), s.b_header = false →
      (∀ k, k ≤ frags.length → ∀ r, feed E s (frags.take k) = some r →
        r.1.i_recovery_frames = -1 ∧ r.1.slice.i_frame_type ≠ BLOCK_FLAG_TYPE_I) →
      ∃ s', feed E s frags = some (s', []) := by
  intro frags
  induction frags with
  | nil => intro s _ _; exact ⟨s, rfl⟩
  | cons f rest ih =>
    intro s hb hq
    obtain ⟨hr, hI⟩ := hq 0 (Nat.zero_le _) (s, []) rfl
    obtain ⟨s1, ts, he, hb1⟩ := ParseNALBlock_quiet E f hb hr hI
    have hq1 : ∀ k, k ≤ rest.length → ∀ r, feed E s1 (rest.take k) = some r →
        r.1.i_recovery_frames = -1 ∧ r.1.slice.i_frame_type ≠ BLOCK_FLAG_TYPE_I := by
      intro k hk r hr'
      have : feed E s ((f :: rest).take (k + 1)) = some (r.1, r.2) := by
        simp only [List.take_succ_cons, feed, he, hr', Option.toList, List.nil_append]
      exact hq (k + 1) (by simpa using hk) _ this
    obtain ⟨s', hs'⟩ := ih s1 hb1 hq1
    exact ⟨s', by simp only [feed, he, hs', Option.toList, List.append_nil]⟩

/-- Claim C13: PacketizeReset with b_broken = false changes only frame_pts,
frame_dts, prev_pts, prev_dts (set to invalid) and even_frame (set to false);
with b_broken = true it additionally empties the AU under construction and
clears frame_type, has_frame_sps, has_frame_pps and b_slice.  In both cases
every SPS and PPS slot, b_sps, b_pps, b_header and i_recovery_frames are
unchanged, as is every field that is not named. -/
theorem PacketizeReset_frame (s : decoder_sys_t) :
    PacketizeReset s false =
      { s with
        i_frame_pts := VLC_TS_INVALID
        i_frame_dts := VLC_TS_INVALID
        i_prev_dts := VLC_TS_INVALID
        i_prev_pts := VLC_TS_INVALID
        b_even_frame := false } ∧
    PacketizeReset s true =
      { s with
        p_frame := []
        b_frame_sps := false
        b_frame_pps := false
        slice := { s.slice with i_frame_type := 0 }
        b_slice := false
        i_frame_pts := VLC_TS_INVALID
        i_frame_dts := VLC_TS_INVALID
        i_prev_dts := VLC_TS_INVALID
        i_prev_pts := VLC_TS_INVALID
        b_even_frame := false } ∧
    ∀ b, (PacketizeReset s b).pp_sps = s.pp_sps ∧ (PacketizeReset s b).pp_pps = s.pp_pps ∧
      (PacketizeReset s b).b_sps = s.b_sps ∧ (PacketizeReset s b).b_pps = s.b_pps ∧
      (PacketizeReset s b).b_header = s.b_header ∧
      (PacketizeReset s b).i_recovery_frames = s.i_recovery_frames := by
  refine ⟨rfl, rfl, ?_⟩
  intro b
  cases b <;> exact ⟨rfl, rfl, rfl, rfl, rfl, rfl⟩

theorem lor_eq_zero {a b : Nat} (h : a ||| b = 0) : a = 0 ∧ b = 0 := by
  constructor
  · apply Nat.eq_of_testBit_eq
    intro i
    have h1 := congrArg (fun x => x.testBit i) h
    simp only [Nat.testBit_or, Nat.zero_testBit, Bool.or_eq_false_iff] at h1
    rw [Nat.zero_testBit]
    exact h1.1
  · apply Nat.eq_of_testBit_eq
    intro i
    have h1 := congrArg (fun x => x.testBit i) h
    simp only [Nat.testBit_or, Nat.zero_testBit, Bool.or_eq_false_iff] at h1
    rw [Nat.zero_testBit]
    exact h1.2

/-- Claim C15: for every state and every input block whose flags include
DISCONTINUITY or CORRUPTED, PacketizeAVC1 returns no AU, leaves the whole
packetizer state unchanged and reads no byte of the block. -/
theorem PacketizeAVC1_damaged (E : Parsers) (s : decoder_sys_t) (p_block : block_t)
    (oob : Nat → Nat)
    (h : hasFlag p_block.i_flags BLOCK_FLAG_DISCONTINUITY = true ∨
      hasFlag p_block.i_flags BLOCK_FLAG_CORRUPTED = true) :
    PacketizeAVC1 E s (some p_block) oob = some ((s, []), ⟨[], []⟩) := by
  have hm : hasFlag p_block.i_flags (BLOCK_FLAG_DISCONTINUITY ||| BLOCK_FLAG_CORRUPTED) = true := by
    simp only [hasFlag, bne_iff_ne, ne_eq] at h ⊢
    intro h0
    rw [Nat.and_or_distrib_left] at h0
    have h1 := lor_eq_zero h0
    rcases h with h | h
    · exact h h1.1
    · exact h h1.2
  unfold PacketizeAVC1
  exact if_pos hm

/-- Witness for C15: a block flagged CORRUPTED that holds a well-formed IDR
record is dropped in the state reached after SPS and PPS. -/
theorem PacketizeAVC1_damaged_witness :
    hasFlag BLOCK_FLAG_CORRUPTED BLOCK_FLAG_CORRUPTED = true ∧
    PacketizeAVC1 sampleParsers (sample_after [nal_sps0, nal_pps0])
      (some { p_buffer := [0, 0, 0, 3, 0x65, 0xB8, 0x40], i_flags := BLOCK_FLAG_CORRUPTED
              i_pts := 40, i_dts := 40, i_length := 0 }) zero_mem =
      some ((sample_after [nal_sps0, nal_pps0], []), ⟨[], []⟩) :=
  ⟨by decide, PacketizeAVC1_damaged sampleParsers _ _ zero_mem (Or.inr (by decide))⟩

/-- Claim C19: for every state and every SPS NAL whose syntax parse fails,
PutSPS leaves the state as it is: every SPS slot, b_sps and all the fields
derived from an SPS are unchanged; likewise PutPPS on a PPS NAL whose parse
fails leaves every PPS slot, b_pps and pic_order_present_flag unchanged. -/
theorem Put_parse_failure (E : Parsers) (s : decoder_sys_t) (f : block_t) :
    (E.h264_parse_sps f.p_buffer = none → PutSPS E s f = s) ∧
    (E.h264_parse_pps f.p_buffer = none → PutPPS E s f = s) := by
  constructor
  · intro h
    unfold PutSPS
    rw [h]
  · intro h
    unfold PutPPS
    rw [h]

/-- Witness for C19: an SPS NAL and a PPS NAL without payload do not parse;
the state reached after SPS, PPS and an IDR slice is left as it is. -/
theorem Put_parse_failure_witness :
    sampleParsers.h264_parse_sps (annexb 0x67 []).p_buffer = none ∧
    sampleParsers.h264_parse_pps (annexb 0x68 []).p_buffer = none ∧
    PutSPS sampleParsers (sample_after [nal_sps0, nal_pps0, nal_idr]) (annexb 0x67 []) =
      sample_after [nal_sps0, nal_pps0, nal_idr] ∧
    PutPPS sampleParsers (sample_after [nal_sps0, nal_pps0, nal_idr]) (annexb 0x68 []) =
      sample_after [nal_sps0, nal_pps0, nal_idr] :=
  ⟨rfl, rfl,
    (Put_parse_failure sampleParsers _ (annexb 0x67 [])).1 rfl,
    (Put_parse_failure sampleParsers _ (annexb 0x68 [])).2 rfl⟩

theorem stored_nals_split {pp : Nat → Option block_t} {n k : Nat} {f : block_t}
    (hk : k < n) (hf : pp k = some f) :
    stored_nals pp n =
      stored_nals pp k ++ f :: (List.range' (k + 1) (n - (k + 1))).filterMap pp := by
  unfold stored_nals
  have h1 : List.range n = List.range k ++ k :: List.range' (k + 1) (n - (k + 1)) := by
    rw [List.range_eq_range', List.range_eq_range']
    have h2 : k :: List.range' (k + 1) (n - (k + 1)) = List.range' k (n - k) := by
      rw [show n - k = (n - (k + 1)) + 1 by omega]
      rfl
    rw [h2]
    have h3 := List.range'_append 0 k (n - k) 1
    simp only [Nat.zero_add, Nat.one_mul] at h3
    rw [h3]
    congr 1
    omega
  rw [h1, List.filterMap_append, List.filterMap_cons, hf]

theorem PutSPS_parsed (E : Parsers) (s : decoder_sys_t) (f : block_t) (sps : nal_sps)
    (h : E.h264_parse_sps f.p_buffer = some sps) :
    (PutSPS E s f).pp_sps = (fun i => if i = sps.i_id then some f else s.pp_sps i) ∧
    (PutSPS E s f).pp_pps = s.pp_pps ∧ (PutSPS E s f).b_sps = true := by
  unfold PutSPS
  rw [h]
  dsimp only
  split_ifs <;> exact ⟨rfl, rfl, rfl⟩

/-- Claim C20: for every state and every SPS NAL that parses with sps_id = k
(k is below 32), after PutSPS slot k holds exactly that NAL, every other SPS
slot and every PPS slot is unchanged and b_sps is true; and in every later
state whose slot k still holds that NAL, an OutputPicture that injects the
SPS emits, after the head AUD (if any) and the stored SPS of smaller id, the
bytes of that NAL. -/
theorem PutSPS_slot (E : Parsers) (s : decoder_sys_t) (f : block_t) (sps : nal_sps)
    (hparse : E.h264_parse_sps f.p_buffer = some sps) :
    sps.i_id < SPS_MAX ∧
    (PutSPS E s f).pp_sps sps.i_id = some f ∧
    (∀ i, i ≠ sps.i_id → (PutSPS E s f).pp_sps i = s.pp_sps i) ∧
    (PutSPS E s f).pp_pps = s.pp_pps ∧
    (PutSPS E s f).b_sps = true ∧
    ∀ s2 s' pic, s2.pp_sps sps.i_id = some f →
      (b_sps_pps_i s2 || s2.b_frame_sps) = true →
      OutputPicture s2 = some (s', some pic) →
      ∃ (head rest : List block_t) (post : List Nat),
        s2.p_frame = head ++ rest ∧ head.length ≤ 1 ∧
        (∀ b ∈ head, hasFlag b.i_flags BLOCK_FLAG_PRIVATE_AUD = true) ∧
        pic.p_buffer = chain_bytes head ++ chain_bytes (stored_nals s2.pp_sps sps.i_id) ++
          f.p_buffer ++ post := by
  have hk : sps.i_id < SPS_MAX := E.sps_id_lt _ _ hparse
  obtain ⟨h1, h2, h3⟩ := PutSPS_parsed E s f sps hparse
  refine ⟨hk, ?_, ?_, h2, h3, ?_⟩
  · rw [h1]; exact if_pos rfl
  · intro i hi; rw [h1]; exact if_neg hi
  · intro s2 s' pic hslot hinj he
    obtain ⟨_, chain, hc, hb⟩ := OutputPicture_some_buffer he
    obtain ⟨h, t, hfr, hch⟩ := OutputPicture_chain_split hc
    obtain ⟨tail, hl⟩ : ∃ tail, OutputPicture_list s2 =
        stored_nals s2.pp_sps sps.i_id ++ f :: tail := by
      refine ⟨(List.range' (sps.i_id + 1) (SPS_MAX - (sps.i_id + 1))).filterMap s2.pp_sps ++
        (if b_sps_pps_i s2 || s2.b_frame_pps then stored_nals s2.pp_pps PPS_MAX else []), ?_⟩
      unfold OutputPicture_list
      rw [if_pos hinj, stored_nals_split hk hslot]
      simp
    rw [hb, hch, hl]
    by_cases ha : hasFlag h.i_flags BLOCK_FLAG_PRIVATE_AUD = true
    · refine ⟨[h], t, chain_bytes tail ++ chain_bytes t, by rw [hfr]; rfl, by simp,
        by simpa using ha, ?_⟩
      rw [if_pos ha, if_pos ha]
      simp only [chain_bytes_append, chain_bytes_cons, List.append_assoc]
    · refine ⟨[], h :: t, chain_bytes tail ++ chain_bytes (h :: t), by rw [hfr]; rfl, by simp,
        by simp, ?_⟩
      rw [if_neg ha, if_neg ha]
      simp only [chain_bytes_append, chain_bytes_cons, chain_bytes_nil, List.append_assoc,
        List.nil_append]

/-- Witness for C20: after SPS 0 and PPS 0 an SPS with id 3 is put into slot 3;
the AU of the following IDR slice holds SPS 0, that SPS, PPS 0 and the slice. -/
theorem PutSPS_slot_witness :
    (PutSPS sampleParsers (sample_after [nal_sps0, nal_pps0]) (annexb 0x67 [3, 9])).pp_sps 3 =
      some (annexb 0x67 [3, 9]) ∧
    (PutSPS sampleParsers (sample_after [nal_sps0, nal_pps0]) (annexb 0x67 [3, 9])).b_sps = true ∧
    (feed sampleParsers (Open_state zero_sys)
        [nal_sps0, nal_pps0, annexb 0x67 [3, 9], nal_idr, nal_p1]).map
        (fun r => r.2.map (fun pic => pic.p_buffer)) =
      some [chain_bytes [nal_sps0, annexb 0x67 [3, 9], nal_pps0, nal_idr]] :=
  ⟨(PutSPS_slot sampleParsers (sample_after [nal_sps0, nal_pps0]) (annexb 0x67 [3, 9])
      _ rfl).2.1,
   (PutSPS_slot sampleParsers (sample_after [nal_sps0, nal_pps0]) (annexb 0x67 [3, 9]) _ rfl).2.2.2.2.1,
   by decide⟩

/-! ## Timestamps -/

theorem same_ts_refl (s : decoder_sys_t) : same_ts s s := ⟨rfl, rfl, rfl, rfl⟩

theorem same_ts_trans {a b c : decoder_sys_t} (h1 : same_ts a b) (h2 : same_ts b c) :
    same_ts a c :=
  ⟨h1.1.trans h2.1, h1.2.1.trans h2.2.1, h1.2.2.1.trans h2.2.2.1, h1.2.2.2.trans h2.2.2.2⟩

theorem output_if_slice_cases {s s0 : decoder_sys_t} {pic : Option block_t}
    (h : output_if_slice s = some (s0, pic)) :
    (s0 = s ∧ pic = none) ∨ OutputPicture s = some (s0, pic) := by
  unfold output_if_slice at h
  by_cases hb : s.b_slice = true
  · rw [if_pos hb] at h
    exact Or.inr h
  · rw [if_neg hb] at h
    cases h
    exact Or.inl ⟨rfl, rfl⟩

/-- Every branch of the dispatch is at most one call of OutputPicture followed
by one of the updates of the state: `R` is any relation that holds across
each of these updates. -/
theorem dispatch_cases (E : Parsers) (R : decoder_sys_t → decoder_sys_t → Prop)
    (hid : ∀ s, R s s)
    (hb : ∀ s, R s { s with b_slice := true })
    (hslice : ∀ s sl, R s { s with slice := sl, b_slice := true })
    (hsps : ∀ s f, R s (PutSPS E { s with b_frame_sps := true } f))
    (hpps : ∀ s f, R s (PutPPS E { s with b_frame_pps := true } f))
    (hsei : ∀ s f, R s (ParseSei E s f))
    {s s1 : decoder_sys_t} {f : block_t} {pic fr : Option block_t}
    (h : ParseNALBlock_dispatch E s f = some (s1, pic, fr)) :
    ∃ s0, ((s0 = s ∧ pic = none) ∨ OutputPicture s = some (s0, pic)) ∧ R s0 s1 := by
  by_cases hB : NAL_SLICE ≤ nal_type f ∧ nal_type f ≤ NAL_SLICE_IDR
  · by_cases hA : (s.b_sps = false ∨ s.b_pps = false) ∧
        NAL_SLICE ≤ nal_type f ∧ nal_type f ≤ NAL_SLICE_IDR
    · rw [dispatch_waiting_slice E hA] at h
      cases h
      exact ⟨s, Or.inl ⟨rfl, rfl⟩, hb s⟩
    · rw [dispatch_slice E hA hB] at h
      by_cases hc : (ParseSlice s (nal_ref_idc f : Int) (nal_type f : Int) f).1 = true ∧
          s.b_slice = true
      · rw [if_pos hc] at h
        cases ho : OutputPicture s with
        | none => rw [ho] at h; cases h
        | some r =>
          obtain ⟨s0, p⟩ := r
          rw [ho] at h
          cases h
          exact ⟨s0, Or.inr rfl, hslice s0 _⟩
      · rw [if_neg hc] at h
        cases h
        exact ⟨s, Or.inl ⟨rfl, rfl⟩, hslice s _⟩
  · by_cases hC : nal_type f = NAL_SPS
    · rw [dispatch_sps E hC] at h
      cases ho : output_if_slice s with
      | none => rw [ho] at h; cases h
      | some r =>
        obtain ⟨s0, p⟩ := r
        rw [ho] at h
        cases h
        exact ⟨s0, output_if_slice_cases ho, hsps s0 f⟩
    · by_cases hD : nal_type f = NAL_PPS
      · rw [dispatch_pps E hD] at h
        cases ho : output_if_slice s with
        | none => rw [ho] at h; cases h
        | some r =>
          obtain ⟨s0, p⟩ := r
          rw [ho] at h
          cases h
          exact ⟨s0, output_if_slice_cases ho, hpps s0 f⟩
      · by_cases hE : nal_type f = NAL_AU_DELIMITER ∨ nal_type f = NAL_SEI ∨
            (13 ≤ nal_type f ∧ nal_type f ≤ 18)
        · rcases hE with hE | hE | hE
          · rw [dispatch_aud E hE] at h
            cases ho : output_if_slice s with
            | none => rw [ho] at h; cases h
            | some r =>
              obtain ⟨s0, p⟩ := r
              rw [ho] at h
              dsimp only at h
              cases hfr : s0.p_frame with
              | nil =>
                rw [hfr] at h
                cases h
                exact ⟨_, output_if_slice_cases ho, hid _⟩
              | cons p_head t =>
                rw [hfr] at h
                dsimp only at h
                split_ifs at h <;> cases h <;>
                  exact ⟨_, output_if_slice_cases ho, hid _⟩
          · rw [dispatch_sei E hE] at h
            cases ho : output_if_slice s with
            | none => rw [ho] at h; cases h
            | some r =>
              obtain ⟨s0, p⟩ := r
              rw [ho] at h
              cases h
              exact ⟨s0, output_if_slice_cases ho, hsei s0 f⟩
          · rw [dispatch_13_18 E hE] at h
            cases ho : output_if_slice s with
            | none => rw [ho] at h; cases h
            | some r =>
              obtain ⟨s0, p⟩ := r
              rw [ho] at h
              cases h
              exact ⟨_, output_if_slice_cases ho, hid _⟩
        · rw [dispatch_other E hB hC hD hE] at h
          cases h
          exact ⟨_, Or.inl ⟨rfl, rfl⟩, hid _⟩

theorem PutSPS_same_ts (E : Parsers) (s : decoder_sys_t) (f : block_t) :
    same_ts (PutSPS E s f) s := by
  unfold PutSPS
  cases E.h264_parse_sps f.p_buffer with
  | none => exact same_ts_refl s
  | some sps => dsimp only; split_ifs <;> exact ⟨rfl, rfl, rfl, rfl⟩

theorem PutPPS_same_ts (E : Parsers) (s : decoder_sys_t) (f : block_t) :
    same_ts (PutPPS E s f) s := by
  unfold PutPPS
  cases E.h264_parse_pps f.p_buffer with
  | none => exact same_ts_refl s
  | some pps => exact ⟨rfl, rfl, rfl, rfl⟩

theorem ParseSei_same_ts (E : Parsers) (s : decoder_sys_t) (f : block_t) :
    same_ts (ParseSei E s f) s := by
  obtain ⟨a, b, c, h⟩ := ParseSei_frame E s f
  rw [h]
  exact ⟨rfl, rfl, rfl, rfl⟩

theorem recovery_same_ts (s : decoder_sys_t) : same_ts (OutputPicture_recovery s) s := by
  obtain ⟨a, b, h⟩ := recovery_eq s
  rw [h]
  exact ⟨rfl, rfl, rfl, rfl⟩

theorem ParseNALBlock_wait_same_ts (s : decoder_sys_t) : same_ts (ParseNALBlock_wait s) s := by
  unfold ParseNALBlock_wait
  split_ifs <;> exact ⟨rfl, rfl, rfl, rfl⟩

theorem OutputPicture_finish_ts (s : decoder_sys_t) (g : block_t) :
    (OutputPicture_finish s g).2.i_dts =
      (if s.i_frame_dts ≤ VLC_TS_INVALID then s.i_prev_dts else s.i_frame_dts) ∧
    (OutputPicture_finish s g).2.i_pts = s.i_frame_pts ∧
    (OutputPicture_finish s g).1.i_prev_dts =
      (if s.i_frame_dts ≤ VLC_TS_INVALID then s.i_prev_dts else s.i_frame_dts) ∧
    (OutputPicture_finish s g).1.i_prev_pts = s.i_frame_pts ∧
    (OutputPicture_finish s g).1.i_frame_dts = VLC_TS_INVALID ∧
    (OutputPicture_finish s g).1.i_frame_pts = VLC_TS_INVALID := by
  unfold OutputPicture_finish
  exact ⟨rfl, rfl, rfl, rfl, rfl, rfl⟩

/-- The timestamps of a picture that OutputPicture returns, and those it
leaves in the state. -/
theorem OutputPicture_some_ts {s s' : decoder_sys_t} {pic : block_t}
    (h : OutputPicture s = some (s', some pic)) :
    pic.i_dts = (if s.i_frame_dts ≤ VLC_TS_INVALID then s.i_prev_dts else s.i_frame_dts) ∧
    pic.i_pts = s.i_frame_pts ∧
    s'.i_prev_dts = pic.i_dts ∧ s'.i_prev_pts = pic.i_pts ∧
    s'.i_frame_dts = VLC_TS_INVALID ∧ s'.i_frame_pts = VLC_TS_INVALID := by
  obtain ⟨_, chain, g, _, _, hs, hp⟩ := OutputPicture_some_inv h
  obtain ⟨r1, r2, r3, r4⟩ := recovery_same_ts s
  obtain ⟨h1, h2, h3, h4, h5, h6⟩ := OutputPicture_finish_ts
    { OutputPicture_recovery s with
      b_header := OutputPicture_header (OutputPicture_recovery s) } g
  rw [← hs] at h3 h4 h5 h6
  rw [← hp] at h1 h2
  dsimp only at h1 h2 h3 h4
  rw [r1, r3] at h1 h3
  rw [r2] at h2 h4
  exact ⟨h1, h2, h3.trans h1.symm, h4.trans h2.symm, h5, h6⟩

/-- A call of OutputPicture that returns nothing leaves the timestamps. -/
theorem OutputPicture_none_ts {s s' : decoder_sys_t}
    (h : OutputPicture s = some (s', none)) : same_ts s' s := by
  unfold OutputPicture at h
  dsimp only at h
  split_ifs at h with hc
  · cases h
    exact recovery_same_ts s
  · cases hch : OutputPicture_chain (OutputPicture_recovery s) with
    | none => rw [hch] at h; cases h
    | some chain =>
      rw [hch] at h
      dsimp only at h
      cases hg : block_ChainGather chain with
      | none => rw [hg] at h; cases h
      | some g => rw [hg] at h; cases h

/-- The timestamps across the dispatch: those after the call of OutputPicture,
if one is made. -/
theorem dispatch_ts (E : Parsers) {s s1 : decoder_sys_t} {f : block_t}
    {pic fr : Option block_t} (h : ParseNALBlock_dispatch E s f = some (s1, pic, fr)) :
    ∃ s0, ((s0 = s ∧ pic = none) ∨ OutputPicture s = some (s0, pic)) ∧ same_ts s1 s0 :=
  dispatch_cases E (fun a b => same_ts b a) same_ts_refl
    (fun _ => ⟨rfl, rfl, rfl, rfl⟩) (fun _ _ => ⟨rfl, rfl, rfl, rfl⟩)
    (fun _ f => same_ts_trans (PutSPS_same_ts E _ f) ⟨rfl, rfl, rfl, rfl⟩)
    (fun _ f => same_ts_trans (PutPPS_same_ts E _ f) ⟨rfl, rfl, rfl, rfl⟩)
    (fun s f => ParseSei_same_ts E s f) h

/-- The capture at the tail of ParseNALBlock: the timestamps of the fragment
are taken, and `*pb_ts_used` is set, exactly when both captured frame
timestamps are invalid; the previous timestamps are left. -/
theorem ParseNALBlock_append_ts (s : decoder_sys_t) (o : Option block_t) (d p : Int) :
    (ParseNALBlock_append s o d p).1.i_prev_dts = s.i_prev_dts ∧
    (ParseNALBlock_append s o d p).1.i_prev_pts = s.i_prev_pts ∧
    ((ParseNALBlock_append s o d p).2 = true ↔
      (s.i_frame_dts ≤ VLC_TS_INVALID ∧ s.i_frame_pts ≤ VLC_TS_INVALID)) ∧
    ((ParseNALBlock_append s o d p).2 = true →
      (ParseNALBlock_append s o d p).1.i_frame_dts = d ∧
      (ParseNALBlock_append s o d p).1.i_frame_pts = p) ∧
    ((ParseNALBlock_append s o d p).2 = false →
      (ParseNALBlock_append s o d p).1.i_frame_dts = s.i_frame_dts ∧
      (ParseNALBlock_append s o d p).1.i_frame_pts = s.i_frame_pts) := by
  unfold ParseNALBlock_append
  cases o with
  | none =>
    dsimp only
    split_ifs with hc
    · exact ⟨rfl, rfl, ⟨fun _ => hc, fun _ => rfl⟩, fun _ => ⟨rfl, rfl⟩,
        (fun h => False.elim h)⟩
    · exact ⟨rfl, rfl, ⟨(fun h => False.elim h), (fun h => absurd h hc)⟩,
        (fun h => False.elim h), fun _ => ⟨rfl, rfl⟩⟩
  | some f =>
    dsimp only
    split_ifs with hc
    · exact ⟨rfl, rfl, ⟨fun _ => hc, fun _ => rfl⟩, fun _ => ⟨rfl, rfl⟩,
        (fun h => False.elim h)⟩
    · exact ⟨rfl, rfl, ⟨(fun h => False.elim h), (fun h => absurd h hc)⟩,
        (fun h => False.elim h), fun _ => ⟨rfl, rfl⟩⟩

/-- The timestamps across a call of ParseNALBlock that returns an AU: the AU
carries the captured PTS, and the captured DTS or else the previous DTS; both
become the previous timestamps, and the timestamps of the fragment are
captured for the next AU. -/
theorem ParseNALBlock_some_ts (E : Parsers) {s s' : decoder_sys_t} {f pic : block_t} {ts : Bool}
    (h : ParseNALBlock E s f = some (s', ts, some pic)) :
    pic.i_dts = (if s.i_frame_dts ≤ VLC_TS_INVALID then s.i_prev_dts else s.i_frame_dts) ∧
    pic.i_pts = s.i_frame_pts ∧
    s'.i_prev_dts = pic.i_dts ∧ s'.i_prev_pts = pic.i_pts ∧
    ts = true ∧ s'.i_frame_dts = f.i_dts ∧ s'.i_frame_pts = f.i_pts := by
  unfold ParseNALBlock at h
  cases hd : ParseNALBlock_dispatch E (ParseNALBlock_wait s) f with
  | none => rw [hd] at h; cases h
  | some r =>
    obtain ⟨s1, p, fr⟩ := r
    rw [hd] at h
    dsimp only at h
    cases h
    obtain ⟨s0, hcase, e1, e2, e3, e4⟩ := dispatch_ts E hd
    rcases hcase with ⟨_, hn⟩ | ho
    · cases hn
    · obtain ⟨h1, h2, h3, h4, h5, h6⟩ := OutputPicture_some_ts ho
      obtain ⟨w1, w2, w3, w4⟩ := ParseNALBlock_wait_same_ts s
      obtain ⟨a1, a2, a3, a4, _⟩ := ParseNALBlock_append_ts s1 fr f.i_dts f.i_pts
      have hts : (ParseNALBlock_append s1 fr f.i_dts f.i_pts).2 = true :=
        a3.2 ⟨by rw [e1, h5], by rw [e2, h6]⟩
      rw [w1, w3] at h1
      rw [w2] at h2
      exact ⟨h1, h2, by rw [a1, e3, h3], by rw [a2, e4, h4], hts, (a4 hts).1, (a4 hts).2⟩

/-- The timestamps across a call of ParseNALBlock that returns no AU: the
previous timestamps are left, the timestamps of the fragment are captured,
and `*pb_ts_used` is set, exactly when both captured frame timestamps are
invalid. -/
theorem ParseNALBlock_none_ts (E : Parsers) {s s' : decoder_sys_t} {f : block_t} {ts : Bool}
    (h : ParseNALBlock E s f = some (s', ts, none)) :
    s'.i_prev_dts = s.i_prev_dts ∧ s'.i_prev_pts = s.i_prev_pts ∧
    (ts = true ↔ (s.i_frame_dts ≤ VLC_TS_INVALID ∧ s.i_frame_pts ≤ VLC_TS_INVALID)) ∧
    (ts = true → s'.i_frame_dts = f.i_dts ∧ s'.i_frame_pts = f.i_pts) ∧
    (ts = false → s'.i_frame_dts = s.i_frame_dts ∧ s'.i_frame_pts = s.i_frame_pts) := by
  unfold ParseNALBlock at h
  cases hd : ParseNALBlock_dispatch E (ParseNALBlock_wait s) f with
  | none => rw [hd] at h; cases h
  | some r =>
    obtain ⟨s1, p, fr⟩ := r
    rw [hd] at h
    dsimp only at h
    cases h
    obtain ⟨s0, hcase, e⟩ := dispatch_ts E hd
    have e0 : same_ts s0 (ParseNALBlock_wait s) := by
      rcases hcase with ⟨h0, _⟩ | ho
      · rw [h0]; exact same_ts_refl _
      · exact OutputPicture_none_ts ho
    obtain ⟨e1, e2, e3, e4⟩ := same_ts_trans (same_ts_trans e e0) (ParseNALBlock_wait_same_ts s)
    obtain ⟨a1, a2, a3, a4, a5⟩ := ParseNALBlock_append_ts s1 fr f.i_dts f.i_pts
    rw [e1, e2] at a3 a5
    exact ⟨a1.trans e3, a2.trans e4, a3, a4, a5⟩

/-- Over a run of ParseNALBlock the previous timestamps are those of the last
AU that was returned. -/
theorem feed_prev_ts (E : Parsers) (frags : List block_t) :
    ∀ (s s' : decoder_sys_t) (pics : List block_t), feed E s frags = some (s', pics) →
      (pics = [] → s'.i_prev_dts = s.i_prev_dts ∧ s'.i_prev_pts = s.i_prev_pts) ∧
      (∀ last, pics.getLast? = some last →
        s'.i_prev_dts = last.i_dts ∧ s'.i_prev_pts = last.i_pts) := by
  induction frags with
  | nil =>
    intro s s' pics h
    cases h
    exact ⟨fun _ => ⟨rfl, rfl⟩, fun last hl => by cases hl⟩
  | cons f rest ih =>
    intro s s' pics h
    rw [feed] at h
    cases hp : ParseNALBlock E s f with
    | none => rw [hp] at h; cases h
    | some r =>
      obtain ⟨s1, ts, p⟩ := r
      rw [hp] at h
      dsimp only at h
      cases hr : feed E s1 rest with
      | none => rw [hr] at h; cases h
      | some r2 =>
        obtain ⟨s2, pics2⟩ := r2
        rw [hr] at h
        cases h
        obtain ⟨ih1, ih2⟩ := ih s1 s' pics2 hr
        cases p with
        | none =>
          obtain ⟨n1, n2, _⟩ := ParseNALBlock_none_ts E hp
          constructor
          · intro he
            obtain ⟨i1, i2⟩ := ih1 (by simpa using he)
            exact ⟨i1.trans n1, i2.trans n2⟩
          · intro last hl
            exact ih2 last (by simpa using hl)
        | some pic =>
          obtain ⟨_, _, m3, m4, _⟩ := ParseNALBlock_some_ts E hp
          constructor
          · intro he
            simp at he
          · intro last hl
            cases pics2 with
            | nil =>
              simp only [Option.toList, List.append_nil, List.getLast?_singleton,
                Option.some.injEq] at hl
              obtain ⟨i1, i2⟩ := ih1 rfl
              rw [← hl]
              exact ⟨i1.trans m3, i2.trans m4⟩
            | cons a l =>
              apply ih2
              simpa [Option.toList, List.getLast?_cons_cons] using hl

/-- Claim C12 (the code departs from it): a P-slice whose block carries PTS and
DTS 1000 is fed before any parameter set; the next call drops it from the AU
under construction (h264.c:573-585) but leaves the captured timestamps, and
the AU of the SPS, PPS and IDR slice that follow, whose blocks carry PTS and
DTS 5000, is emitted with PTS and DTS 1000. -/
theorem dropped_nal_timestamp_kept :
    (sample_after [stamped nal_p1 1000 1000, stamped nal_sps0 5000 5000]).p_frame = [] ∧
    (sample_after [stamped nal_p1 1000 1000, stamped nal_sps0 5000 5000]).i_frame_pts = 1000 ∧
    (sample_pics [stamped nal_p1 1000 1000, stamped nal_sps0 5000 5000,
        stamped nal_pps0 5000 5000, stamped nal_idr 5000 5000, stamped nal_aud 6000 6000]).map
        (fun pic => (pic.p_buffer, pic.i_pts, pic.i_dts)) =
      [(chain_bytes [nal_sps0, nal_pps0, nal_idr], 1000, 1000)] :=
  And.intro (by decide) (And.intro (by decide) (by decide))

/-! ## Hard reset followed by a P-slice and an IDR slice -/

theorem ParseSlice_frame_type (s : decoder_sys_t) (r t : Int) (f : block_t) :
    (ParseSlice s r t f).2.i_frame_type = slice_frame_type f := by
  unfold ParseSlice ParseSlice_fields slice_frame_type
  dsimp only

theorem ParseSlice_nal_type (s : decoder_sys_t) (r t : Int) (f : block_t) :
    (ParseSlice s r t f).2.i_nal_type = t := by
  unfold ParseSlice ParseSlice_fields
  dsimp only

theorem ParseSlice_idr_boundary (s : decoder_sys_t) (r : Int) (f : block_t)
    (h : s.slice.i_nal_type ≠ (NAL_SLICE_IDR : Int)) :
    (ParseSlice s r (NAL_SLICE_IDR : Int) f).1 = true := by
  have hn := ParseSlice_nal_type s r (NAL_SLICE_IDR : Int) f
  unfold ParseSlice at hn ⊢
  dsimp only at hn ⊢
  unfold ParseSlice_b_pic
  dsimp only
  rw [hn]
  exact if_pos ⟨Or.inl rfl, Or.inl (Ne.symm h)⟩

theorem ParseNALBlock_append_eq (s : decoder_sys_t) (o : Option block_t) (d p : Int) :
    ∃ d' p', (ParseNALBlock_append s o d p).1 =
      { s with
        p_frame := (match o with
          | none => s.p_frame
          | some f => s.p_frame ++ [f])
        i_frame_dts := d'
        i_frame_pts := p' } := by
  unfold ParseNALBlock_append
  cases o with
  | none => dsimp only; split_ifs <;> exact ⟨_, _, rfl⟩
  | some f => dsimp only; split_ifs <;> exact ⟨_, _, rfl⟩

theorem ParseNALBlock_wait_known {s : decoder_sys_t} (hs : s.b_sps = true)
    (hp : s.b_pps = true) : ParseNALBlock_wait s = s := by
  unfold ParseNALBlock_wait
  rw [if_neg]
  rintro ⟨_, h | h⟩
  · rw [hs] at h; cases h
  · rw [hp] at h; cases h

/-- A slice NAL fed while the parameter sets are known and no slice is
pending: nothing is emitted, the slice starts the AU. -/
theorem ParseNALBlock_first_slice (E : Parsers) {s : decoder_sys_t} {f : block_t}
    (hb : s.b_slice = false) (hs : s.b_sps = true) (hp : s.b_pps = true)
    (ht : NAL_SLICE ≤ nal_type f ∧ nal_type f ≤ NAL_SLICE_IDR) :
    ParseNALBlock E s f = some
      ((ParseNALBlock_append
          { s with slice := (ParseSlice s (nal_ref_idc f : Int) (nal_type f : Int) f).2,
                   b_slice := true } (some f) f.i_dts f.i_pts).1,
       (ParseNALBlock_append
          { s with slice := (ParseSlice s (nal_ref_idc f : Int) (nal_type f : Int) f).2,
                   b_slice := true } (some f) f.i_dts f.i_pts).2, none) := by
  have hA : ¬ ((s.b_sps = false ∨ s.b_pps = false) ∧
      NAL_SLICE ≤ nal_type f ∧ nal_type f ≤ NAL_SLICE_IDR) := by
    rintro ⟨h | h, _⟩
    · rw [hs] at h; cases h
    · rw [hp] at h; cases h
  unfold ParseNALBlock
  rw [ParseNALBlock_wait_idle hb, dispatch_slice E hA ht,
    if_neg (fun h => by rw [hb] at h; cases h.2)]

/-- A slice NAL that starts a new picture while a slice is pending and the
parameter sets are known: the result of OutputPicture is returned and the
slice starts the next AU. -/
theorem ParseNALBlock_next_slice (E : Parsers) {s s0 : decoder_sys_t} {f : block_t}
    {pic : Option block_t}
    (hb : s.b_slice = true) (hs : s.b_sps = true) (hp : s.b_pps = true)
    (ht : NAL_SLICE ≤ nal_type f ∧ nal_type f ≤ NAL_SLICE_IDR)
    (hn : (ParseSlice s (nal_ref_idc f : Int) (nal_type f : Int) f).1 = true)
    (ho : OutputPicture s = some (s0, pic)) :
    ParseNALBlock E s f = some
      ((ParseNALBlock_append
          { s0 with slice := (ParseSlice s (nal_ref_idc f : Int) (nal_type f : Int) f).2,
                    b_slice := true } (some f) f.i_dts f.i_pts).1,
       (ParseNALBlock_append
          { s0 with slice := (ParseSlice s (nal_ref_idc f : Int) (nal_type f : Int) f).2,
                    b_slice := true } (some f) f.i_dts f.i_pts).2, pic) := by
  have hA : ¬ ((s.b_sps = false ∨ s.b_pps = false) ∧
      NAL_SLICE ≤ nal_type f ∧ nal_type f ≤ NAL_SLICE_IDR) := by
    rintro ⟨h | h, _⟩
    · rw [hs] at h; cases h
    · rw [hp] at h; cases h
  unfold ParseNALBlock
  rw [ParseNALBlock_wait_known hs hp, dispatch_slice E hA ht, if_pos ⟨hn, hb⟩, ho]

theorem OutputPicture_bytes_of_chain {s : decoder_sys_t} {chain : List block_t}
    (hns : ¬ suppressed s) (hc : OutputPicture_chain s = some chain) :
    ∃ s' pic, OutputPicture s = some (s', some pic) ∧ pic.p_buffer = chain_bytes chain ∧
      pic.i_flags = pic.i_flags := by
  obtain ⟨g, _, he⟩ := OutputPicture_emit hns hc
  obtain ⟨_, chain2, hc2, hb⟩ := OutputPicture_some_buffer he
  rw [hc] at hc2
  cases hc2
  exact ⟨_, _, he, hb, rfl⟩

theorem not_suppressed_of_header {s : decoder_sys_t} (h : s.b_header = true) :
    ¬ suppressed s := by
  have e : OutputPicture_recovery s = s := by
    unfold OutputPicture_recovery
    rw [if_neg]
    rintro ⟨h1, _⟩
    rw [h] at h1; cases h1
  intro hs
  unfold suppressed at hs
  rw [e, h] at hs
  cases hs.1

theorem not_suppressed_of_I {s : decoder_sys_t}
    (h : s.slice.i_frame_type = BLOCK_FLAG_TYPE_I) : ¬ suppressed s :=
  fun hs => hs.2.2 h

theorem ParseNALBlock_first_slice_fields (E : Parsers) {s : decoder_sys_t} {f : block_t}
    (hb : s.b_slice = false) (hs : s.b_sps = true) (hp : s.b_pps = true)
    (ht : NAL_SLICE ≤ nal_type f ∧ nal_type f ≤ NAL_SLICE_IDR) :
    ∃ s1 ts, ParseNALBlock E s f = some (s1, ts, none) ∧
      s1.p_frame = s.p_frame ++ [f] ∧ s1.b_slice = true ∧
      s1.slice = (ParseSlice s (nal_ref_idc f : Int) (nal_type f : Int) f).2 ∧
      s1.b_sps = s.b_sps ∧ s1.b_pps = s.b_pps ∧ s1.pp_sps = s.pp_sps ∧ s1.pp_pps = s.pp_pps ∧
      s1.b_header = s.b_header ∧ s1.i_recovery_frames = s.i_recovery_frames ∧
      s1.b_frame_sps = s.b_frame_sps ∧ s1.b_frame_pps = s.b_frame_pps := by
  refine ⟨_, _, ParseNALBlock_first_slice E hb hs hp ht, ?_⟩
  obtain ⟨d, p, he⟩ := ParseNALBlock_append_eq
    { s with slice := (ParseSlice s (nal_ref_idc f : Int) (nal_type f : Int) f).2,
             b_slice := true } (some f) f.i_dts f.i_pts
  rw [he]
  exact ⟨rfl, rfl, rfl, rfl, rfl, rfl, rfl, rfl, rfl, rfl, rfl⟩

theorem ParseNALBlock_next_slice_fields (E : Parsers) {s s0 : decoder_sys_t} {f : block_t}
    {pic : Option block_t}
    (hb : s.b_slice = true) (hs : s.b_sps = true) (hp : s.b_pps = true)
    (ht : NAL_SLICE ≤ nal_type f ∧ nal_type f ≤ NAL_SLICE_IDR)
    (hn : (ParseSlice s (nal_ref_idc f : Int) (nal_type f : Int) f).1 = true)
    (ho : OutputPicture s = some (s0, pic)) :
    ∃ s1 ts, ParseNALBlock E s f = some (s1, ts, pic) ∧
      s1.p_frame = s0.p_frame ++ [f] ∧ s1.b_slice = true ∧
      s1.slice = (ParseSlice s (nal_ref_idc f : Int) (nal_type f : Int) f).2 ∧
      s1.b_sps = s0.b_sps ∧ s1.b_pps = s0.b_pps ∧ s1.pp_sps = s0.pp_sps ∧
      s1.pp_pps = s0.pp_pps ∧ s1.b_header = s0.b_header ∧
      s1.i_recovery_frames = s0.i_recovery_frames ∧
      s1.b_frame_sps = s0.b_frame_sps ∧ s1.b_frame_pps = s0.b_frame_pps := by
  refine ⟨_, _, ParseNALBlock_next_slice E hb hs hp ht hn ho, ?_⟩
  obtain ⟨d, p, he⟩ := ParseNALBlock_append_eq
    { s0 with slice := (ParseSlice s (nal_ref_idc f : Int) (nal_type f : Int) f).2,
              b_slice := true } (some f) f.i_dts f.i_pts
  rw [he]
  exact ⟨rfl, rfl, rfl, rfl, rfl, rfl, rfl, rfl, rfl, rfl, rfl⟩

theorem OutputPicture_chain_plain {s : decoder_sys_t} {h : block_t} {t : List block_t}
    (hI : s.slice.i_frame_type ≠ BLOCK_FLAG_TYPE_I)
    (h1 : s.b_frame_sps = false) (h2 : s.b_frame_pps = false) (hf : s.p_frame = h :: t) :
    OutputPicture_chain s = some (h :: t) := by
  have hb : b_sps_pps_i s = false := by
    unfold b_sps_pps_i
    rw [decide_eq_false hI]
    rfl
  unfold OutputPicture_chain
  rw [hb, h1, h2, hf]
  rfl

theorem OutputPicture_chain_key {s : decoder_sys_t} {h : block_t} {t : List block_t}
    (hI : s.slice.i_frame_type = BLOCK_FLAG_TYPE_I)
    (hs : s.b_sps = true) (hp : s.b_pps = true) (hf : s.p_frame = h :: t)
    (ha : hasFlag h.i_flags BLOCK_FLAG_PRIVATE_AUD = false) :
    OutputPicture_chain s =
      some (stored_nals s.pp_sps SPS_MAX ++ stored_nals s.pp_pps PPS_MAX ++ h :: t) := by
  have hb : b_sps_pps_i s = true := by
    unfold b_sps_pps_i
    rw [decide_eq_true hI, hs, hp]
    rfl
  unfold OutputPicture_chain OutputPicture_list
  rw [hb, hf]
  simp only [Bool.true_or, if_true, ha, Bool.false_eq_true, if_false]

theorem OutputPicture_length_size {s s0 : decoder_sys_t} {pic : Option block_t}
    (h : OutputPicture s = some (s0, pic)) :
    s0.i_avcC_length_size = s.i_avcC_length_size := by
  have hr : (OutputPicture_recovery s).i_avcC_length_size = s.i_avcC_length_size := by
    obtain ⟨a, b, e⟩ := recovery_eq s
    rw [e]
  unfold OutputPicture at h
  dsimp only at h
  split_ifs at h with hc
  · cases h
    exact hr
  · cases hch : OutputPicture_chain (OutputPicture_recovery s) with
    | none => rw [hch] at h; cases h
    | some chain =>
      rw [hch] at h
      dsimp only at h
      cases hg : block_ChainGather chain with
      | none => rw [hg] at h; cases h
      | some g =>
        rw [hg] at h
        cases h
        unfold OutputPicture_finish
        exact hr

theorem PutSPS_length_size (E : Parsers) (s : decoder_sys_t) (f : block_t) :
    (PutSPS E s f).i_avcC_length_size = s.i_avcC_length_size := by
  unfold PutSPS
  cases E.h264_parse_sps f.p_buffer with
  | none => rfl
  | some sps => dsimp only; split_ifs <;> rfl

theorem PutPPS_length_size (E : Parsers) (s : decoder_sys_t) (f : block_t) :
    (PutPPS E s f).i_avcC_length_size = s.i_avcC_length_size := by
  unfold PutPPS
  cases E.h264_parse_pps f.p_buffer with
  | none => rfl
  | some pps => rfl

/-- ParseNALBlock leaves the length size of the framing. -/
theorem ParseNALBlock_length_size (E : Parsers) {s s' : decoder_sys_t} {f : block_t}
    {ts : Bool} {pic : Option block_t} (h : ParseNALBlock E s f = some (s', ts, pic)) :
    s'.i_avcC_length_size = s.i_avcC_length_size := by
  unfold ParseNALBlock at h
  cases hd : ParseNALBlock_dispatch E (ParseNALBlock_wait s) f with
  | none => rw [hd] at h; cases h
  | some r =>
    obtain ⟨s1, p, fr⟩ := r
    rw [hd] at h
    dsimp only at h
    cases h
    obtain ⟨s0, hcase, e⟩ := dispatch_cases E
      (fun a b => b.i_avcC_length_size = a.i_avcC_length_size)
      (fun _ => rfl) (fun _ => rfl) (fun _ _ => rfl)
      (fun _ f => PutSPS_length_size E _ f) (fun _ f => PutPPS_length_size E _ f)
      (fun s f => by
        obtain ⟨a, b, c, e⟩ := ParseSei_frame E s f
        rw [e]) hd
    have hw : (ParseNALBlock_wait s).i_avcC_length_size = s.i_avcC_length_size := by
      unfold ParseNALBlock_wait
      split_ifs <;> rfl
    have h0 : s0.i_avcC_length_size = s.i_avcC_length_size := by
      rcases hcase with ⟨h0, _⟩ | ho
      · rw [h0]; exact hw
      · exact (OutputPicture_length_size ho).trans hw
    obtain ⟨d', p', ea⟩ := ParseNALBlock_append_eq s1 fr f.i_dts f.i_pts
    rw [ea]
    exact e.trans h0

theorem read_byte_middle (oob : Nat → Nat) (pre tail : List Nat) (x : Nat) :
    read_byte (pre ++ x :: tail) oob pre.length = x := by
  unfold read_byte
  rw [if_pos (by simp)]
  rw [List.getD_append_right _ _ _ _ (Nat.le_refl _)]
  simp

/-- The length loop over bytes that lie inside the buffer folds them. -/
theorem PacketizeAVC1_size_fold (oob : Nat → Nat) (len : List Nat) :
    ∀ (pre tail : List Nat) (acc : Nat),
      PacketizeAVC1_size (pre ++ len ++ tail) oob len.length pre.length acc =
        len.foldl (fun a b => ((a <<< 8) ||| b) % 2 ^ 32) acc := by
  induction len with
  | nil => intro pre tail acc; rfl
  | cons x xs ih =>
    intro pre tail acc
    have hb : pre ++ x :: xs ++ tail = (pre ++ [x]) ++ xs ++ tail := by simp
    have hr : read_byte (pre ++ x :: xs ++ tail) oob pre.length = x := by
      rw [List.append_assoc]
      exact read_byte_middle oob pre (xs ++ tail) x
    rw [List.length_cons, PacketizeAVC1_size, hr, hb]
    have hl : pre.length + 1 = (pre ++ [x]).length := by simp
    rw [hl, ih (pre ++ [x]) tail]
    rfl

theorem be_fold_eq (len : List Nat) (hb : ∀ b ∈ len, b < 256) :
    ∀ (k acc : Nat), k + len.length ≤ 4 → acc < 256 ^ k →
      len.foldl (fun a b => ((a <<< 8) ||| b) % 2 ^ 32) acc =
        len.foldl (fun a b => a * 256 + b) acc ∧
      len.foldl (fun a b => a * 256 + b) acc < 256 ^ (k + len.length) := by
  induction len with
  | nil => intro k acc _ ha; exact ⟨rfl, ha⟩
  | cons x xs ih =>
    intro k acc hk ha
    have hx : x < 256 := hb x (List.mem_cons_self _ _)
    have hlen : (x :: xs).length = xs.length + 1 := rfl
    rw [hlen] at hk
    have hstep : acc * 256 + x < 256 ^ (k + 1) := by
      rw [pow_succ]
      have : acc + 1 ≤ 256 ^ k := ha
      nlinarith
    have hlt : acc * 256 + x < 2 ^ 32 := by
      have h4 : (256 : Nat) ^ (k + 1) ≤ 256 ^ 4 :=
        Nat.pow_le_pow_right (by decide) (by omega)
      have h5 : (256 : Nat) ^ 4 = 2 ^ 32 := by norm_num
      omega
    have hor : ((acc <<< 8) ||| x) % 2 ^ 32 = acc * 256 + x := by
      have h1 : (acc <<< 8) ||| x = acc * 256 + x := by
        rw [Nat.shiftLeft_eq]
        have h2 := Nat.mul_add_lt_is_or (i := 8) (b := x) (by simpa using hx) acc
        rw [← Nat.mul_comm] at h2
        simpa using h2.symm
      rw [h1, Nat.mod_eq_of_lt hlt]
    simp only [List.foldl_cons]
    rw [hor]
    have := ih (fun b hb' => hb b (List.mem_cons_of_mem _ hb')) (k + 1) (acc * 256 + x)
      (by omega) hstep
    rw [hlen, show k + (xs.length + 1) = k + 1 + xs.length by omega]
    exact this

/-- The length loop over a length field of at most 4 bytes inside the buffer
yields its big-endian value. -/
theorem PacketizeAVC1_size_be (oob : Nat → Nat) (pre len tail : List Nat)
    (hb : ∀ b ∈ len, b < 256) (hl : len.length ≤ 4) :
    PacketizeAVC1_size (pre ++ len ++ tail) oob len.length pre.length 0 = be_value len := by
  rw [PacketizeAVC1_size_fold]
  exact (be_fold_eq len hb 0 0 (by omega) (by norm_num)).1

theorem int_of_u32_small {n : Nat} (h : n < 2 ^ 31) : int_of_u32 n = (n : Int) := by
  unfold int_of_u32
  have h1 : n % 2 ^ 32 = n := Nat.mod_eq_of_lt (by omega)
  rw [h1, if_pos h]

theorem avcc_bytes_cons (r : avcc_record) (rest : List avcc_record) :
    avcc_bytes (r :: rest) = r.len ++ r.payload ++ avcc_bytes rest := by
  simp [avcc_bytes]

theorem avcc_bytes_nil : avcc_bytes [] = [] := rfl

/-- One round of the loop of PacketizeAVC1 on a well-formed record found at
the offset `pre.length`. -/
theorem PacketizeAVC1_loop_step (E : Parsers) (p_block : block_t) (oob : Nat → Nat)
    (fuel : Nat) (s : decoder_sys_t) (pre rest : List Nat) (r : avcc_record)
    (hbuf : p_block.p_buffer = pre ++ (r.len ++ r.payload) ++ rest)
    (hw : avcc_record.well_formed s.i_avcC_length_size r) (hn4 : s.i_avcC_length_size ≤ 4) :
    PacketizeAVC1_loop E p_block oob (fuel + 1) pre.length s =
      match ParseNALBlock E s (avcc_fragment p_block r) with
      | none => none
      | some (s1, _, p_pic) =>
        match PacketizeAVC1_loop E p_block oob fuel
            (pre.length + s.i_avcC_length_size + r.payload.length) s1 with
        | none => none
        | some ((s2, pics), t) =>
          some ((s2, p_pic.toList ++ pics),
            ⟨List.range' pre.length s.i_avcC_length_size ++ t.reads,
              (pre.length + s.i_avcC_length_size, r.payload.length) :: t.copies⟩) := by
  obtain ⟨hl, hb, hv, hpos, h31⟩ := hw
  have hlen : p_block.p_buffer.length =
      pre.length + s.i_avcC_length_size + r.payload.length + rest.length := by
    rw [hbuf]; simp [hl]; omega
  have h1 : pre.length < p_block.p_buffer.length := by omega
  have hsize : PacketizeAVC1_size p_block.p_buffer oob s.i_avcC_length_size pre.length 0 =
      r.payload.length := by
    have hb2 : p_block.p_buffer = pre ++ r.len ++ (r.payload ++ rest) := by
      rw [hbuf]; simp
    rw [hb2, ← hl, PacketizeAVC1_size_be oob pre r.len _ hb (by rw [hl]; exact hn4), hv]
  have h2 : int_of_u32 (PacketizeAVC1_size p_block.p_buffer oob s.i_avcC_length_size
      pre.length 0) = (r.payload.length : Int) := by
    rw [hsize]; exact int_of_u32_small h31
  have h3 : ¬ ((r.payload.length : Int) ≤ 0 ∨ (r.payload.length : Int) >
      (p_block.p_buffer.length : Int) - ((pre.length + s.i_avcC_length_size : Nat) : Int)) := by
    rw [hlen]
    push_cast
    omega
  have hpay : (p_block.p_buffer.drop (pre.length + s.i_avcC_length_size)).take
      r.payload.length = r.payload := by
    have hb3 : p_block.p_buffer = (pre ++ r.len) ++ (r.payload ++ rest) := by
      rw [hbuf]; simp
    rw [hb3, List.drop_left' (by simp [hl]), List.take_left]
  have hpart : ({ CreateAnnexbNAL r.payload with
      i_dts := p_block.i_dts, i_pts := p_block.i_pts } : block_t) = avcc_fragment p_block r := rfl
  rw [PacketizeAVC1_loop, if_pos h1]
  dsimp only
  rw [h2, if_neg h3, Int.toNat_ofNat, hpay, hpart]

/-- The loop of PacketizeAVC1 over a run of well-formed records: the records
are handed to ParseNALBlock one by one, as the fragments the specification
names, and the loop goes on behind them. -/
theorem PacketizeAVC1_loop_records (E : Parsers) (p_block : block_t) (oob : Nat → Nat)
    (n : Nat) (hn4 : n ≤ 4) :
    ∀ (records : List avcc_record) (pre tail : List Nat) (fuel : Nat) (s : decoder_sys_t),
      p_block.p_buffer = pre ++ avcc_bytes records ++ tail →
      (∀ r ∈ records, avcc_record.well_formed n r) →
      s.i_avcC_length_size = n → records.length ≤ fuel →
      (PacketizeAVC1_loop E p_block oob fuel pre.length s).map Prod.fst =
        match feed E s (records.map (avcc_fragment p_block)) with
        | none => none
        | some (s1, pics) =>
          (PacketizeAVC1_loop E p_block oob (fuel - records.length)
            (pre.length + (avcc_bytes records).length) s1).map
            (fun r => (r.1.1, pics ++ r.1.2)) := by
  intro records
  induction records with
  | nil =>
    intro pre tail fuel s _ _ _ _
    simp only [List.map_nil, feed, List.length_nil, Nat.sub_zero, avcc_bytes_nil,
      Nat.add_zero, List.nil_append]
  | cons r rest ih =>
    intro pre tail fuel s hbuf hw hs hf
    obtain ⟨fuel', rfl⟩ : ∃ k, fuel = k + 1 := ⟨fuel - 1, by simp at hf; omega⟩
    have hwr : avcc_record.well_formed s.i_avcC_length_size r := by
      rw [hs]; exact hw r (List.mem_cons_self _ _)
    have hbuf1 : p_block.p_buffer = pre ++ (r.len ++ r.payload) ++ (avcc_bytes rest ++ tail) := by
      rw [hbuf, avcc_bytes_cons]; simp
    rw [PacketizeAVC1_loop_step E p_block oob fuel' s pre _ r hbuf1 hwr (by rw [hs]; exact hn4)]
    simp only [List.map_cons, feed]
    cases hp : ParseNALBlock E s (avcc_fragment p_block r) with
    | none => rfl
    | some res =>
      obtain ⟨s1, ts, p_pic⟩ := res
      dsimp only
      have hs1 : s1.i_avcC_length_size = n := (ParseNALBlock_length_size E hp).trans hs
      have hbuf2 : p_block.p_buffer = (pre ++ r.len ++ r.payload) ++ avcc_bytes rest ++ tail := by
        rw [hbuf, avcc_bytes_cons]; simp
      have hoff : pre.length + s.i_avcC_length_size + r.payload.length =
          (pre ++ r.len ++ r.payload).length := by
        simp [hwr.1]; omega
      have ih1 := ih (pre ++ r.len ++ r.payload) tail fuel' s1 hbuf2
        (fun x hx => hw x (List.mem_cons_of_mem _ hx)) hs1
        (by simp at hf; omega)
      rw [hoff]
      have hoff2 : pre.length + (avcc_bytes (r :: rest)).length =
          (pre ++ r.len ++ r.payload).length + (avcc_bytes rest).length := by
        rw [avcc_bytes_cons]; simp; omega
      have hfu : fuel' + 1 - (r :: rest).length = fuel' - rest.length := by
        simp
      rw [hoff2, hfu]
      cases hl : PacketizeAVC1_loop E p_block oob fuel' (pre ++ r.len ++ r.payload).length s1 with
      | none =>
        rw [hl] at ih1
        simp only [Option.map_none'] at ih1
        cases hfd : feed E s1 (rest.map (avcc_fragment p_block)) with
        | none => rfl
        | some fr =>
          obtain ⟨s2, pics2⟩ := fr
          rw [hfd] at ih1
          dsimp only at ih1 ⊢
          cases hl2 : PacketizeAVC1_loop E p_block oob (fuel' - rest.length)
              ((pre ++ r.len ++ r.payload).length + (avcc_bytes rest).length) s2 with
          | none => rfl
          | some v => rw [hl2] at ih1; cases ih1
      | some v =>
        obtain ⟨⟨s2, pics⟩, t⟩ := v
        rw [hl] at ih1
        simp only [Option.map_some'] at ih1
        cases hfd : feed E s1 (rest.map (avcc_fragment p_block)) with
        | none => rw [hfd] at ih1; cases ih1
        | some fr =>
          obtain ⟨s3, pics3⟩ := fr
          rw [hfd] at ih1
          dsimp only at ih1 ⊢
          cases hl2 : PacketizeAVC1_loop E p_block oob (fuel' - rest.length)
              ((pre ++ r.len ++ r.payload).length + (avcc_bytes rest).length) s3 with
          | none => rw [hl2] at ih1; cases ih1
          | some v2 =>
            rw [hl2] at ih1
            simp only [Option.map_some', Option.some.injEq, Prod.mk.injEq] at ih1 ⊢
            obtain ⟨e1, e2⟩ := ih1
            exact ⟨e1, by rw [e2, List.append_assoc]⟩

/-- The loop of PacketizeAVC1 at or behind the end of the block returns at
once. -/
theorem PacketizeAVC1_loop_end (E : Parsers) (p_block : block_t) (oob : Nat → Nat)
    (fuel p : Nat) (s : decoder_sys_t) (h : p_block.p_buffer.length ≤ p) :
    PacketizeAVC1_loop E p_block oob fuel p s = some ((s, []), ⟨[], []⟩) := by
  cases fuel with
  | zero => rfl
  | succ k =>
    rw [PacketizeAVC1_loop, if_neg (by omega)]

theorem avcc_records_length (n : Nat) (records : List avcc_record)
    (hw : ∀ r ∈ records, avcc_record.well_formed n r) :
    records.length ≤ (avcc_bytes records).length := by
  induction records with
  | nil => simp
  | cons r rest ih =>
    have h1 := (hw r (List.mem_cons_self _ _)).2.2.2.1
    have h2 := ih (fun x hx => hw x (List.mem_cons_of_mem _ hx))
    rw [avcc_bytes_cons]
    simp only [List.length_cons, List.length_append]
    omega

/-- The loop of PacketizeAVC1 at a length field whose value is 0, negative as
an `int`, or larger than the number of bytes behind it: the loop is left. -/
theorem PacketizeAVC1_loop_bad (E : Parsers) (p_block : block_t) (oob : Nat → Nat)
    (fuel : Nat) (s : decoder_sys_t) (pre len rest : List Nat)
    (hbuf : p_block.p_buffer = pre ++ len ++ rest)
    (hn4 : s.i_avcC_length_size ≤ 4) (hlen : len.length = s.i_avcC_length_size)
    (hb : ∀ b ∈ len, b < 256)
    (hbad : be_value len = 0 ∨ 2 ^ 31 ≤ be_value len ∨ rest.length < be_value len) :
    ∃ t, PacketizeAVC1_loop E p_block oob fuel pre.length s = some ((s, []), t) := by
  cases fuel with
  | zero => exact ⟨_, rfl⟩
  | succ k =>
    rw [PacketizeAVC1_loop]
    by_cases h1 : pre.length < p_block.p_buffer.length
    · rw [if_pos h1]
      dsimp only
      have hsize : PacketizeAVC1_size p_block.p_buffer oob s.i_avcC_length_size pre.length 0 =
          be_value len := by
        rw [hbuf, ← hlen, PacketizeAVC1_size_be oob pre len rest hb (by rw [hlen]; exact hn4)]
      have hlt : be_value len < 2 ^ 32 := by
        have h2 := (be_fold_eq len hb 0 0 (by omega) (by norm_num)).2
        have h3 : (256 : Nat) ^ (0 + len.length) ≤ 256 ^ 4 :=
          Nat.pow_le_pow_right (by decide) (by omega)
        have h4 : (256 : Nat) ^ 4 = 2 ^ 32 := by norm_num
        unfold be_value
        omega
      have hc : int_of_u32 (be_value len) ≤ 0 ∨ int_of_u32 (be_value len) >
          (p_block.p_buffer.length : Int) - ((pre.length + s.i_avcC_length_size : Nat) : Int) := by
        have hl : p_block.p_buffer.length = pre.length + s.i_avcC_length_size + rest.length := by
          rw [hbuf]; simp [hlen]; omega
        rw [hl]
        rcases hbad with h | h | h
        · left
          rw [h]
          decide
        · left
          unfold int_of_u32
          rw [Nat.mod_eq_of_lt hlt, if_neg (by omega)]
          omega
        · by_cases h5 : be_value len < 2 ^ 31
          · right
            rw [int_of_u32_small h5]
            push_cast
            omega
          · left
            unfold int_of_u32
            rw [Nat.mod_eq_of_lt hlt, if_neg h5]
            omega
      rw [hsize, if_pos hc]
      exact ⟨_, rfl⟩
    · rw [if_neg h1]
      exact ⟨_, rfl⟩

theorem feed_length_size (E : Parsers) (frags : List block_t) :
    ∀ (s s' : decoder_sys_t) (pics : List block_t), feed E s frags = some (s', pics) →
      s'.i_avcC_length_size = s.i_avcC_length_size := by
  induction frags with
  | nil => intro s s' pics h; cases h; rfl
  | cons f rest ih =>
    intro s s' pics h
    rw [feed] at h
    cases hp : ParseNALBlock E s f with
    | none => rw [hp] at h; cases h
    | some r =>
      obtain ⟨s1, ts, p⟩ := r
      rw [hp] at h
      dsimp only at h
      cases hr : feed E s1 rest with
      | none => rw [hr] at h; cases h
      | some r2 =>
        obtain ⟨s2, pics2⟩ := r2
        rw [hr] at h
        cases h
        exact (ih s1 s' pics2 hr).trans (ParseNALBlock_length_size E hp)

/-- Claim C18 (the code departs from it): the 14-byte avcC record
`01 64 00 1F FF E2 0002 <67 00> 0002 <68 00>` announces two entries in its SPS
list, an SPS NAL and a PPS NAL, and ends with the second entry.  Open reads
the PPS count at index 14, one byte behind the record; when that byte is 0 it
skips the PPS loop and succeeds, both b_sps and b_pps being set.  When that
byte is not 0 the next length is read behind the record as well before Open
refuses. -/
theorem Open_reads_behind_record :
    sample_avcC_short.length = 14 ∧
    (Open sampleParsers (fun s _ => s) zero_sys true true sample_avcC_short zero_mem).2.succeeded =
      true ∧
    (Open sampleParsers (fun s _ => s) zero_sys true true sample_avcC_short zero_mem).1.reads =
      [4, 5, 6, 7, 10, 11, 14] ∧
    (Open sampleParsers (fun s _ => s) zero_sys true true sample_avcC_short
      (fun _ => 1)).2.succeeded = false ∧
    (Open sampleParsers (fun s _ => s) zero_sys true true sample_avcC_short
      (fun _ => 1)).1.reads = [4, 5, 6, 7, 10, 11, 14, 15, 16] :=
  And.intro (by decide) (And.intro (by decide) (And.intro (by decide)
    (And.intro (by decide) (by decide))))

/-- A record of the sample stream whose 4-byte length field has its top bit
set: the loop of PacketizeAVC1 is left at once, whereas ParseNALBlock fed the
fragment of the record appends it to the AU under construction. -/
theorem PacketizeAVC1_long_record (payload rest : List Nat)
    (hp : payload = 0x41 :: rest) (hl : payload.length = 2 ^ 31) :
    be_value [0x80, 0, 0, 0] = payload.length ∧
    (PacketizeAVC1 sampleParsers sample_avc1
        (some { sample_avc1_block with p_buffer := avcc_bytes [⟨[0x80, 0, 0, 0], payload⟩] })
        zero_mem).map Prod.fst = some (sample_avc1, []) ∧
    ∃ s1, feed sampleParsers sample_avc1
        [avcc_fragment sample_avc1_block ⟨[0x80, 0, 0, 0], payload⟩] = some (s1, []) ∧
      s1.p_frame = [avcc_fragment sample_avc1_block ⟨[0x80, 0, 0, 0], payload⟩] := by
  refine ⟨?_, ?_, ?_⟩
  · rw [hl]
    decide
  · unfold PacketizeAVC1
    dsimp only
    rw [if_neg (by decide)]
    obtain ⟨t, ht⟩ := PacketizeAVC1_loop_bad sampleParsers
      { sample_avc1_block with p_buffer := avcc_bytes [⟨[0x80, 0, 0, 0], payload⟩] } zero_mem
      (avcc_bytes [⟨[0x80, 0, 0, 0], payload⟩]).length sample_avc1
      [] [0x80, 0, 0, 0] payload
      (by simp [avcc_bytes]) (by decide) (by decide) (by decide) (Or.inr (Or.inl (by decide)))
    simp only [List.length_nil] at ht
    rw [ht]
    rfl
  · have h : nal_type (avcc_fragment sample_avc1_block ⟨[0x80, 0, 0, 0], payload⟩) = 1 := by
      rw [hp]
      simp only [nal_type, nal_header, avcc_fragment, List.cons_append, List.nil_append,
        List.getD_cons_succ, List.getD_cons_zero]
      decide
    have hs : sample_avc1.p_frame = [] := by decide
    obtain ⟨s1, ts, e, f1, _⟩ := ParseNALBlock_first_slice_fields sampleParsers
      (s := sample_avc1) (f := avcc_fragment sample_avc1_block ⟨[0x80, 0, 0, 0], payload⟩)
      (by decide) (by decide) (by decide) (by rw [h]; decide)
    refine ⟨s1, ?_, by rw [f1, hs]; rfl⟩
    rw [feed, e]
    rfl

theorem frame_type_of_slice_type_spec (v : Int) :
    frame_type_of_slice_type v = spec_frame_type v := by
  by_cases h : 0 ≤ v ∧ v ≤ 9
  · obtain ⟨h0, h9⟩ := h
    interval_cases v <;> decide
  · have hne : ∀ k : Int, 0 ≤ k → k ≤ 9 → ¬ v = k := by
      intro k hk0 hk9 hv
      exact h (by rw [hv]; exact ⟨hk0, hk9⟩)
    have hne2 : ∀ k : Int, 0 ≤ k → k ≤ 9 → (k == v) = false := by
      intro k hk0 hk9
      rw [beq_eq_false_iff_ne]
      exact fun e => hne k hk0 hk9 e.symm
    unfold frame_type_of_slice_type spec_frame_type spec_slice_type_table
    rw [if_neg, if_neg, if_neg, if_neg, if_neg]
    · simp only [List.find?, hne2 0 (by decide) (by decide), hne2 5 (by decide) (by decide),
        hne2 1 (by decide) (by decide), hne2 6 (by decide) (by decide),
        hne2 2 (by decide) (by decide), hne2 7 (by decide) (by decide),
        hne2 3 (by decide) (by decide), hne2 8 (by decide) (by decide),
        hne2 4 (by decide) (by decide), hne2 9 (by decide) (by decide)]
      rfl
    all_goals
      rintro (e | e)
      · exact hne _ (by decide) (by decide) e
      · exact hne _ (by decide) (by decide) e

/-- Claim C22: for every slice header, the frame type recorded by ParseSlice is
determined by the decoded slice_type: 0 or 5 give P, 1 or 6 give B, 2 or 7
give I, 3 or 8 give P, 4 or 9 give I, and every other value gives none (0). -/
theorem ParseSlice_frame_type_table (p_sys : decoder_sys_t) (i_nal_ref_idc i_nal_type : Int)
    (p_frag : block_t) :
    (ParseSlice p_sys i_nal_ref_idc i_nal_type p_frag).2.i_frame_type =
      spec_frame_type (ParseSlice_slice_type p_frag) ∧
    spec_frame_type 0 = BLOCK_FLAG_TYPE_P ∧ spec_frame_type 5 = BLOCK_FLAG_TYPE_P ∧
    spec_frame_type 1 = BLOCK_FLAG_TYPE_B ∧ spec_frame_type 6 = BLOCK_FLAG_TYPE_B ∧
    spec_frame_type 2 = BLOCK_FLAG_TYPE_I ∧ spec_frame_type 7 = BLOCK_FLAG_TYPE_I ∧
    spec_frame_type 3 = BLOCK_FLAG_TYPE_P ∧ spec_frame_type 8 = BLOCK_FLAG_TYPE_P ∧
    spec_frame_type 4 = BLOCK_FLAG_TYPE_I ∧ spec_frame_type 9 = BLOCK_FLAG_TYPE_I ∧
    ∀ v : Int, (v < 0 ∨ 9 < v) → spec_frame_type v = 0 := by
  refine ⟨?_, by decide, by decide, by decide, by decide, by decide, by decide, by decide,
    by decide, by decide, by decide, ?_⟩
  · rw [ParseSlice_frame_type, ← frame_type_of_slice_type_spec]
    rfl
  · intro v hv
    rw [← frame_type_of_slice_type_spec]
    unfold frame_type_of_slice_type
    rw [if_neg (by omega), if_neg (by omega), if_neg (by omega), if_neg (by omega),
      if_neg (by omega)]

/-- Witness for C22: the IDR slice of the sample stream has slice_type 2 and is
recorded as I; the value 10 has no entry. -/
theorem ParseSlice_frame_type_table_witness :
    ParseSlice_slice_type nal_idr = 2 ∧
    (ParseSlice zero_sys 3 5 nal_idr).2.i_frame_type = spec_frame_type (ParseSlice_slice_type nal_idr) ∧
    spec_frame_type 10 = 0 :=
  ⟨by decide, (ParseSlice_frame_type_table zero_sys 3 5 nal_idr).1,
    (ParseSlice_frame_type_table zero_sys 3 5 nal_idr).2.2.2.2.2.2.2.2.2.2.2 10
      (Or.inr (by decide))⟩

/-! ## Reads of PacketizeAVC1, caption payloads, suppressed pictures -/

/-- Claim C29 (the code departs from it): with a length size of 4, a 7-byte
block holds one record (`00 00 00 02 <09 F0>`) and one more byte.  After the
record the loop of PacketizeAVC1 reads the 4 bytes of a length field at the
indices 6, 7, 8 and 9, three of them behind the block, before it leaves the
loop; whatever these bytes hold, nothing more is handed over.  The payload
range that is copied, (4, 2), lies inside the block. -/
theorem PacketizeAVC1_reads_behind_block :
    sample_avc1.i_avcC_length_size = 4 ∧ sample_avc1_block_tail.p_buffer.length = 7 ∧
    (PacketizeAVC1 sampleParsers sample_avc1 (some sample_avc1_block_tail) zero_mem).map
        Prod.snd = some ⟨[0, 1, 2, 3, 6, 7, 8, 9], [(4, 2)]⟩ ∧
    (PacketizeAVC1 sampleParsers sample_avc1 (some sample_avc1_block_tail) (fun _ => 255)).map
        Prod.snd = some ⟨[0, 1, 2, 3, 6, 7, 8, 9], [(4, 2)]⟩ :=
  And.intro (by decide) (And.intro (by decide) (And.intro (by decide) (by decide)))

/-- Claim C25 (the code departs from it): an SEI NAL holds a
user_data_registered_itu_t_t35 payload of declared size 5, `B5 00 31 47 41`,
and behind it the bytes `39 34`.  The test `i_t35 >= 5` passes, the comparison
runs over 7 bytes and matches on the two bytes behind the payload, and
cc_Extract is handed the 2 bytes `47 41`. -/
theorem ParseSei_short_t35 :
    ParseSei_is_dvb1 (CreateDecodedNAL (nal_sei_t35_short.p_buffer.drop 5)) 2 5 = true ∧
    (ParseSei sampleParsers (Open_state zero_sys) nal_sei_t35_short).cc_next.p_data =
      [0x47, 0x41] ∧
    (Open_state zero_sys).cc_next.p_data = [] :=
  And.intro (by decide) (And.intro (by decide) (by decide))

theorem OutputPicture_chain_frame_mem {s : decoder_sys_t} {chain : List block_t}
    (hc : OutputPicture_chain s = some chain) {b : block_t} (hb : b ∈ s.p_frame) :
    b ∈ chain := by
  obtain ⟨h, t, hf, hch⟩ := OutputPicture_chain_split hc
  rw [hf] at hb
  rw [hch]
  by_cases ha : hasFlag h.i_flags BLOCK_FLAG_PRIVATE_AUD = true
  · rw [if_pos ha, if_pos ha]
    rcases List.mem_cons.mp hb with e | e
    · simp [e]
    · simp [e]
  · rw [if_neg ha, if_neg ha]
    simp only [List.nil_append, List.mem_append]
    exact Or.inr hb

theorem OutputPicture_field_top (s : decoder_sys_t) (p : block_t) :
    (OutputPicture_field s p).1.i_flags.testBit 13 =
      (p.i_flags.testBit 13 ||
        decide ((s.b_frame_mbs_only = 0 ∧ s.b_pic_struct_present_flag = true) ∧
          ((s.i_pic_struct = 1 ∧ s.b_even_frame = false) ∨ s.i_pic_struct = 3 ∨
            s.i_pic_struct = 5))) := by
  unfold OutputPicture_field
  split_ifs <;>
    simp_all [Nat.testBit_or, testBit_top_field_first, testBit_bottom_field_first] <;>
    (intro h; omega)

theorem OutputPicture_field_bottom (s : decoder_sys_t) (p : block_t) :
    (OutputPicture_field s p).1.i_flags.testBit 14 =
      (p.i_flags.testBit 14 ||
        decide ((s.b_frame_mbs_only = 0 ∧ s.b_pic_struct_present_flag = true) ∧
          ((s.i_pic_struct = 2 ∧ s.b_even_frame = false) ∨ s.i_pic_struct = 4 ∨
            s.i_pic_struct = 6))) := by
  unfold OutputPicture_field
  split_ifs <;>
    simp_all [Nat.testBit_or, testBit_top_field_first, testBit_bottom_field_first] <;>
    (intro h; omega)

theorem OutputPicture_field_even (s : decoder_sys_t) (p : block_t) :
    (OutputPicture_field s p).2 =
      (if s.b_frame_mbs_only = 0 ∧ s.b_pic_struct_present_flag = true then
        (if s.i_pic_struct = 1 ∨ s.i_pic_struct = 2 then !s.b_even_frame
         else if s.i_pic_struct = 5 ∨ s.i_pic_struct = 6 then s.b_even_frame
         else false)
       else s.b_even_frame) := by
  unfold OutputPicture_field
  split_ifs <;> simp_all

theorem OutputPicture_finish_field_bit (s : decoder_sys_t) (p : block_t) (i : Nat)
    (hi : i = 13 ∨ i = 14) :
    (OutputPicture_finish s p).2.i_flags.testBit i =
      ((OutputPicture_field s p).1.i_flags.testBit i || s.slice.i_frame_type.testBit i) := by
  have h1 : decide (i < 32 ∧ i ≠ 24) = true := by
    rcases hi with h | h <;> subst h <;> decide
  have h2 : decide (11 = i) = false := by
    rcases hi with h | h <;> subst h <;> decide
  have hf : ∀ q : block_t, q.i_flags = p.i_flags →
      (OutputPicture_field s q).1.i_flags = (OutputPicture_field s p).1.i_flags := by
    intro q hq
    unfold OutputPicture_field
    split_ifs <;> simp only [hq]
  unfold OutputPicture_finish
  dsimp only
  split_ifs <;>
    simp only [Nat.testBit_or, testBit_clearFlag_aud, testBit_preroll, h1, h2,
      Bool.and_true, Bool.or_false] <;>
    rw [hf { p with i_length := OutputPicture_duration s } rfl]

/-- The invariant of the assembler holds in every state of the sample runs. -/
theorem sample_after_inv (frags : List block_t) (hclean : ∀ f ∈ frags, f.i_flags = 0) :
    assembler_inv (fun _ => True) (sample_after frags) := by
  obtain ⟨s', pics, he, hinv, _⟩ := feed_inv (P := fun _ => True) sampleParsers frags
    (Open_state zero_sys) (assembler_inv_Open _ zero_sys) (fun f hf => ⟨hclean f hf, trivial⟩)
  have e : sample_after frags = s' := by
    unfold sample_after
    rw [he]
    rfl
  rw [e]
  exact hinv

theorem inv_flags_no_field_bit {P : List Nat → Prop} {s : decoder_sys_t}
    (hinv : assembler_inv P s) {chain : List block_t} (hc : OutputPicture_chain s = some chain)
    {b : block_t} (hb : b ∈ chain) :
    b.i_flags.testBit 13 = false ∧ b.i_flags.testBit 14 = false := by
  have h0 : b.i_flags = 0 ∨ b.i_flags = BLOCK_FLAG_PRIVATE_AUD := by
    rcases OutputPicture_chain_mem hc hb with h | h | h
    · rcases hinv.frame_ok b h with ⟨_, ⟨e, _⟩ | ⟨e, _⟩⟩
      · exact Or.inl e
      · exact Or.inr e
    · exact Or.inl (hinv.sps_ok b h).2.1
    · exact Or.inl (hinv.pps_ok b h).2.1
  rcases h0 with e | e <;> rw [e] <;> exact ⟨by decide, by decide⟩

/-- Counterexample to C24 as stated: on an interlaced stream with pic_struct
present the first field is emitted with pic_struct 1 and flagged
top-field-first; the second field is emitted with pic_struct 1 as well, while
even_frame is set, and carries no field flag. -/
theorem pic_struct_counterexample :
    (sample_after [nal_sps_interlaced, nal_pps0, nal_sei_pic_timing 1 1000 1000, nal_idr_top,
        nal_sei_pic_timing 1 0 1000, nal_p_bottom]).i_pic_struct = 1 ∧
    (sample_after [nal_sps_interlaced, nal_pps0, nal_sei_pic_timing 1 1000 1000, nal_idr_top,
        nal_sei_pic_timing 1 0 1000, nal_p_bottom]).b_frame_mbs_only = 0 ∧
    (sample_after [nal_sps_interlaced, nal_pps0, nal_sei_pic_timing 1 1000 1000, nal_idr_top,
        nal_sei_pic_timing 1 0 1000, nal_p_bottom]).b_pic_struct_present_flag = true ∧
    (sample_after [nal_sps_interlaced, nal_pps0, nal_sei_pic_timing 1 1000 1000, nal_idr_top,
        nal_sei_pic_timing 1 0 1000, nal_p_bottom]).b_even_frame = true ∧
    (sample_pics [nal_sps_interlaced, nal_pps0, nal_sei_pic_timing 1 1000 1000, nal_idr_top,
        nal_sei_pic_timing 1 0 1000, nal_p_bottom, nal_aud]).map
        (fun pic => (hasFlag pic.i_flags BLOCK_FLAG_TOP_FIELD_FIRST,
          hasFlag pic.i_flags BLOCK_FLAG_BOTTOM_FIELD_FIRST)) =
      [(true, false), (false, false)] :=
  And.intro (by decide) (And.intro (by decide) (And.intro (by decide)
    (And.intro (by decide) (by decide))))

/-- Claim C24 (amended): for every AU emitted from a state of the assembler, on an
interlaced stream (not frame-mbs-only) with pic_struct_present the AU is
flagged top-field-first exactly for pic_struct 3 and 5 and for pic_struct 1
when even_frame is not set on entry, and bottom-field-first exactly for
pic_struct 4 and 6 and for pic_struct 2 when even_frame is not set on entry;
even_frame is toggled for 1 and 2, left unchanged for 5 and 6, and reset to
false for 3, 4 and every other value.  When the stream is frame-mbs-only or
pic_struct_present is unset, no field flag is set and even_frame is left. -/
theorem pic_struct_table {P : List Nat → Prop} {s s' : decoder_sys_t} {pic : block_t}
    (hinv : assembler_inv P s) (he : OutputPicture s = some (s', some pic)) :
    (hasFlag pic.i_flags BLOCK_FLAG_TOP_FIELD_FIRST = true ↔
      (s.b_frame_mbs_only = 0 ∧ s.b_pic_struct_present_flag = true) ∧
        ((s.i_pic_struct = 1 ∧ s.b_even_frame = false) ∨ s.i_pic_struct = 3 ∨
          s.i_pic_struct = 5)) ∧
    (hasFlag pic.i_flags BLOCK_FLAG_BOTTOM_FIELD_FIRST = true ↔
      (s.b_frame_mbs_only = 0 ∧ s.b_pic_struct_present_flag = true) ∧
        ((s.i_pic_struct = 2 ∧ s.b_even_frame = false) ∨ s.i_pic_struct = 4 ∨
          s.i_pic_struct = 6)) ∧
    s'.b_even_frame =
      (if s.b_frame_mbs_only = 0 ∧ s.b_pic_struct_present_flag = true then
        (if s.i_pic_struct = 1 ∨ s.i_pic_struct = 2 then !s.b_even_frame
         else if s.i_pic_struct = 5 ∨ s.i_pic_struct = 6 then s.b_even_frame
         else false)
       else s.b_even_frame) := by
  obtain ⟨_, chain, g, hc, hg, hs', hpic⟩ := OutputPicture_some_inv he
  obtain ⟨b, hhead, hgf⟩ := block_ChainGather_flags hg
  have hbm : b ∈ chain := List.mem_of_mem_head? hhead
  obtain ⟨g13, g14⟩ := inv_flags_no_field_bit hinv hc hbm
  rw [← hgf] at g13 g14
  have hft : s.slice.i_frame_type.testBit 13 = false ∧
      s.slice.i_frame_type.testBit 14 = false := by
    rcases hinv.ft_range with e | e | e | e <;> rw [e] <;> exact ⟨by decide, by decide⟩
  obtain ⟨a, r, hrec⟩ := recovery_eq s
  have hT : BLOCK_FLAG_TOP_FIELD_FIRST = 2 ^ 13 := by decide
  have hB : BLOCK_FLAG_BOTTOM_FIELD_FIRST = 2 ^ 14 := by decide
  rw [hrec] at hs' hpic
  refine ⟨?_, ?_, ?_⟩
  · rw [hT, hasFlag_two_pow, hpic, OutputPicture_finish_field_bit _ _ 13 (Or.inl rfl),
      OutputPicture_field_top]
    dsimp only
    rw [g13, hft.1]
    simp
  · rw [hB, hasFlag_two_pow, hpic, OutputPicture_finish_field_bit _ _ 14 (Or.inr rfl),
      OutputPicture_field_bottom]
    dsimp only
    rw [g14, hft.2]
    simp
  · rw [hs']
    unfold OutputPicture_finish
    dsimp only
    rw [OutputPicture_field_even]

/-- Witness for the amended C24: the second field of the counterexample is
emitted without field flag and even_frame is toggled back. -/
theorem pic_struct_table_witness :
    ∃ s' pic, OutputPicture (sample_after [nal_sps_interlaced, nal_pps0,
        nal_sei_pic_timing 1 1000 1000, nal_idr_top, nal_sei_pic_timing 1 0 1000,
        nal_p_bottom]) = some (s', some pic) ∧
      hasFlag pic.i_flags BLOCK_FLAG_TOP_FIELD_FIRST = false ∧ s'.b_even_frame = false := by
  obtain ⟨s', pic, h⟩ := OutputPicture_emits
    (s := sample_after [nal_sps_interlaced, nal_pps0, nal_sei_pic_timing 1 1000 1000,
      nal_idr_top, nal_sei_pic_timing 1 0 1000, nal_p_bottom])
    (by unfold suppressed; decide) (by decide)
  obtain ⟨h1, _, h3⟩ := pic_struct_table (sample_after_inv _ (by decide)) h
  refine ⟨s', pic, h, ?_, ?_⟩
  · cases hf : hasFlag pic.i_flags BLOCK_FLAG_TOP_FIELD_FIRST
    · rfl
    · exact absurd (h1.1 hf) (by decide)
  · rw [h3]
    decide

/-! ## The frame type of an AU of several slices -/

/-- A slice NAL fed while SPS and PPS are known: the retained slice summary
becomes that of the NAL, whether or not an AU is returned; if none is
returned the NAL is appended to the AU under construction as it was. -/
theorem ParseNALBlock_slice_step (E : Parsers) {s s' : decoder_sys_t} {f : block_t} {ts : Bool}
    {pic : Option block_t} (hs : s.b_sps = true) (hp : s.b_pps = true)
    (ht : NAL_SLICE ≤ nal_type f ∧ nal_type f ≤ NAL_SLICE_IDR)
    (h : ParseNALBlock E s f = some (s', ts, pic)) :
    s'.slice = (ParseSlice s (nal_ref_idc f : Int) (nal_type f : Int) f).2 ∧
    s'.b_slice = true ∧ s'.b_sps = true ∧ s'.b_pps = true ∧
    (pic = none → s'.p_frame = s.p_frame ++ [f]) := by
  have hA : ¬ ((s.b_sps = false ∨ s.b_pps = false) ∧
      NAL_SLICE ≤ nal_type f ∧ nal_type f ≤ NAL_SLICE_IDR) := by
    rintro ⟨h | h, _⟩
    · rw [hs] at h; cases h
    · rw [hp] at h; cases h
  unfold ParseNALBlock at h
  rw [ParseNALBlock_wait_known hs hp, dispatch_slice E hA ht] at h
  by_cases hc : (ParseSlice s (nal_ref_idc f : Int) (nal_type f : Int) f).1 = true ∧
      s.b_slice = true
  · rw [if_pos hc] at h
    cases ho : OutputPicture s with
    | none => rw [ho] at h; cases h
    | some r =>
      obtain ⟨s0, p0⟩ := r
      rw [ho] at h
      dsimp only at h
      obtain ⟨d, q, ea⟩ := ParseNALBlock_append_eq
        { s0 with slice := (ParseSlice s (nal_ref_idc f : Int) (nal_type f : Int) f).2,
                  b_slice := true } (some f) f.i_dts f.i_pts
      obtain ⟨o1, o2, _, _, o5⟩ := OutputPicture_state ho
      simp only [Option.some.injEq, Prod.mk.injEq] at h
      obtain ⟨h1, _, h3⟩ := h
      rw [← h1, ea]
      refine ⟨rfl, rfl, o1.trans hs, o2.trans hp, ?_⟩
      intro hn
      rw [← h3] at hn
      rcases o5 with ⟨_, hf, _⟩ | ⟨hne, _⟩
      · show s0.p_frame ++ [f] = s.p_frame ++ [f]
        rw [hf]
      · exact absurd hn hne
  · rw [if_neg hc] at h
    dsimp only at h
    obtain ⟨d, q, ea⟩ := ParseNALBlock_append_eq
      { s with slice := (ParseSlice s (nal_ref_idc f : Int) (nal_type f : Int) f).2,
               b_slice := true } (some f) f.i_dts f.i_pts
    simp only [Option.some.injEq, Prod.mk.injEq] at h
    obtain ⟨h1, _, _⟩ := h
    rw [← h1, ea]
    exact ⟨rfl, rfl, hs, hp, fun _ => rfl⟩

/-- A run of slice NALs fed while SPS and PPS are known: the retained frame
type is that of the last one. -/
theorem feed_slices_last (E : Parsers) :
    ∀ (slices : List block_t) (last : block_t) (s s' : decoder_sys_t) (pics : List block_t),
      s.b_sps = true → s.b_pps = true →
      (∀ f ∈ slices ++ [last], NAL_SLICE ≤ nal_type f ∧ nal_type f ≤ NAL_SLICE_IDR) →
      feed E s (slices ++ [last]) = some (s', pics) →
      s'.slice.i_frame_type = slice_frame_type last ∧ s'.b_slice = true ∧
      s'.b_sps = true ∧ s'.b_pps = true ∧
      (pics = [] → s'.p_frame = s.p_frame ++ slices ++ [last]) := by
  intro slices
  induction slices with
  | nil =>
    intro last s s' pics hs hp hsl h
    rw [List.nil_append, feed] at h
    cases hq : ParseNALBlock E s last with
    | none => rw [hq] at h; cases h
    | some r =>
      obtain ⟨s1, ts, p⟩ := r
      rw [hq] at h
      dsimp only at h
      rw [feed] at h
      cases h
      obtain ⟨a1, a2, a3, a4, a5⟩ := ParseNALBlock_slice_step E hs hp
        (hsl last (by simp)) hq
      refine ⟨by rw [a1, ParseSlice_frame_type], a2, a3, a4, ?_⟩
      intro he
      have hpn : p = none := by
        cases p with
        | none => rfl
        | some x => simp at he
      rw [a5 hpn]
      simp
  | cons f rest ih =>
    intro last s s' pics hs hp hsl h
    rw [List.cons_append, feed] at h
    cases hq : ParseNALBlock E s f with
    | none => rw [hq] at h; cases h
    | some r =>
      obtain ⟨s1, ts, p⟩ := r
      rw [hq] at h
      dsimp only at h
      cases hr : feed E s1 (rest ++ [last]) with
      | none => rw [hr] at h; cases h
      | some r2 =>
        obtain ⟨s2, pics2⟩ := r2
        rw [hr] at h
        dsimp only at h
        obtain ⟨a1, a2, a3, a4, a5⟩ := ParseNALBlock_slice_step E hs hp
          (hsl f (by simp)) hq
        obtain ⟨i1, i2, i3, i4, i5⟩ := ih last s1 s2 pics2 a3 a4
          (fun x hx => hsl x (by simp at hx ⊢; tauto)) hr
        cases h
        refine ⟨i1, i2, i3, i4, ?_⟩
        intro he
        have hp2 : pics2 = [] := (List.append_eq_nil.mp he).2
        have hpn : p = none := by
          cases p with
          | none => rfl
          | some x => simp at he
        rw [i5 hp2, a5 hpn]
        simp

/-- The type bits of an emitted AU are those of the retained frame type. -/
theorem OutputPicture_type_bits {P : List Nat → Prop} {s s' : decoder_sys_t} {pic : block_t}
    (hinv : assembler_inv P s) (he : OutputPicture s = some (s', some pic)) (i : Nat)
    (hi : i = 1 ∨ i = 2 ∨ i = 3) :
    pic.i_flags.testBit i = s.slice.i_frame_type.testBit i := by
  obtain ⟨_, chain, g, hc, hg, hs', hpic⟩ := OutputPicture_some_inv he
  obtain ⟨b, hhead, hgf⟩ := block_ChainGather_flags hg
  have hbm : b ∈ chain := List.mem_of_mem_head? hhead
  have h0 : b.i_flags = 0 ∨ b.i_flags = BLOCK_FLAG_PRIVATE_AUD := by
    rcases OutputPicture_chain_mem hc hbm with h | h | h
    · rcases hinv.frame_ok b h with ⟨_, ⟨e, _⟩ | ⟨e, _⟩⟩
      · exact Or.inl e
      · exact Or.inr e
    · exact Or.inl (hinv.sps_ok b h).2.1
    · exact Or.inl (hinv.pps_ok b h).2.1
  have hgb : g.i_flags.testBit i = false := by
    rw [hgf]
    rcases h0 with e | e <;> rw [e] <;> rcases hi with h | h | h <;> subst h <;> decide
  obtain ⟨a, r, hrec⟩ := recovery_eq s
  rw [hrec] at hpic
  have h13 : i ≠ 13 := by omega
  have h14 : i ≠ 14 := by omega
  rw [hpic, OutputPicture_finish_testBit _ _ i h13 h14, hgb]
  dsimp only
  have e1 : decide (i < 32 ∧ i ≠ 24) = true := by
    rcases hi with h | h | h <;> subst h <;> decide
  have e2 : decide (11 = i) = false := by
    rcases hi with h | h | h <;> subst h <;> decide
  rw [e1, e2]
  simp

theorem type_flag_iff {ft : Nat}
    (hr : ft = 0 ∨ ft = BLOCK_FLAG_TYPE_I ∨ ft = BLOCK_FLAG_TYPE_P ∨ ft = BLOCK_FLAG_TYPE_B) :
    (ft.testBit 1 = true ↔ ft = BLOCK_FLAG_TYPE_I) ∧
    (ft.testBit 2 = true ↔ ft = BLOCK_FLAG_TYPE_P) ∧
    (ft.testBit 3 = true ↔ ft = BLOCK_FLAG_TYPE_B) := by
  rcases hr with e | e | e | e <;> rw [e] <;> decide

/-- Claim C28: for every AU made of two or more slice NALs (fed while SPS and
PPS are known), the retained frame type is that of the last slice NAL fed,
the retained slice summary being overwritten by every slice; the frame-type
flag stamped on the emitted AU, the decision to inject SPS/PPS as for a
keyframe and the pre-roll suppression test all use it. -/
theorem au_frame_type_last_slice (E : Parsers) {P : List Nat → Prop} (s : decoder_sys_t)
    (hinv : assembler_inv P s) (hs : s.b_sps = true) (hp : s.b_pps = true)
    (slices : List block_t) (last : block_t)
    (hsl : ∀ f ∈ slices ++ [last],
      (NAL_SLICE ≤ nal_type f ∧ nal_type f ≤ NAL_SLICE_IDR) ∧ f.i_flags = 0 ∧ P f.p_buffer) :
    ∃ s' pics, feed E s (slices ++ [last]) = some (s', pics) ∧
      s'.slice.i_frame_type = slice_frame_type last ∧
      (pics = [] → s'.p_frame = s.p_frame ++ slices ++ [last]) ∧
      (b_sps_pps_i s' = true ↔ slice_frame_type last = BLOCK_FLAG_TYPE_I) ∧
      (suppressed s' ↔ (OutputPicture_recovery s').b_header = false ∧
        (OutputPicture_recovery s').i_recovery_frames = -1 ∧
        slice_frame_type last ≠ BLOCK_FLAG_TYPE_I) ∧
      ∀ s'' pic, OutputPicture s' = some (s'', some pic) →
        (hasFlag pic.i_flags BLOCK_FLAG_TYPE_I = true ↔
          slice_frame_type last = BLOCK_FLAG_TYPE_I) ∧
        (hasFlag pic.i_flags BLOCK_FLAG_TYPE_P = true ↔
          slice_frame_type last = BLOCK_FLAG_TYPE_P) ∧
        (hasFlag pic.i_flags BLOCK_FLAG_TYPE_B = true ↔
          slice_frame_type last = BLOCK_FLAG_TYPE_B) := by
  obtain ⟨s', pics, he, hinv', _⟩ := feed_inv E (slices ++ [last]) s hinv
    (fun f hf => (hsl f hf).2)
  obtain ⟨h1, h2, h3, h4, h5⟩ := feed_slices_last E slices last s s' pics hs hp
    (fun f hf => (hsl f hf).1) he
  refine ⟨s', pics, he, h1, h5, ?_, ?_, ?_⟩
  · unfold b_sps_pps_i
    rw [h3, h4, h1]
    simp
  · unfold suppressed
    rw [h1]
  · intro s'' pic ho
    have hI : BLOCK_FLAG_TYPE_I = 2 ^ 1 := by decide
    have hP : BLOCK_FLAG_TYPE_P = 2 ^ 2 := by decide
    have hB : BLOCK_FLAG_TYPE_B = 2 ^ 3 := by decide
    obtain ⟨t1, t2, t3⟩ := type_flag_iff hinv'.ft_range
    rw [h1] at t1 t2 t3
    refine ⟨?_, ?_, ?_⟩
    · rw [← t1, ← h1]
      conv_lhs => rw [hI, hasFlag_two_pow]
      rw [OutputPicture_type_bits hinv' ho 1 (Or.inl rfl)]
    · rw [← t2, ← h1]
      conv_lhs => rw [hP, hasFlag_two_pow]
      rw [OutputPicture_type_bits hinv' ho 2 (Or.inr (Or.inl rfl))]
    · rw [← t3, ← h1]
      conv_lhs => rw [hB, hasFlag_two_pow]
      rw [OutputPicture_type_bits hinv' ho 3 (Or.inr (Or.inr rfl))]

/-- Witness for C28: after the AU of an IDR slice, an I-slice and a P-slice of
one picture are fed; the retained frame type is P, no keyframe injection is
decided, and the AU of the two slices is emitted without SPS/PPS, flagged P. -/
theorem au_frame_type_last_slice_witness :
    slice_frame_type nal_i1 = BLOCK_FLAG_TYPE_I ∧ slice_frame_type nal_p1 = BLOCK_FLAG_TYPE_P ∧
    (∃ s' pics, feed sampleParsers (sample_after [nal_sps0, nal_pps0, nal_idr])
        ([nal_i1] ++ [nal_p1]) = some (s', pics) ∧
      s'.slice.i_frame_type = slice_frame_type nal_p1 ∧ b_sps_pps_i s' = false) ∧
    (sample_pics [nal_sps0, nal_pps0, nal_idr, nal_i1, nal_p1, nal_p2]).map
        (fun pic => (pic.p_buffer, pic.i_flags)) =
      [(chain_bytes [nal_sps0, nal_pps0, nal_idr], BLOCK_FLAG_TYPE_I),
       (chain_bytes [nal_i1, nal_p1], BLOCK_FLAG_TYPE_P)] := by
  refine ⟨by decide, by decide, ?_, by decide⟩
  obtain ⟨s', pics, h1, h2, _, h4, _⟩ := au_frame_type_last_slice sampleParsers
    (sample_after [nal_sps0, nal_pps0, nal_idr]) (sample_after_inv _ (by decide))
    (by decide) (by decide) [nal_i1] nal_p1 (by decide)
  refine ⟨s', pics, h1, h2, ?_⟩
  cases hb : b_sps_pps_i s'
  · rfl
  · exact absurd (h4.1 hb) (by decide)

/-! ## A pending slice has a non-empty AU -/

theorem assembler_inv_reset {P : List Nat → Prop} {s : decoder_sys_t}
    (h : assembler_inv P s) (b : Bool) : assembler_inv P (PacketizeReset s b) := by
  cases b with
  | false => exact assembler_inv_congr (s := s) rfl rfl rfl rfl rfl rfl rfl h
  | true =>
    constructor
    · exact Or.inl rfl
    · intro h0; exact absurd h0 (show (0 : Nat) ≠ BLOCK_FLAG_TYPE_I by decide)
    · exact h.sps_some
    · exact h.pps_some
    · exact h.sps_ok
    · exact h.pps_ok
    · intro b hb; cases hb
    · intro h0; cases h0
    · intro a t ht; cases ht

theorem assembler_inv_Open_init (P : List Nat → Prop) (g : decoder_sys_t) (n : Nat) :
    assembler_inv P { Open_init g with i_avcC_length_size := n } :=
  assembler_inv_congr (s := Open_state g) rfl rfl rfl rfl rfl rfl rfl (assembler_inv_Open P g)

theorem assembler_inv_Open_avcC_loop {P : List Nat → Prop} (hP : ∀ buf, P buf) (E : Parsers)
    (extra : List Nat) (oob : Nat → Nat) :
    ∀ (n p : Nat) (s s' : decoder_sys_t) (p' : Nat), assembler_inv P s →
      (Open_avcC_loop E extra oob n p s).2 = open_result.VLC_SUCCESS (s', p') →
      assembler_inv P s' := by
  intro n
  induction n with
  | zero =>
    intro p s s' p' hinv h
    rw [Open_avcC_loop] at h
    cases h
    exact hinv
  | succ k ih =>
    intro p s s' p' hinv h
    rw [Open_avcC_loop] at h
    dsimp only at h
    by_cases hc : (GetWBE extra oob p : Int) > (extra.length : Int) - ((p + 2 : Nat) : Int)
    · rw [if_pos hc] at h
      cases h
    · rw [if_neg hc] at h
      obtain ⟨s1, ts, pic, e, hinv1, _⟩ := ParseNALBlock_inv E (s := s)
        (f := CreateAnnexbNAL ((extra.drop (p + 2)).take (GetWBE extra oob p))) hinv rfl
        (hP _)
      rw [e] at h
      exact ih _ s1 s' p' hinv1 h

theorem assembler_inv_Open_avcC {P : List Nat → Prop} (hP : ∀ buf, P buf) (E : Parsers)
    (g : decoder_sys_t) (extra : List Nat) (oob : Nat → Nat) (s : decoder_sys_t)
    (h : (Open_avcC E (Open_init g) extra oob).2 = open_result.VLC_SUCCESS s) :
    assembler_inv P s := by
  unfold Open_avcC at h
  dsimp only at h
  split at h
  · cases h
  · cases h
  · rename_i t1 s2 p h1
    have hinv2 : assembler_inv P s2 :=
      assembler_inv_Open_avcC_loop hP E extra oob _ _ _ s2 p
        (assembler_inv_Open_init P g _) (by rw [h1])
    split at h
    · cases h
    · cases h
    · rename_i t2 s3 p3 h2
      have hinv3 : assembler_inv P s3 :=
        assembler_inv_Open_avcC_loop hP E extra oob _ _ _ s3 p3 hinv2 (by rw [h2])
      split_ifs at h
      cases h
      exact assembler_inv_congr (s := s3) rfl rfl rfl rfl rfl rfl rfl hinv3

/-- The invariant of the assembler holds in every reachable state. -/
theorem reachable_inv (E : Parsers) {s : decoder_sys_t} (h : reachable E s) :
    assembler_inv (fun _ => True) s := by
  induction h with
  | opened g => exact assembler_inv_Open _ g
  | opened_avc1 g extra oob s h => exact assembler_inv_Open_avcC (fun _ => trivial) E g extra oob s h
  | parse s s' f ts pic _ hf he ih =>
    obtain ⟨s1, ts1, pic1, e, hinv1, _⟩ := ParseNALBlock_inv E (f := f) ih hf trivial
    rw [e] at he
    cases he
    exact hinv1
  | output s s' pic _ he ih => exact assembler_inv_OutputPicture ih he
  | reset s b _ ih => exact assembler_inv_reset ih b

theorem feed_reachable (E : Parsers) :
    ∀ (frags : List block_t) (s s' : decoder_sys_t) (pics : List block_t), reachable E s →
      (∀ f ∈ frags, f.i_flags = 0) → feed E s frags = some (s', pics) → reachable E s' := by
  intro frags
  induction frags with
  | nil =>
    intro s s' pics hr _ h
    rw [feed] at h
    cases h
    exact hr
  | cons f rest ih =>
    intro s s' pics hr hc h
    rw [feed] at h
    cases hq : ParseNALBlock E s f with
    | none => rw [hq] at h; cases h
    | some r =>
      obtain ⟨s1, ts, p⟩ := r
      rw [hq] at h
      dsimp only at h
      cases hf : feed E s1 rest with
      | none => rw [hf] at h; cases h
      | some r2 =>
        obtain ⟨s2, pics2⟩ := r2
        rw [hf] at h
        have hr2 := ih s1 s2 pics2 (reachable.parse s s1 f ts p hr (hc f (by simp)) hq)
          (fun x hx => hc x (by simp [hx])) hf
        cases h
        exact hr2

theorem sample_after_reachable (frags : List block_t) (hclean : ∀ f ∈ frags, f.i_flags = 0) :
    reachable sampleParsers (sample_after frags) := by
  obtain ⟨s', pics, he, _, _⟩ := feed_inv (P := fun _ => True) sampleParsers frags
    (Open_state zero_sys) (assembler_inv_Open _ zero_sys) (fun f hf => ⟨hclean f hf, trivial⟩)
  have e : sample_after frags = s' := by
    unfold sample_after
    rw [he]
    rfl
  rw [e]
  exact feed_reachable sampleParsers frags _ s' pics (reachable.opened zero_sys) hclean he

/-- A picture that ParseNALBlock returns from a state of the assembler is the
gathering of a non-empty chain of NALs that were fed. -/
theorem ParseNALBlock_pic_chain {P : List Nat → Prop} (E : Parsers) {s s' : decoder_sys_t}
    {f pic : block_t} {ts : Bool} (hinv : assembler_inv P s)
    (h : ParseNALBlock E s f = some (s', ts, some pic)) :
    ∃ chain, chain ≠ [] ∧ pic.p_buffer = chain_bytes chain ∧ ∀ b ∈ chain, P b.p_buffer := by
  unfold ParseNALBlock at h
  cases hd : ParseNALBlock_dispatch E (ParseNALBlock_wait s) f with
  | none => rw [hd] at h; cases h
  | some r =>
    obtain ⟨s1, p, fr⟩ := r
    rw [hd] at h
    dsimp only at h
    cases h
    obtain ⟨s0, hcase, _⟩ := dispatch_cases E (fun _ _ => True) (fun _ => trivial)
      (fun _ => trivial) (fun _ _ => trivial) (fun _ _ => trivial) (fun _ _ => trivial)
      (fun _ _ => trivial) hd
    rcases hcase with ⟨_, hn⟩ | ho
    · cases hn
    · have hw := assembler_inv_wait hinv
      obtain ⟨_, chain, hc, hbuf⟩ := OutputPicture_some_buffer ho
      refine ⟨chain, (OutputPicture_chain_ne_nil hc).1, hbuf, ?_⟩
      intro b hb
      rcases OutputPicture_chain_mem hc hb with hm | hm | hm
      · exact (hw.frame_ok b hm).1
      · exact (hw.sps_ok b hm).2.2
      · exact (hw.pps_ok b hm).2.2

theorem feed_pics_chain {P : List Nat → Prop} (E : Parsers) :
    ∀ (frags : List block_t) (s : decoder_sys_t), assembler_inv P s →
      (∀ f ∈ frags, f.i_flags = 0 ∧ P f.p_buffer) →
      ∃ s' pics, feed E s frags = some (s', pics) ∧ assembler_inv P s' ∧
        ∀ pic ∈ pics, ∃ chain, chain ≠ [] ∧ pic.p_buffer = chain_bytes chain ∧
          ∀ b ∈ chain, P b.p_buffer := by
  intro frags
  induction frags with
  | nil =>
    intro s hinv _
    exact ⟨s, [], rfl, hinv, fun pic hp => by cases hp⟩
  | cons f rest ih =>
    intro s hinv hf
    obtain ⟨s1, ts, p, e, hinv1, _⟩ := ParseNALBlock_inv E (f := f) hinv
      (hf f (by simp)).1 (hf f (by simp)).2
    obtain ⟨s2, pics2, e2, hinv2, hall⟩ := ih s1 hinv1 (fun x hx => hf x (by simp [hx]))
    refine ⟨s2, p.toList ++ pics2, ?_, hinv2, ?_⟩
    · rw [feed, e]
      dsimp only
      rw [e2]
    · intro pic hp
      rcases List.mem_append.mp hp with hm | hm
      · cases p with
        | none => cases hm
        | some q =>
          have hq : pic = q := by simpa using hm
          subst hq
          exact ParseNALBlock_pic_chain E hinv e
      · exact hall pic hm

theorem ParseSei_read_ff_bounds (pb : List Nat) (hb : ∀ b ∈ pb, b < 256) :
    ∀ (fuel u acc : Nat),
      u ≤ (ParseSei_read_ff pb fuel u acc).2 ∧
      ((ParseSei_read_ff pb fuel u acc).2 = u ∨ (ParseSei_read_ff pb fuel u acc).2 + 1 ≤ pb.length) ∧
      acc ≤ (ParseSei_read_ff pb fuel u acc).1 ∧
      (ParseSei_read_ff pb fuel u acc).1 + 255 * u ≤ acc + 255 * (ParseSei_read_ff pb fuel u acc).2 ∧
      (0 < fuel → u + 1 < pb.length → u < (ParseSei_read_ff pb fuel u acc).2) := by
  intro fuel
  induction fuel with
  | zero =>
    intro u acc
    simp [ParseSei_read_ff]
  | succ n ih =>
    intro u acc
    by_cases h1 : u + 1 < pb.length
    · have hlt : pb.getD u 0 < 256 := by
        have hu : u < pb.length := by omega
        rw [List.getD_eq_getElem pb 0 hu]
        exact hb _ (List.getElem_mem _)
      by_cases h2 : pb.getD u 0 ≠ 0xff
      · have e : ParseSei_read_ff pb (n + 1) u acc = (acc + pb.getD u 0, u + 1) := by
          rw [ParseSei_read_ff, if_pos h1]; exact if_pos h2
        rw [e]
        dsimp only
        refine ⟨by omega, Or.inr (by omega), by omega, by omega, fun _ _ => by omega⟩
      · have e : ParseSei_read_ff pb (n + 1) u acc =
            ParseSei_read_ff pb n (u + 1) (acc + pb.getD u 0) := by
          rw [ParseSei_read_ff, if_pos h1]; exact if_neg h2
        rw [e]
        obtain ⟨a1, a2, a3, a4, _⟩ := ih (u + 1) (acc + pb.getD u 0)
        refine ⟨by omega, ?_, by omega, by omega, fun _ _ => by omega⟩
        rcases a2 with a2 | a2
        · right; omega
        · right; exact a2
    · have e : ParseSei_read_ff pb (n + 1) u acc = (acc, u) := by
        rw [ParseSei_read_ff, if_neg h1]
      rw [e]
      dsimp only
      refine ⟨le_refl _, Or.inl rfl, le_refl _, le_refl _, fun _ h => absurd h h1⟩

theorem ParseSei_read_ff_pos (pb : List Nat) :
    ∀ (fuel u acc : Nat), u ≤ (ParseSei_read_ff pb fuel u acc).2 := by
  intro fuel
  induction fuel with
  | zero => intro u acc; exact le_refl _
  | succ n ih =>
    intro u acc
    rw [ParseSei_read_ff]
    by_cases hc : u + 1 < pb.length
    · rw [if_pos hc]
      dsimp only
      by_cases h2 : pb.getD u 0 ≠ 0xff
      · rw [if_pos h2]; exact Nat.le_succ _
      · rw [if_neg h2]
        exact Nat.le_of_succ_le (ih (u + 1) _)
    · rw [if_neg hc]

theorem ParseSei_read_ff_fuel (pb : List Nat) :
    ∀ (f1 f2 u acc : Nat), pb.length ≤ u + f1 + 1 → pb.length ≤ u + f2 + 1 →
      ParseSei_read_ff pb f1 u acc = ParseSei_read_ff pb f2 u acc := by
  intro f1
  induction f1 with
  | zero =>
    intro f2 u acc h1 _
    cases f2 with
    | zero => rfl
    | succ m => rw [ParseSei_read_ff, ParseSei_read_ff, if_neg (by omega)]
  | succ n ih =>
    intro f2 u acc h1 h2
    cases f2 with
    | zero => rw [ParseSei_read_ff, ParseSei_read_ff, if_neg (by omega)]
    | succ m =>
      rw [ParseSei_read_ff, ParseSei_read_ff]
      by_cases hc : u + 1 < pb.length
      · rw [if_pos hc, if_pos hc]
        dsimp only
        rw [ih m (u + 1) (acc + pb.getD u 0) (by omega) (by omega)]
      · rw [if_neg hc, if_neg hc]

theorem ParseSei_read_ff_reads_bound (pb : List Nat) :
    ∀ (fuel u : Nat), ∀ i ∈ ParseSei_read_ff_reads pb fuel u, u ≤ i ∧ i + 1 < pb.length := by
  intro fuel
  induction fuel with
  | zero =>
    intro u i hi
    rw [ParseSei_read_ff_reads] at hi
    cases hi
  | succ n ih =>
    intro u i hi
    rw [ParseSei_read_ff_reads] at hi
    by_cases hc : u + 1 < pb.length
    · rw [if_pos hc] at hi
      dsimp only at hi
      by_cases h2 : pb.getD u 0 ≠ 0xff
      · rw [if_pos h2] at hi
        have e : i = u := by simpa using hi
        omega
      · rw [if_neg h2] at hi
        rcases List.mem_cons.mp hi with e | hm
        · omega
        · have := ih (u + 1) i hm
          omega
    · rw [if_neg hc] at hi
      cases hi

/-- The indices read by one loop are those from the start to the position it
reaches, in order. -/
theorem ParseSei_read_ff_reads_range (pb : List Nat) :
    ∀ (fuel u acc : Nat), ParseSei_read_ff_reads pb fuel u =
      List.range' u ((ParseSei_read_ff pb fuel u acc).2 - u) := by
  intro fuel
  induction fuel with
  | zero =>
    intro u acc
    simp [ParseSei_read_ff_reads, ParseSei_read_ff]
  | succ n ih =>
    intro u acc
    rw [ParseSei_read_ff_reads, ParseSei_read_ff]
    by_cases hc : u + 1 < pb.length
    · rw [if_pos hc, if_pos hc]
      dsimp only
      by_cases h2 : pb.getD u 0 ≠ 0xff
      · rw [if_pos h2, if_pos h2]
        simp
      · rw [if_neg h2, if_neg h2, ih (u + 1) (acc + pb.getD u 0)]
        have hle : u + 1 ≤ (ParseSei_read_ff pb n (u + 1) (acc + pb.getD u 0)).2 := by
          have := ParseSei_read_ff_pos pb n (u + 1) (acc + pb.getD u 0)
          exact this
        have e : (ParseSei_read_ff pb n (u + 1) (acc + pb.getD u 0)).2 - u =
            ((ParseSei_read_ff pb n (u + 1) (acc + pb.getD u 0)).2 - (u + 1)) + 1 := by omega
        rw [e, List.range'_succ]
    · rw [if_neg hc, if_neg hc]
      simp

theorem ParseSei_loop_fuel (E : Parsers) (pb : List Nat) :
    ∀ (f1 f2 u : Nat) (s : decoder_sys_t), pb.length ≤ u + f1 + 1 → pb.length ≤ u + f2 + 1 →
      ParseSei_loop E pb f1 u s = ParseSei_loop E pb f2 u s := by
  intro f1
  induction f1 with
  | zero =>
    intro f2 u s h1 _
    cases f2 with
    | zero => rfl
    | succ m => rw [ParseSei_loop, ParseSei_loop, if_neg (by omega)]
  | succ n ih =>
    intro f2 u s h1 h2
    cases f2 with
    | zero => rw [ParseSei_loop, ParseSei_loop, if_neg (by omega)]
    | succ m =>
      rw [ParseSei_loop, ParseSei_loop]
      by_cases hc : u + 1 < pb.length
      · rw [if_pos hc, if_pos hc]
        dsimp only
        by_cases hr : (ParseSei_read_ff pb pb.length (ParseSei_read_ff pb pb.length u 0).2 0).2 +
            (ParseSei_read_ff pb pb.length (ParseSei_read_ff pb pb.length u 0).2 0).1 + 1 >
            pb.length
        · rw [if_pos hr, if_pos hr]
        · rw [if_neg hr, if_neg hr]
          have h3 : u < (ParseSei_read_ff pb pb.length u 0).2 := by
            have hfuel : 0 < pb.length := by omega
            rw [ParseSei_read_ff_fuel pb pb.length (pb.length - 1 + 1) u 0 (by omega) (by omega),
              ParseSei_read_ff, if_pos hc]
            dsimp only
            by_cases h2 : pb.getD u 0 ≠ 0xff
            · rw [if_pos h2]; exact Nat.lt_succ_self _
            · rw [if_neg h2]
              exact ParseSei_read_ff_pos pb _ (u + 1) _
          have h4 := ParseSei_read_ff_pos pb pb.length (ParseSei_read_ff pb pb.length u 0).2 0
          exact ih m _ _ (by omega) (by omega)
      · rw [if_neg hc, if_neg hc]

/-- A run of `n` bytes 0xff closed by a byte that is not 0xff, with a byte
behind it: the loop adds them all up and stops behind the closing byte. -/
theorem ParseSei_read_ff_run (b c : Nat) (hb : b ≠ 0xff) :
    ∀ (n : Nat) (pre : List Nat) (fuel acc : Nat), n + 1 ≤ fuel →
      ParseSei_read_ff (pre ++ List.replicate n 0xff ++ [b, c]) fuel pre.length acc =
        (acc + 255 * n + b, pre.length + n + 1) := by
  intro n
  induction n with
  | zero =>
    intro pre fuel acc hf
    obtain ⟨m, rfl⟩ : ∃ m, fuel = m + 1 := ⟨fuel - 1, by omega⟩
    have hg : (pre ++ List.replicate 0 0xff ++ [b, c]).getD pre.length 0 = b := by
      rw [List.replicate_zero, List.append_nil, List.getD_append_right _ _ _ _ (le_refl _)]
      simp
    rw [ParseSei_read_ff, if_pos (by simp), hg]
    dsimp only
    rw [if_pos hb]
    simp
  | succ k ih =>
    intro pre fuel acc hf
    obtain ⟨m, rfl⟩ : ∃ m, fuel = m + 1 := ⟨fuel - 1, by omega⟩
    have hl : pre ++ List.replicate (k + 1) 0xff ++ [b, c] =
        (pre ++ [0xff]) ++ List.replicate k 0xff ++ [b, c] := by
      simp [List.replicate_succ]
    have hg : (pre ++ List.replicate (k + 1) 0xff ++ [b, c]).getD pre.length 0 = 0xff := by
      rw [List.append_assoc, List.getD_append_right _ _ _ _ (le_refl _)]
      simp [List.replicate_succ]
    rw [ParseSei_read_ff, if_pos (by simp), hg]
    dsimp only
    rw [if_neg (by decide), hl]
    have := ih (pre ++ [0xff]) m (acc + 0xff) (by omega)
    rw [List.length_append, List.length_singleton] at this
    rw [this]
    congr 1
    · omega
    · omega

/-- The buffer made of a type byte 4, `n` bytes 0xff, a byte 0 and a trailing
byte: the type loop reads one byte, the size loop adds up the `n` bytes 0xff. -/
theorem ParseSei_read_ff_long (n : Nat) :
    ([0x04] ++ List.replicate n 0xff ++ [0x00, 0x80]).length = n + 3 ∧
    (∀ b ∈ [0x04] ++ List.replicate n 0xff ++ [0x00, 0x80], b < 256) ∧
    ParseSei_read_ff ([0x04] ++ List.replicate n 0xff ++ [0x00, 0x80])
      ([0x04] ++ List.replicate n 0xff ++ [0x00, 0x80]).length 0 0 = (4, 1) ∧
    ParseSei_read_ff ([0x04] ++ List.replicate n 0xff ++ [0x00, 0x80])
      ([0x04] ++ List.replicate n 0xff ++ [0x00, 0x80]).length 1 0 = (255 * n, n + 2) := by
  have hl : ([0x04] ++ List.replicate n 0xff ++ [0x00, 0x80]).length = n + 3 := by
    simp only [List.length_append, List.length_replicate, List.length_cons, List.length_nil]
    omega
  refine ⟨hl, ?_, ?_, ?_⟩
  · intro b hb
    simp only [List.mem_append, List.mem_replicate, List.mem_cons, List.mem_singleton,
      List.not_mem_nil, or_false] at hb
    rcases hb with (rfl | ⟨_, rfl⟩) | rfl | rfl <;> decide
  · rw [hl, ParseSei_read_ff, if_pos (by rw [hl]; omega)]
    rfl
  · have h := ParseSei_read_ff_run 0x00 0x80 (by decide) n [0x04] (n + 3) 0 (by omega)
    simp only [List.length_singleton] at h
    rw [hl, h]
    exact Prod.ext (by dsimp only; omega) (by dsimp only; omega)

/-- A run of bytes 0xff closed by `00 80` holds no emulation prevention byte:
`CreateDecodedNAL` leaves it as it is. -/
theorem CreateDecodedNAL_ff_run (n : Nat) :
    CreateDecodedNAL (List.replicate n 0xff ++ [0x00, 0x80]) =
      List.replicate n 0xff ++ [0x00, 0x80] := by
  induction n with
  | zero => rfl
  | succ k ih =>
    rw [List.replicate_succ, List.cons_append, CreateDecodedNAL, ih]
    intro rest h
    cases h

/-- The long SEI NAL is an SEI NAL as allocated, and the buffer that ParseSei
decodes from it is `sample_sei_long`. -/
theorem nal_sei_long_decoded :
    nal_type nal_sei_long = NAL_SEI ∧ nal_sei_long.i_flags = 0 ∧
    CreateDecodedNAL (nal_sei_long.p_buffer.drop 5) = sample_sei_long := by
  refine ⟨rfl, rfl, ?_⟩
  show CreateDecodedNAL ([0x04] ++ List.replicate 8421505 0xff ++ [0x00, 0x80]) =
    [0x04] ++ List.replicate 8421505 0xff ++ [0x00, 0x80]
  rw [List.append_assoc, List.singleton_append, CreateDecodedNAL,
    CreateDecodedNAL_ff_run 8421505]
  intro rest h
  cases h

/-- Claim C26 (the code departs from it): the SEI NAL `00 00 00 01 06`,
`04`, 8,421,505 bytes `FF`, `00 80` decodes to a buffer of 8,421,508 bytes:
the type byte 4, 8,421,505 size bytes 0xff, a size byte 0 and the trailing
byte 0x80.  The type loop reads the type 4 at index 0; the size loop reads
the indices 1 to 8,421,506 and adds 255 to the `int` accumulator 8,421,505
times: the sum 2,147,483,775 is beyond the largest `int`, and the accumulated
size is the negative -2,147,483,521.  The test "Check room" of h264.c:1031,
which the sum itself would fail, passes on the `int` values, so a payload of
negative size is handled, and the position `i_used + i_size` of the next
iteration is the negative -2,139,062,014: it has not increased, and the next
byte is read at a negative index. -/
theorem ParseSei_size_overflow :
    nal_type nal_sei_long = NAL_SEI ∧ nal_sei_long.i_flags = 0 ∧
    CreateDecodedNAL (nal_sei_long.p_buffer.drop 5) = sample_sei_long ∧
    sample_sei_long.length = 8421508 ∧ (∀ b ∈ sample_sei_long, b < 256) ∧
    ParseSei_read_ff sample_sei_long sample_sei_long.length 0 0 = (4, 1) ∧
    ParseSei_read_ff sample_sei_long sample_sei_long.length 1 0 = (2147483775, 8421507) ∧
    int_of_u32 (ParseSei_read_ff sample_sei_long sample_sei_long.length 1 0).1 = -2147483521 ∧
    sample_sei_long.length < (ParseSei_read_ff sample_sei_long sample_sei_long.length 1 0).2 +
      (ParseSei_read_ff sample_sei_long sample_sei_long.length 1 0).1 + 1 ∧
    ParseSei_room ((ParseSei_read_ff sample_sei_long sample_sei_long.length 1 0).2 : Nat)
      (int_of_u32 (ParseSei_read_ff sample_sei_long sample_sei_long.length 1 0).1)
      sample_sei_long.length = true ∧
    (((ParseSei_read_ff sample_sei_long sample_sei_long.length 1 0).2 : Nat) : Int) +
      int_of_u32 (ParseSei_read_ff sample_sei_long sample_sei_long.length 1 0).1 =
        -2139062014 := by
  have h := ParseSei_read_ff_long 8421505
  have e : ParseSei_read_ff sample_sei_long sample_sei_long.length 1 0 =
      (2147483775, 8421507) := h.2.2.2
  have hi : int_of_u32 2147483775 = -2147483521 := by decide
  have hlen : sample_sei_long.length = 8421508 := h.1
  refine ⟨nal_sei_long_decoded.1, nal_sei_long_decoded.2.1, nal_sei_long_decoded.2.2,
    h.1, h.2.1, h.2.2.1, e, ?_, ?_, ?_, ?_⟩
  · rw [e]; exact hi
  · rw [e, hlen]
    decide
  · rw [e, hlen]
    show ParseSei_room ((8421507 : Nat) : Int) (int_of_u32 2147483775) ((8421508 : Nat) : Int) =
      true
    rw [hi]
    decide
  · rw [e]
    show ((8421507 : Nat) : Int) + int_of_u32 2147483775 = -2139062014
    rw [hi]
    decide

/-- The payload loop of ParseSei within the range of its `int` accumulators:
for every decoded SEI byte buffer shorter than 2^23 bytes, the payload loop of ParseSei terminates (with any number of turns
allowed beyond the length of the buffer the two byte loops and the payload
loop return what they return with the length), and in every iteration, begun
at a position `i_used` with `i_used + 1 < length`: the position strictly
increases over the type loop and does not decrease over the size loop, every
byte read for the type or the size is at an index below `length - 1`, no sum
leaves the range of its `int` accumulator, the accumulated size is
non-negative, the room test on the `int` values is the test
`used + size + 1 <= length`; when it fails the loop is left, and when it
passes the payload range `[used, used + size)` lies inside the buffer and
the next iteration begins at `used + size`, beyond `i_used`. -/
theorem ParseSei_loop_bounded (E : Parsers) (pb_dec : List Nat)
    (hbytes : ∀ b ∈ pb_dec, b < 256) (hlen : pb_dec.length < 2 ^ 23) :
    (∀ (s : decoder_sys_t) (fuel : Nat), pb_dec.length ≤ fuel →
      ParseSei_loop E pb_dec fuel 0 s = ParseSei_loop E pb_dec pb_dec.length 0 s) ∧
    ∀ i_used, i_used + 1 < pb_dec.length →
      ∃ i_type u1 i_size u2,
        (∀ fuel, pb_dec.length ≤ fuel → ParseSei_read_ff pb_dec fuel i_used 0 = (i_type, u1)) ∧
        (∀ fuel, pb_dec.length ≤ fuel → ParseSei_read_ff pb_dec fuel u1 0 = (i_size, u2)) ∧
        i_used < u1 ∧ u1 ≤ u2 ∧ u2 + 1 ≤ pb_dec.length ∧
        ParseSei_read_ff_reads pb_dec pb_dec.length i_used = List.range' i_used (u1 - i_used) ∧
        ParseSei_read_ff_reads pb_dec pb_dec.length u1 = List.range' u1 (u2 - u1) ∧
        (∀ i ∈ ParseSei_read_ff_reads pb_dec pb_dec.length i_used ++
            ParseSei_read_ff_reads pb_dec pb_dec.length u1, i < pb_dec.length - 1) ∧
        int_of_u32 i_type = (i_type : Int) ∧ int_of_u32 i_size = (i_size : Int) ∧
        0 ≤ int_of_u32 i_size ∧
        ParseSei_room u2 (int_of_u32 i_size) pb_dec.length =
          decide (u2 + i_size + 1 ≤ pb_dec.length) ∧
        (pb_dec.length < u2 + i_size + 1 →
          ∀ (s : decoder_sys_t) (fuel : Nat), ParseSei_loop E pb_dec (fuel + 1) i_used s = s) ∧
        (u2 + i_size + 1 ≤ pb_dec.length →
          i_used < u2 + i_size ∧ u2 + i_size ≤ pb_dec.length ∧
          ∀ (s : decoder_sys_t) (fuel : Nat), ParseSei_loop E pb_dec (fuel + 1) i_used s =
            ParseSei_loop E pb_dec fuel (u2 + i_size)
              (ParseSei_payload E pb_dec i_type u2 i_size s)) := by
  refine ⟨fun s fuel hf => ParseSei_loop_fuel E pb_dec fuel pb_dec.length 0 s (by omega)
    (by omega), ?_⟩
  intro i_used hi
  obtain ⟨a1, a2, a3, a4, a5⟩ := ParseSei_read_ff_bounds pb_dec hbytes pb_dec.length i_used 0
  obtain ⟨b1, b2, b3, b4, b5⟩ := ParseSei_read_ff_bounds pb_dec hbytes pb_dec.length
    (ParseSei_read_ff pb_dec pb_dec.length i_used 0).2 0
  have a6 := a5 (by omega) hi
  have hl : pb_dec.length < 8388608 := hlen
  have ht : (ParseSei_read_ff pb_dec pb_dec.length i_used 0).1 < 2 ^ 31 := by
    show _ < 2147483648
    omega
  have hz : (ParseSei_read_ff pb_dec pb_dec.length
      (ParseSei_read_ff pb_dec pb_dec.length i_used 0).2 0).1 < 2 ^ 31 := by
    show _ < 2147483648
    omega
  refine ⟨(ParseSei_read_ff pb_dec pb_dec.length i_used 0).1,
    (ParseSei_read_ff pb_dec pb_dec.length i_used 0).2,
    (ParseSei_read_ff pb_dec pb_dec.length (ParseSei_read_ff pb_dec pb_dec.length i_used 0).2 0).1,
    (ParseSei_read_ff pb_dec pb_dec.length (ParseSei_read_ff pb_dec pb_dec.length i_used 0).2 0).2,
    fun fuel hf => ParseSei_read_ff_fuel pb_dec fuel pb_dec.length i_used 0 (by omega) (by omega),
    fun fuel hf => ParseSei_read_ff_fuel pb_dec fuel pb_dec.length _ 0 (by omega) (by omega),
    a6, b1, by omega, ParseSei_read_ff_reads_range pb_dec _ _ 0,
    ParseSei_read_ff_reads_range pb_dec _ _ 0, ?_, int_of_u32_small ht, int_of_u32_small hz,
    ?_, ?_, ?_, ?_⟩
  · intro i hm
    rcases List.mem_append.mp hm with h | h
    · have := ParseSei_read_ff_reads_bound pb_dec _ _ i h
      omega
    · have := ParseSei_read_ff_reads_bound pb_dec _ _ i h
      omega
  · rw [int_of_u32_small hz]
    exact Int.natCast_nonneg _
  · rw [int_of_u32_small hz]
    unfold ParseSei_room
    rw [decide_eq_decide]
    omega
  · intro hr s fuel
    rw [ParseSei_loop, if_pos hi]
    exact if_pos hr
  · intro hr
    refine ⟨by omega, by omega, ?_⟩
    intro s fuel
    rw [ParseSei_loop, if_pos hi]
    exact if_neg (by omega)

/-- The payload loop on a sample: the decoded SEI buffer
`05 02 AA BB FF 06 01 CC 80` holds a payload of type 5 at `[2, 4)` and one of
type 0x105 at `[7, 8)`; the type and size of the second are read at the
indices 4, 5 and 6. -/
theorem ParseSei_loop_bounded_witness :
    (∀ b ∈ sample_sei_two, b < 256) ∧ sample_sei_two.length < 2 ^ 23 ∧
    sample_sei_two.length = 9 ∧
    ParseSei_read_ff sample_sei_two 9 0 0 = (5, 1) ∧
    ParseSei_read_ff sample_sei_two 9 1 0 = (2, 2) ∧
    ParseSei_read_ff sample_sei_two 9 4 0 = (0x105, 6) ∧
    ParseSei_read_ff sample_sei_two 9 6 0 = (1, 7) ∧
    ParseSei_read_ff_reads sample_sei_two 9 4 = [4, 5] ∧
    ParseSei_read_ff_reads sample_sei_two 9 6 = [6] ∧
    (∀ (s : decoder_sys_t) (fuel : Nat), sample_sei_two.length ≤ fuel →
      ParseSei_loop sampleParsers sample_sei_two fuel 0 s =
        ParseSei_loop sampleParsers sample_sei_two sample_sei_two.length 0 s) :=
  ⟨by decide, by decide, by decide, by decide, by decide, by decide, by decide, by decide,
    by decide,
    (ParseSei_loop_bounded sampleParsers sample_sei_two (by decide) (by decide)).1⟩

end H264
